import Mathlib

/-!
# Messaging platform: session manager and delivery pipeline

A shallow embedding of the Go backend (`internal/websocket`, `internal/presence`,
`internal/message`, `pkg/cache`, `internal/models`) together with theorems about it.

Conventions of the embedding

* `time.Time` and `time.Duration` are natural numbers of seconds; every operation reads
  the clock once, the value being an input `now` of the operation.
* A MongoDB collection is the list of its documents in insertion order.  `UpdateOne`,
  `DeleteOne`, `FindOne` act on the first document matching the filter.  Whether a store
  call succeeds is an input of the operation (a Boolean per call), as is the `_id` the
  driver generates for an inserted document that has none.
* A `sync.Map` keyed by strings is a function `String → Option V`.
* A Go channel is a record of its buffer, capacity, closed flag and parked senders; a
  `*Client` is the value of its immutable fields, its `Send` channel being a handle into
  the heap of channels of the `World`.
* `go f(x)` appends the call to the list of spawned goroutines of the `World`.
* `json.Marshal` is a parameter `marshal`; `json.Unmarshal` of an inbound payload is
  represented by its result (error flag and the populated request struct).
-/

namespace Messaging

/-! ## primitive.ObjectID -/

/-- A `primitive.ObjectID`: twelve bytes, kept as their 24 hexadecimal digits. -/
structure ObjectID where
  digits : List (Fin 16)
  len : digits.length = 24
deriving DecidableEq

/-- The zero value `primitive.NilObjectID`. -/
def NilObjectID : ObjectID := ⟨List.replicate 24 0, by simp⟩

instance : Inhabited ObjectID := ⟨NilObjectID⟩

/-- Value of one hexadecimal character, either case, as `encoding/hex` accepts it. -/
def hexVal (c : Char) : Option (Fin 16) :=
  if 48 ≤ c.toNat ∧ c.toNat ≤ 57 then some (Fin.ofNat (c.toNat - 48))
  else if 97 ≤ c.toNat ∧ c.toNat ≤ 102 then some (Fin.ofNat (c.toNat - 87))
  else if 65 ≤ c.toNat ∧ c.toNat ≤ 70 then some (Fin.ofNat (c.toNat - 55))
  else none

/-- Lower-case hexadecimal character of a digit, as `encoding/hex` emits it. -/
def hexDigit (d : Fin 16) : Char :=
  if d.val < 10 then Char.ofNat (48 + d.val) else Char.ofNat (87 + d.val)

/-- Decode a list of hexadecimal characters; `none` as soon as one is not a digit. -/
def decodeHex : List Char → Option (List (Fin 16))
  | [] => some []
  | c :: cs =>
    match hexVal c, decodeHex cs with
    | some d, some ds => some (d :: ds)
    | _, _ => none

/-- The Go function `primitive.ObjectIDFromHex`: `none` is `ErrInvalidHex`. -/
def ObjectIDFromHex (s : String) : Option ObjectID :=
  if s.length = 24 then
    match decodeHex s.toList with
    | some ds => if h : ds.length = 24 then some ⟨ds, h⟩ else none
    | none => none
  else none

/-- The Go method `ObjectID.Hex`. -/
def ObjectID.Hex (o : ObjectID) : String := String.mk (o.digits.map hexDigit)

/-- The Go helper `mustObjectID` of `manager.go`: the zero id when the string is malformed. -/
def mustObjectID (id : String) : ObjectID := (ObjectIDFromHex id).getD NilObjectID

/-- The object id whose 96-bit value is `n`; used to write concrete ids. -/
def ObjectID.ofNat (n : Nat) : ObjectID :=
  ⟨(List.range 24).reverse.map (fun i => Fin.ofNat (n / 16 ^ i)), by simp⟩

/-! ## models -/

abbrev Time := Nat
abbrev Duration := Nat

/-- The constant `time.Minute`, time being counted in seconds. -/
def Minute : Duration := 60

structure Presence where
  Status : String
  LastSeen : Time
  WebSocketID : String
  DeviceID : String
deriving DecidableEq

structure UserSettings where
  ReadReceipts : Bool
  LastSeenPrivacy : String
deriving DecidableEq

structure User where
  ID : ObjectID
  Username : String
  Email : String
  Phone : String
  PasswordHash : String
  ProfilePicture : String
  StatusMessage : String
  Presence : Presence
  Settings : UserSettings
  CreatedAt : Time
  UpdatedAt : Time
deriving DecidableEq

structure LastMessage where
  Content : String
  SenderID : ObjectID
  Timestamp : Time
  Type_ : String
deriving DecidableEq

structure Conversation where
  ID : ObjectID
  Type_ : String
  Participants : List ObjectID
  CreatedBy : ObjectID
  Name : String
  Description : String
  GroupPicture : String
  Admins : List ObjectID
  LastMessage : Option LastMessage
  CreatedAt : Time
  UpdatedAt : Time
deriving DecidableEq

structure Media where
  URL : String
  Thumbnail : String
  Size : Int
  MimeType : String
deriving DecidableEq

structure DeliveryStatus where
  UserID : ObjectID
  Status : String
  Timestamp : Time
deriving DecidableEq

structure Message where
  ID : ObjectID
  ConversationID : ObjectID
  SenderID : ObjectID
  Content : String
  Type_ : String
  Media : Option Media
  Timestamp : Time
  Status : String
  DeliveryStatus : List DeliveryStatus
  RepliedTo : ObjectID
  Forwarded : Bool
  Deleted : Bool
  DeletedFor : List ObjectID
deriving DecidableEq

structure MessageQueue where
  ID : ObjectID
  UserID : ObjectID
  MessageID : ObjectID
  ConversationID : ObjectID
  Priority : Int
  CreatedAt : Time
  RetryCount : Int
  LastRetry : Time
  Status : String
deriving DecidableEq

structure Contact where
  ID : ObjectID
  UserID : ObjectID
  ContactID : ObjectID
  DisplayName : String
  Blocked : Bool
  AddedAt : Time
deriving DecidableEq

structure ActiveConnection where
  ID : ObjectID
  UserID : ObjectID
  ConnectionID : String
  DeviceID : String
  DeviceType : String
  ConnectedAt : Time
  LastHeartbeat : Time
  ServerInstance : String
  ExpiresAt : Time
deriving DecidableEq

/-! ## The persistent store -/

/-- The six collections of the database, each in insertion order. -/
structure Database where
  users : List User
  conversations : List Conversation
  messages : List Message
  message_queue : List MessageQueue
  contacts : List Contact
  active_connections : List ActiveConnection
deriving DecidableEq

/-- The store call `UpdateOne`: apply `f` to the first document matching `p`. -/
def updateOne {α : Type} (p : α → Bool) (f : α → α) : List α → List α
  | [] => []
  | x :: xs => if p x then f x :: xs else x :: updateOne p f xs

/-- The store call `DeleteOne`: remove the first document matching `p`. -/
def deleteOne {α : Type} (p : α → Bool) : List α → List α
  | [] => []
  | x :: xs => if p x then xs else x :: deleteOne p xs

/-- The id stored for an inserted document: a zero `_id` is omitted from the encoding
(`bson:"_id,omitempty"`) and the driver generates `newID`; a non-zero one is kept. -/
def insertedID (docID newID : ObjectID) : ObjectID :=
  if docID = NilObjectID then newID else docID

/-! ## pkg/config -/

structure Config where
  ServerID : String
  WSHeartbeatInterval : Duration
  WSConnectionTimeout : Duration
  CacheTTL : Duration
  CacheCleanupInterval : Duration

/-! ## pkg/cache -/

structure cacheItem (α : Type) where
  Value : α
  Expiration : Time

/-- A string-keyed `sync.Map`. -/
abbrev SyncMap (V : Type) := String → Option V

def SyncMap.empty {V : Type} : SyncMap V := fun _ => none

def SyncMap.Load {V : Type} (m : SyncMap V) (k : String) : Option V := m k

def SyncMap.Store {V : Type} (m : SyncMap V) (k : String) (v : V) : SyncMap V :=
  fun k' => if k' = k then some v else m k'

def SyncMap.Delete {V : Type} (m : SyncMap V) (k : String) : SyncMap V :=
  fun k' => if k' = k then none else m k'

/-- The call `LoadOrStore`: the existing value if present, else store and return `v`. -/
def SyncMap.LoadOrStore {V : Type} (m : SyncMap V) (k : String) (v : V) : V × SyncMap V :=
  match m k with
  | some old => (old, m)
  | none => (v, m.Store k v)

structure Cache (α : Type) where
  data : SyncMap (cacheItem α)
  ttl : Duration

def Cache.Set {α : Type} (c : Cache α) (now : Time) (key : String) (value : α) : Cache α :=
  { c with data := c.data.Store key ⟨value, now + c.ttl⟩ }

def Cache.SetWithTTL {α : Type} (c : Cache α) (now : Time) (key : String) (value : α)
    (ttl : Duration) : Cache α :=
  { c with data := c.data.Store key ⟨value, now + ttl⟩ }

/-- The method `Get`: an entry whose expiration is strictly before `now` is deleted and
reported absent. -/
def Cache.Get {α : Type} (c : Cache α) (now : Time) (key : String) : Option α × Cache α :=
  match c.data.Load key with
  | none => (none, c)
  | some item =>
    if item.Expiration < now then (none, { c with data := c.data.Delete key })
    else (some item.Value, c)

/-! ## Go channels -/

/-- Serialised JSON text, the element type of a session outbound buffer. -/
abbrev Bytes := String

/-- A buffered channel of `Bytes`: `sendq` holds the payloads of senders parked on a full
buffer. -/
structure Chan where
  buf : List Bytes
  cap : Nat
  closed : Bool
  sendq : List Bytes
deriving DecidableEq

/-- The call `make(chan []byte, cap)`. -/
def Chan.make (cap : Nat) : Chan := ⟨[], cap, false, []⟩

/-- Result of attempting a send. -/
inductive SendOutcome where
  | sent (ch : Chan)
  | full
  | closed
deriving DecidableEq

/-- One attempt to send `x`: a closed channel panics, a buffer with room takes `x` at its
tail, a full buffer refuses. -/
def Chan.trySend (ch : Chan) (x : Bytes) : SendOutcome :=
  if ch.closed then .closed
  else if ch.buf.length < ch.cap then .sent { ch with buf := ch.buf ++ [x] }
  else .full

/-- The statement `ch <- x`: as `trySend`, but on a full buffer the sender parks. The
Boolean is true when the send panics. -/
def Chan.send (ch : Chan) (x : Bytes) : Chan × Bool :=
  match ch.trySend x with
  | .sent ch1 => (ch1, false)
  | .full => ({ ch with sendq := ch.sendq ++ [x] }, false)
  | .closed => (ch, true)

/-- The call `close(ch)`: closing a closed channel panics, and so do the senders parked on
the channel. The Boolean is true when something panics. -/
def Chan.close (ch : Chan) : Chan × Bool :=
  if ch.closed then (ch, true)
  else ({ ch with closed := true, sendq := [] }, !ch.sendq.isEmpty)

/-- A receive by the write pump: the head of the buffer is taken and the first parked
sender, if any, completes its send. `none` when there is nothing to take. -/
def Chan.recv (ch : Chan) : Option Bytes × Chan :=
  match ch.buf with
  | [] => (none, ch)
  | x :: rest =>
    match ch.sendq with
    | [] => (some x, { ch with buf := rest })
    | y :: q => (some x, { ch with buf := rest ++ [y], sendq := q })

/-- The operations the code performs on a session outbound channel: the non-blocking send
of `broadcastToUser` and `sendQueuedMessages`, the blocking send of the acks, the receive
of the write pump and the close of `unregisterClient`. -/
inductive ChanOp where
  | trySend (x : Bytes)
  | send (x : Bytes)
  | recv
  | close

/-- The channel after one operation (a panicking operation leaves it as it is). -/
def Chan.step (ch : Chan) : ChanOp → Chan
  | .trySend x =>
    match ch.trySend x with
    | .sent ch1 => ch1
    | _ => ch
  | .send x => (ch.send x).1
  | .recv => ch.recv.2
  | .close => ch.close.1

/-! ## internal/websocket: types -/

/-- The immutable fields of a `*Client`; `Send` is the handle of its outbound channel. -/
structure Client where
  ID : String
  UserID : String
  Send : Nat
deriving DecidableEq

/-- The outbound frames: the values handed to `json.Marshal` by the manager and the
dispatcher (`map[string]interface{}` literals keyed by `type`). -/
inductive Frame where
  | new_message (message : Message)
  | queued_message (message : Message)
  | status_update (message_id : String) (status : String)
  | typing (user_id : String) (is_typing : Bool)
  | message_ack (temp_id : String) (server_id : String) (timestamp : Time) (status : String)
  | message_ack_error (temp_id : String) (error : String)
deriving DecidableEq

structure BroadcastMessage where
  UserID : String
  Message : Frame
deriving DecidableEq

/-- A call started with `go`. -/
inductive Goroutine where
  | unregisterClient (client : Client)
  | sendQueuedMessages (client : Client)
deriving DecidableEq

structure PresenceInfo where
  UserID : String
  Status : String
  LastSeen : Time
  Connections : List String
deriving DecidableEq

/-- The process state: the `Manager` registry and channels, the heap of session outbound
channels, the store, the cache, the goroutines started and not yet run, and whether some
goroutine has panicked. -/
structure World where
  connections : SyncMap Client
  userConnections : SyncMap (List String)
  broadcast : List BroadcastMessage
  chans : Nat → Chan
  nextChan : Nat
  spawned : List Goroutine
  db : Database
  cache : Cache PresenceInfo
  panicked : Bool

/-- A freshly started process over the store `db`: empty registry, empty cache. -/
def World.init (cfg : Config) (db : Database) : World :=
  { connections := SyncMap.empty
    userConnections := SyncMap.empty
    broadcast := []
    chans := fun _ => Chan.make 0
    nextChan := 0
    spawned := []
    db := db
    cache := ⟨SyncMap.empty, cfg.CacheTTL⟩
    panicked := false }

/-! ## internal/presence -/

abbrev Error := String

/-- The driver error for an id string that is not 24 hexadecimal digits. -/
def ErrInvalidHex : Error := "the provided hex string is not a valid ObjectID"

/-- The error a failing store call returns. -/
def ErrStore : Error := "store error"

/-- The `$set` of `SetOnline` applied to a user document: `presence.status`,
`presence.websocket_id` and `updated_at`. -/
def onlineDoc (now : Time) (connectionID : String) (u : User) : User :=
  { u with Presence := { u.Presence with Status := "online", WebSocketID := connectionID },
           UpdatedAt := now }

/-- The `$set` of `SetOffline` applied to a user document: `presence.status`,
`presence.last_seen`, `presence.websocket_id` and `updated_at`. -/
def offlineDoc (now : Time) (u : User) : User :=
  { u with Presence := { u.Presence with Status := "offline", LastSeen := now, WebSocketID := "" },
           UpdatedAt := now }

/-- The method `presence.Service.SetOnline`; `updateOk` tells whether the `UpdateOne` on
`users` succeeds. -/
def SetOnline (w : World) (now : Time) (updateOk : Bool) (userID connectionID : String) :
    World × Option Error :=
  match ObjectIDFromHex userID with
  | none => (w, some ErrInvalidHex)
  | some id =>
    if !updateOk then (w, some ErrStore)
    else
      let users := updateOne (fun u : User => u.ID = id) (onlineDoc now connectionID) w.db.users
      let cacheKey := "presence:" ++ userID
      let presence : PresenceInfo :=
        { UserID := userID, Status := "online", LastSeen := now, Connections := [connectionID] }
      ({ w with db := { w.db with users := users },
                cache := w.cache.Set now cacheKey presence }, none)

/-- The method `presence.Service.SetOffline`; `updateOk` tells whether the `UpdateOne` on
`users` succeeds. -/
def SetOffline (w : World) (now : Time) (updateOk : Bool) (userID : String) :
    World × Option Error :=
  match ObjectIDFromHex userID with
  | none => (w, some ErrInvalidHex)
  | some id =>
    if !updateOk then (w, some ErrStore)
    else
      let users := updateOne (fun u : User => u.ID = id) (offlineDoc now) w.db.users
      let cacheKey := "presence:" ++ userID
      let presence : PresenceInfo :=
        { UserID := userID, Status := "offline", LastSeen := now, Connections := [] }
      ({ w with db := { w.db with users := users },
                cache := w.cache.SetWithTTL now cacheKey presence (1 * Minute) }, none)

/-! ## internal/websocket: the manager -/

/-- Inputs of one `registerClient` call: the clock, the id the driver gives the
`ActiveConnection` document, and the verdict of the two store writes. -/
structure RegisterEnv where
  now : Time
  newID : ObjectID
  insertOk : Bool
  presenceOk : Bool

/-- Inputs of one `unregisterClient` call: the clock and the verdict of the two store
writes. -/
structure UnregisterEnv where
  now : Time
  presenceOk : Bool
  deleteOk : Bool

/-- The method `Manager.registerClient`. -/
def registerClient (cfg : Config) (e : RegisterEnv) (w : World) (client : Client) : World :=
  -- Store connection
  let w := { w with connections := w.connections.Store client.ID client }
  -- Update user connections
  let (connections, uc) := w.userConnections.LoadOrStore client.UserID []
  let connList := connections ++ [client.ID]
  let w := { w with userConnections := uc.Store client.UserID connList }
  -- Save to database
  let doc : ActiveConnection :=
    { ID := e.newID
      UserID := mustObjectID client.UserID
      ConnectionID := client.ID
      DeviceID := ""
      DeviceType := "web"
      ConnectedAt := e.now
      LastHeartbeat := e.now
      ServerInstance := cfg.ServerID
      ExpiresAt := e.now + cfg.WSConnectionTimeout }
  let w := if e.insertOk then
      { w with db := { w.db with active_connections := w.db.active_connections ++ [doc] } }
    else w
  -- Set user online
  let w := (SetOnline w e.now e.presenceOk client.UserID client.ID).1
  -- Send queued messages
  { w with spawned := w.spawned ++ [.sendQueuedMessages client] }

/-- The method `Manager.unregisterClient`. -/
def unregisterClient (e : UnregisterEnv) (w : World) (client : Client) : World :=
  -- Remove connection
  let w := { w with connections := w.connections.Delete client.ID }
  -- Update user connections
  let w := match w.userConnections.Load client.UserID with
    | some connList =>
      let newList := connList.filter (fun id => id ≠ client.ID)
      if newList.length = 0 then
        let w := { w with userConnections := w.userConnections.Delete client.UserID }
        -- Set user offline
        (SetOffline w e.now e.presenceOk client.UserID).1
      else
        { w with userConnections := w.userConnections.Store client.UserID newList }
    | none => w
  -- Remove from database
  let remaining := deleteOne (fun a : ActiveConnection => a.ConnectionID = client.ID)
    w.db.active_connections
  let w := if e.deleteOk then { w with db := { w.db with active_connections := remaining } }
    else w
  let (ch, p) := (w.chans client.Send).close
  { w with chans := Function.update w.chans client.Send ch, panicked := w.panicked || p }

/-- The loop body of `Manager.broadcastToUser` for one connection id. -/
def broadcastToConn (data : Bytes) (w : World) (connID : String) : World :=
  match w.connections.Load connID with
  | some client =>
    match (w.chans client.Send).trySend data with
    | .sent ch => { w with chans := Function.update w.chans client.Send ch }
    | .full =>
      -- Client buffer full, unregister
      { w with spawned := w.spawned ++ [.unregisterClient client] }
    | .closed => { w with panicked := true }
  | none => w

/-- The method `Manager.broadcastToUser`. -/
def broadcastToUser (marshal : Frame → Option Bytes) (w : World) (broadcast : BroadcastMessage) :
    World :=
  match w.userConnections.Load broadcast.UserID with
  | some connections =>
    match marshal broadcast.Message with
    | none => w
    | some data => connections.foldl (broadcastToConn data) w
  | none => w

/-- The method `Manager.SendToUser`: push on the `broadcast` channel. The coordinator
drains that channel, so the push is recorded at the tail of the pending broadcasts. -/
def SendToUser (w : World) (userID : String) (message : Frame) : World :=
  { w with broadcast := w.broadcast ++ [⟨userID, message⟩] }

/-- The constructor part of `Handler.HandleWebSocket`: a client with connection id `uuid`
and a new outbound channel of capacity 256. -/
def newClient (w : World) (userID uuid : String) : World × Client :=
  ({ w with chans := Function.update w.chans w.nextChan (Chan.make 256),
            nextChan := w.nextChan + 1 },
   { ID := uuid, UserID := userID, Send := w.nextChan })

/-- The method `Handler.HandleWebSocket` up to the start of the pumps: build the client
and hand it to the coordinator on `register`. -/
def HandleWebSocket (cfg : Config) (e : RegisterEnv) (w : World) (userID uuid : String) :
    World × Client :=
  let (w, client) := newClient w userID uuid
  (registerClient cfg e w client, client)

/-- One value received by the coordinator on `register`, `unregister` or `broadcast`. -/
inductive Op where
  | register (e : RegisterEnv) (client : Client)
  | unregister (e : UnregisterEnv) (client : Client)
  | broadcast (b : BroadcastMessage)

/-- One iteration of the `select` of `Manager.Run`. -/
def Manager.step (marshal : Frame → Option Bytes) (cfg : Config) (w : World) : Op → World
  | .register e client => registerClient cfg e w client
  | .unregister e client => unregisterClient e w client
  | .broadcast b => broadcastToUser marshal w b

/-- The method `Manager.Run` over the values `ops` received in that order. -/
def Manager.Run (marshal : Frame → Option Bytes) (cfg : Config) (w : World) (ops : List Op) :
    World :=
  ops.foldl (Manager.step marshal cfg) w

/-- The user id string is the `Hex` of an object id, as `generateToken` writes it into the
token from which the upgrade boundary takes the session user id. -/
def isCanonicalID (s : String) : Bool :=
  match ObjectIDFromHex s with
  | some o => o.Hex == s
  | none => false

/-- The operation is a register or unregister of a session of an authenticated user whose
presence write the store accepts, or a broadcast. -/
def Op.presenceOk : Op → Bool
  | .register e client => e.presenceOk && isCanonicalID client.UserID
  | .unregister e client => e.presenceOk && isCanonicalID client.UserID
  | .broadcast _ => true

/-- The sequence of operations is one the pumps can produce given the clients `reg`
registered so far: a registered session has a connection id not used before, and only a
session registered before is unregistered. -/
def WellFormed : List Client → List Op → Prop
  | _, [] => True
  | reg, .register _ c :: ops => c.ID ∉ reg.map (fun r => r.ID) ∧ WellFormed (c :: reg) ops
  | reg, .unregister _ c :: ops => c ∈ reg ∧ WellFormed reg ops
  | reg, .broadcast _ :: ops => WellFormed reg ops


/-! ## internal/message -/

/-- The filter of `GetOrCreateConversation`: `type = "direct"` and
`participants: {$all: participants, $size: len(participants)}`. An `$all` with an empty
list matches no document. -/
def directFilter (participants : List ObjectID) (c : Conversation) : Bool :=
  c.Type_ == "direct" && !participants.isEmpty
    && participants.all (fun p => c.Participants.contains p)
    && c.Participants.length == participants.length

/-- The loop of `GetOrCreateConversation` converting the id strings, stopping at the first
malformed one. -/
def parseIDs : List String → Option (List ObjectID)
  | [] => some []
  | id :: ids =>
    match ObjectIDFromHex id with
    | none => none
    | some o =>
      match parseIDs ids with
      | none => none
      | some os => some (o :: os)

/-- The method `message.Service.GetOrCreateConversation`. `findOk` and `insertOk` tell
whether the two store calls succeed; `newID` is the id the driver generates on insert. -/
def GetOrCreateConversation (db : Database) (now : Time) (newID : ObjectID)
    (findOk insertOk : Bool) (userIDs : List String) : Database × Except Error Conversation :=
  match parseIDs userIDs with
  | none => (db, .error ErrInvalidHex)
  | some participants =>
    if !findOk then (db, .error ErrStore)
    else
      match db.conversations.find? (directFilter participants) with
      | some conversation => (db, .ok conversation)
      | none =>
        let conversation : Conversation :=
          { ID := NilObjectID, Type_ := "direct", Participants := participants,
            CreatedBy := NilObjectID, Name := "", Description := "", GroupPicture := "",
            Admins := [], LastMessage := none, CreatedAt := now, UpdatedAt := now }
        if !insertOk then (db, .error ErrStore)
        else
          let conversation := { conversation with ID := insertedID conversation.ID newID }
          ({ db with conversations := db.conversations ++ [conversation] }, .ok conversation)

/-- The method `message.Service.updateConversationLastMessage`. -/
def updateConversationLastMessage (db : Database) (now : Time) (updateOk : Bool)
    (msg : Message) : Database × Option Error :=
  let lastMsg : LastMessage :=
    { Content := msg.Content, SenderID := msg.SenderID, Timestamp := msg.Timestamp,
      Type_ := msg.Type_ }
  if !updateOk then (db, some ErrStore)
  else
    let conversations := updateOne (fun c : Conversation => c.ID = msg.ConversationID)
      (fun c => { c with LastMessage := some lastMsg, UpdatedAt := now }) db.conversations
    ({ db with conversations := conversations }, none)

/-- The method `message.Service.CreateMessage`. The second component is the message
struct as the caller sees it afterwards (the method writes through the pointer). -/
def CreateMessage (db : Database) (now : Time) (newID : ObjectID) (insertOk updateOk : Bool)
    (msg : Message) : Database × Message × Option Error :=
  let msg := { msg with Timestamp := now, Status := "sent" }
  if !insertOk then (db, msg, some ErrStore)
  else
    let msg := { msg with ID := insertedID msg.ID newID }
    let db := { db with messages := db.messages ++ [msg] }
    -- Update conversation last message, best effort
    let db := (updateConversationLastMessage db now updateOk msg).1
    (db, msg, none)

/-- The `$set` of `UpdateStatus` on the positional element `delivery_status.$`: the first
element of the array whose `user_id` is `uid`. -/
def setDeliveryStatus (uid : ObjectID) (status : String) (now : Time) (m : Message) : Message :=
  let delivery_status := updateOne (fun d : DeliveryStatus => d.UserID = uid)
    (fun d => { d with Status := status, Timestamp := now }) m.DeliveryStatus
  { m with DeliveryStatus := delivery_status }

/-- The method `message.Service.UpdateStatus`. -/
def UpdateStatus (db : Database) (now : Time) (updateOk : Bool)
    (messageID userID status : String) : Database × Option Error :=
  match ObjectIDFromHex messageID with
  | none => (db, some "invalid message ID")
  | some msgID =>
    match ObjectIDFromHex userID with
    | none => (db, some "invalid user ID")
    | some uid =>
      if !updateOk then (db, some ErrStore)
      else
        let messages := updateOne
          (fun m : Message => m.ID = msgID && m.DeliveryStatus.any (fun d => d.UserID = uid))
          (setDeliveryStatus uid status now) db.messages
        ({ db with messages := messages }, none)

/-- The method `message.Service.QueueOfflineMessage`. -/
def QueueOfflineMessage (db : Database) (now : Time) (newID : ObjectID) (insertOk : Bool)
    (userID : String) (messageID conversationID : ObjectID) : Database × Option Error :=
  match ObjectIDFromHex userID with
  | none => (db, some ErrInvalidHex)
  | some uid =>
    let queue : MessageQueue :=
      { ID := NilObjectID, UserID := uid, MessageID := messageID,
        ConversationID := conversationID, Priority := 1, CreatedAt := now, RetryCount := 0,
        LastRetry := 0, Status := "pending" }
    if !insertOk then (db, some ErrStore)
    else
      let queue := { queue with ID := insertedID queue.ID newID }
      ({ db with message_queue := db.message_queue ++ [queue] }, none)

/-! ## internal/websocket: the inbound frame dispatcher -/

/-- The anonymous request struct of `handleSendMessage`. -/
structure SendMessageReq where
  RecipientID : String
  ConversationID : String
  Content : String
  Type_ : String
  TempID : String
deriving DecidableEq

/-- The result of `json.Unmarshal(data, &req)`: whether it returned an error, and the
request struct as it left it. -/
structure Decoded where
  err : Bool
  req : SendMessageReq
deriving DecidableEq

/-- Inputs of one `handleSendMessage` call: the clock, the verdict of each store call in
program order, and the ids the driver generates for the two possible inserts. -/
structure SendEnv where
  now : Time
  findConvOk : Bool
  lookupConvOk : Bool
  insertConvOk : Bool
  newConvID : ObjectID
  insertMsgOk : Bool
  newMsgID : ObjectID
  updateLastOk : Bool
  updateStatusOk : Bool

/-- The statement `c.Send <- x` executed by a goroutine of the session. -/
def World.chanSend (w : World) (h : Nat) (x : Bytes) : World :=
  { w with chans := Function.update w.chans h ((w.chans h).send x).1,
           panicked := w.panicked || ((w.chans h).send x).2 }

/-- The method `Client.sendErrorAck`. A failed `json.Marshal` leaves the bytes empty. -/
def sendErrorAck (marshal : Frame → Option Bytes) (w : World) (c : Client)
    (tempID errorMsg : String) : World :=
  let ack := (marshal (.message_ack_error tempID errorMsg)).getD ""
  w.chanSend c.Send ack

/-- The conversation lookup at the head of `handleSendMessage`: the conversation named by
`conversation_id` when that is given and found, else `GetOrCreateConversation` for the
sender and the recipient. -/
def resolveConversation (e : SendEnv) (db : Database) (c : Client) (req : SendMessageReq) :
    Database × Except Error Conversation :=
  let conversation : Option Conversation :=
    if req.ConversationID ≠ "" then
      let convID := mustObjectID req.ConversationID
      if e.findConvOk then db.conversations.find? (fun conv => conv.ID = convID) else none
    else none
  match conversation with
  | some conv => (db, .ok conv)
  | none =>
    GetOrCreateConversation db e.now e.newConvID e.lookupConvOk e.insertConvOk
      [c.UserID, req.RecipientID]

/-- The message struct `handleSendMessage` builds before persisting it. -/
def newMessage (e : SendEnv) (c : Client) (req : SendMessageReq) (conversation : Conversation) :
    Message :=
  { ID := NilObjectID, ConversationID := conversation.ID, SenderID := mustObjectID c.UserID,
    Content := req.Content, Type_ := req.Type_, Media := none, Timestamp := 0, Status := "",
    DeliveryStatus :=
      [{ UserID := mustObjectID req.RecipientID, Status := "sent", Timestamp := e.now }],
    RepliedTo := NilObjectID, Forwarded := false, Deleted := false, DeletedFor := [] }

/-- Whether `userConnections` holds a non-empty sequence for the user: the test
`ok && len(connections.([]string)) > 0` of `handleSendMessage`. -/
def hasLiveSession (w : World) (userID : String) : Bool :=
  match w.userConnections.Load userID with
  | some connections => decide (connections.length > 0)
  | none => false

/-- The method `Client.handleSendMessage`. -/
def handleSendMessage (marshal : Frame → Option Bytes) (e : SendEnv) (w : World) (c : Client)
    (d : Decoded) : World :=
  let req := d.req
  if d.err then
    -- Send error ACK
    if req.TempID ≠ "" then sendErrorAck marshal w c req.TempID "Invalid message format"
    else w
  else
    -- Get or create conversation
    match resolveConversation e w.db c req with
    | (_, .error _) =>
      if req.TempID ≠ "" then sendErrorAck marshal w c req.TempID "Failed to create conversation"
      else w
    | (db, .ok conversation) =>
      let w := { w with db := db }
      -- Create message
      match CreateMessage w.db e.now e.newMsgID e.insertMsgOk e.updateLastOk
          (newMessage e c req conversation) with
      | (_, _, some _) =>
        if req.TempID ≠ "" then sendErrorAck marshal w c req.TempID "Failed to save message"
        else w
      | (db, message, none) =>
        let w := { w with db := db }
        -- Send to recipient (full message)
        let w := SendToUser w req.RecipientID (.new_message message)
        -- Update delivery status to "delivered" if recipient is online
        let w :=
          if hasLiveSession w req.RecipientID then
            let db := (UpdateStatus w.db e.now e.updateStatusOk message.ID.Hex req.RecipientID
              "delivered").1
            let w := { w with db := db }
            -- Notify sender about delivery
            SendToUser w c.UserID (.status_update message.ID.Hex "delivered")
          else w
        -- Send lightweight ACK to sender
        let ack := (marshal (.message_ack req.TempID message.ID.Hex message.Timestamp "sent")).getD ""
        w.chanSend c.Send ack

/-- An event of the running process: a connection upgrade, a value received by the
coordinator on `unregister` or `broadcast`, or a `send_message` frame dispatched on the
read pump of a session. -/
inductive Event where
  | connect (e : RegisterEnv) (userID uuid : String)
  | unregister (e : UnregisterEnv) (client : Client)
  | broadcast (b : BroadcastMessage)
  | sendMessage (e : SendEnv) (client : Client) (d : Decoded)

/-- The state after one event. -/
def World.step (marshal : Frame → Option Bytes) (cfg : Config) (w : World) : Event → World
  | .connect e userID uuid => (HandleWebSocket cfg e w userID uuid).1
  | .unregister e client => unregisterClient e w client
  | .broadcast b => broadcastToUser marshal w b
  | .sendMessage e client d => handleSendMessage marshal e w client d

/-- The state after a sequence of events. -/
def World.run (marshal : Frame → Option Bytes) (cfg : Config) (w : World)
    (events : List Event) : World :=
  events.foldl (World.step marshal cfg) w

/-! ## Sample data -/

/-- A configuration with the default intervals of `config.Load` in seconds. -/
def sampleConfig : Config :=
  { ServerID := "server-1", WSHeartbeatInterval := 30, WSConnectionTimeout := 300,
    CacheTTL := 300, CacheCleanupInterval := 600 }

/-- A user document as `auth.Service.Register` creates it, with id `n`. -/
def sampleUser (n : Nat) (name : String) : User :=
  { ID := ObjectID.ofNat n, Username := name, Email := "", Phone := "", PasswordHash := "hash",
    ProfilePicture := "", StatusMessage := "",
    Presence := { Status := "offline", LastSeen := 0, WebSocketID := "", DeviceID := "" },
    Settings := { ReadReceipts := true, LastSeenPrivacy := "everyone" },
    CreatedAt := 0, UpdatedAt := 0 }

/-- A store holding two users, ids 1 and 2, and nothing else. -/
def sampleDB : Database :=
  { users := [sampleUser 1 "alice", sampleUser 2 "bob"], conversations := [], messages := [],
    message_queue := [], contacts := [], active_connections := [] }

/-- The user id strings of the two sample users. -/
def aliceID : String := "000000000000000000000001"
def bobID : String := "000000000000000000000002"

/-- Two sessions of alice and one of bob. -/
def sessionA1 : Client := { ID := "conn-a1", UserID := aliceID, Send := 0 }
def sessionA2 : Client := { ID := "conn-a2", UserID := aliceID, Send := 1 }
def sessionB1 : Client := { ID := "conn-b1", UserID := bobID, Send := 2 }

/-- A register call at time `t` whose store writes succeed. -/
def regEnv (t : Time) (n : Nat) : RegisterEnv :=
  { now := t, newID := ObjectID.ofNat n, insertOk := true, presenceOk := true }

/-- An unregister call at time `t` whose store writes succeed. -/
def unregEnv (t : Time) : UnregisterEnv := { now := t, presenceOk := true, deleteOk := true }

/-- A run: both sessions of alice register, then the first one leaves. -/
def sampleOps : List Op :=
  [.register (regEnv 10 100) sessionA1, .register (regEnv 11 101) sessionA2,
   .unregister (unregEnv 12) sessionA1]

/-- A stand-in for `json.Marshal` that never fails. -/
def sampleMarshal : Frame → Option Bytes
  | .new_message m => some ("new_message:" ++ m.Content)
  | .queued_message m => some ("queued_message:" ++ m.Content)
  | .status_update id st => some ("status_update:" ++ id ++ ":" ++ st)
  | .typing u b => some ("typing:" ++ u ++ ":" ++ toString b)
  | .message_ack t s _ st => some ("message_ack:" ++ t ++ ":" ++ s ++ ":" ++ st)
  | .message_ack_error t err => some ("message_ack:" ++ t ++ ":error:" ++ err)

/-! ## Invariants of the registry -/

/-- The invariant behind the last-session-out rule: user documents have distinct ids, no
entry of `userConnections` is empty, and a stored user is online exactly when the user
has an entry. -/
structure PresenceInv (w : World) : Prop where
  nodup : (w.db.users.map (fun u => u.ID)).Nodup
  nonempty : ∀ k l, w.userConnections k = some l → l ≠ []
  online : ∀ u ∈ w.db.users,
    (u.Presence.Status = "online" ↔ ∃ l, w.userConnections u.ID.Hex = some l)

/-- The registry invariant relative to the clients `reg` registered so far: registered
connection ids are distinct, `connections` holds only registered clients under their own
id, a connection id occurs in the sequence of user `u` exactly when `connections` maps it
to a client of `u`, and no sequence repeats an id. -/
structure RegistryInv (reg : List Client) (w : World) : Prop where
  regNodup : (reg.map (fun r => r.ID)).Nodup
  conn : ∀ id c, w.connections id = some c → c ∈ reg ∧ c.ID = id
  mem : ∀ u id, (∃ l, w.userConnections u = some l ∧ id ∈ l) ↔
    ∃ c, w.connections id = some c ∧ c.UserID = u
  nodup : ∀ u l, w.userConnections u = some l → l.Nodup

/-! ## Predicates used to state the delivery theorems -/

/-- What a non-blocking send of `data` does to an open channel: the payload goes to the
tail of the buffer when there is room, and the channel is left alone when there is none. -/
def Chan.deliver (ch : Chan) (data : Bytes) : Chan :=
  match ch.trySend data with
  | .sent ch1 => ch1
  | _ => ch

/-- Distinct registered sessions own distinct outbound channels, as `HandleWebSocket`
makes a new channel for each client. -/
def SendInjective (w : World) : Prop :=
  ∀ i j c d, w.connections i = some c → w.connections j = some d → c.Send = d.Send → i = j

/-- The goroutine, if any, that the loop body of `broadcastToUser` starts for `connID`. -/
def evictee (data : Bytes) (w : World) (connID : String) : Option Goroutine :=
  match w.connections connID with
  | some client =>
    if (w.chans client.Send).trySend data = .full then some (.unregisterClient client) else none
  | none => none

/-- Every channel holds at most its capacity, and no capacity exceeds 256. -/
def ChanBounded (w : World) : Prop :=
  ∀ h, (w.chans h).buf.length ≤ (w.chans h).cap ∧ (w.chans h).cap ≤ 256

/-- Sessions are allocated in order: every registered session has a channel handle below
`nextChan`, and distinct sessions have distinct channels. -/
structure AllocInv (w : World) : Prop where
  inj : SendInjective w
  below : ∀ id c, w.connections id = some c → c.Send < w.nextChan

/-- The world after alice has opened two sessions and bob one, through `HandleWebSocket`. -/
def sampleWorld1 : World :=
  (HandleWebSocket sampleConfig (regEnv 10 100) (World.init sampleConfig sampleDB)
    aliceID "conn-a1").1

def sampleWorld2 : World :=
  (HandleWebSocket sampleConfig (regEnv 11 101) sampleWorld1 aliceID "conn-a2").1

def sampleWorld : World :=
  (HandleWebSocket sampleConfig (regEnv 12 102) sampleWorld2 bobID "conn-b1").1

/-- A text message from alice, as `CreateMessage` stores it. -/
def sampleMessage : Message :=
  { ID := ObjectID.ofNat 500, ConversationID := ObjectID.ofNat 400,
    SenderID := ObjectID.ofNat 1, Content := "hi", Type_ := "text", Media := none,
    Timestamp := 20, Status := "sent",
    DeliveryStatus := [{ UserID := ObjectID.ofNat 2, Status := "sent", Timestamp := 20 }],
    RepliedTo := NilObjectID, Forwarded := false, Deleted := false, DeletedFor := [] }

/-- The state `handleSendMessage` reaches after a successful `CreateMessage` that left the
store `db` and the message `message`: fan-out, online-delivery upgrade, positive ack. -/
def afterPersist (marshal : Frame → Option Bytes) (e : SendEnv) (w : World) (c : Client)
    (req : SendMessageReq) (db : Database) (message : Message) : World :=
  let w := { w with db := db }
  let w := SendToUser w req.RecipientID (.new_message message)
  let w :=
    if hasLiveSession w req.RecipientID then
      let db := (UpdateStatus w.db e.now e.updateStatusOk message.ID.Hex req.RecipientID
        "delivered").1
      let w := { w with db := db }
      SendToUser w c.UserID (.status_update message.ID.Hex "delivered")
    else w
  let ack := (marshal (.message_ack req.TempID message.ID.Hex message.Timestamp "sent")).getD ""
  w.chanSend c.Send ack

/-- A `send_message` call in which every store call succeeds. -/
def sendEnvOk : SendEnv :=
  { now := 20, findConvOk := true, lookupConvOk := true, insertConvOk := true,
    newConvID := ObjectID.ofNat 400, insertMsgOk := true, newMsgID := ObjectID.ofNat 500,
    updateLastOk := true, updateStatusOk := true }

/-- A decoded `send_message` payload from alice to bob with `temp_id` "t1". -/
def sendHi : Decoded :=
  ⟨false, { RecipientID := bobID, ConversationID := "", Content := "hi", Type_ := "text",
            TempID := "t1" }⟩

/-- The broadcast carries a `status_update` frame. -/
def isStatusUpdate (b : BroadcastMessage) : Bool :=
  match b.Message with
  | .status_update _ _ => true
  | _ => false

/-- The conversation `GetOrCreateConversation` creates for alice and bob under `sendEnvOk`. -/
def sampleConversation : Conversation :=
  { ID := ObjectID.ofNat 400, Type_ := "direct",
    Participants := [ObjectID.ofNat 1, ObjectID.ofNat 2], CreatedBy := NilObjectID, Name := "",
    Description := "", GroupPicture := "", Admins := [], LastMessage := none, CreatedAt := 20,
    UpdatedAt := 20 }

/-- A `send_message` call in which only the delivered status update fails. -/
def sendEnvStatusFails : SendEnv := { sendEnvOk with updateStatusOk := false }

/-- A `send_message` call in which the message insert fails. -/
def sendEnvInsertFails : SendEnv := { sendEnvOk with insertMsgOk := false }

/-- The payload of `sendHi` without a `temp_id`. -/
def sendHiNoTemp : Decoded := ⟨false, { sendHi.req with TempID := "" }⟩

/-- The sample world with the outbound buffer of the first session of alice filled to its
capacity of 256 payloads. -/
def fullWorld : World :=
  { sampleWorld with
    chans := Function.update sampleWorld.chans 0 ⟨List.replicate 256 "x", 256, false, []⟩ }

/-- Every registered session owns a channel of capacity 256, the capacity
`HandleWebSocket` gives it. -/
def SessionCap (w : World) : Prop :=
  ∀ id c, w.connections id = some c → (w.chans c.Send).cap = 256

/-- Every registered session has an open outbound channel. -/
def SessionsOpen (w : World) : Prop :=
  ∀ id c, w.connections id = some c → (w.chans c.Send).closed = false

/-- The clients `reg` built so far by `HandleWebSocket` have channel handles below
`nextChan`, pairwise distinct. -/
def RegAlloc (reg : List Client) (w : World) : Prop :=
  (∀ c ∈ reg, c.Send < w.nextChan) ∧ (∀ c ∈ reg, ∀ d ∈ reg, c.Send = d.Send → c = d)

/-- The states the process reaches from its start on the store `db`, together with the
clients built so far: a connection upgrade builds a client with an unused connection id
and registers it; the coordinator unregisters a client built before, or processes a
broadcast; the read pump of a client built before dispatches a `send_message` frame. -/
inductive Reachable (marshal : Frame → Option Bytes) (cfg : Config) (db : Database) :
    List Client → World → Prop where
  | init : Reachable marshal cfg db [] (World.init cfg db)
  | connect (reg : List Client) (w : World) (e : RegisterEnv) (userID uuid : String) :
      Reachable marshal cfg db reg w → uuid ∉ reg.map (fun r => r.ID) →
      Reachable marshal cfg db ((HandleWebSocket cfg e w userID uuid).2 :: reg)
        (HandleWebSocket cfg e w userID uuid).1
  | unregister (reg : List Client) (w : World) (e : UnregisterEnv) (c : Client) :
      Reachable marshal cfg db reg w → c ∈ reg →
      Reachable marshal cfg db reg (unregisterClient e w c)
  | broadcast (reg : List Client) (w : World) (b : BroadcastMessage) :
      Reachable marshal cfg db reg w →
      Reachable marshal cfg db reg (broadcastToUser marshal w b)
  | sendMessage (reg : List Client) (w : World) (e : SendEnv) (c : Client) (d : Decoded) :
      Reachable marshal cfg db reg w → c ∈ reg →
      Reachable marshal cfg db reg (handleSendMessage marshal e w c d)

/-! ## pkg/cache: the remaining operations -/

/-- The constructor `cache.New`, without the sweep goroutine it starts. -/
def Cache.New {α : Type} (ttl : Duration) : Cache α := ⟨SyncMap.empty, ttl⟩

/-- The method `Cache.Delete`. -/
def Cache.Delete {α : Type} (c : Cache α) (key : String) : Cache α :=
  { c with data := c.data.Delete key }

/-- The method `Cache.Clear`: `Range` deletes every key. -/
def Cache.Clear {α : Type} (c : Cache α) : Cache α :=
  { c with data := SyncMap.empty }

/-- The method `Cache.cleanup`, one sweep at time `now`: every entry whose expiration is
strictly before `now` is deleted. -/
def Cache.cleanup {α : Type} (c : Cache α) (now : Time) : Cache α :=
  { c with data := fun k =>
      match c.data k with
      | some item => if item.Expiration < now then none else some item
      | none => none }

/-- One call on the cache, with the clock value it reads. -/
inductive CacheOp (α : Type) where
  | set (now : Time) (key : String) (value : α)
  | setWithTTL (now : Time) (key : String) (value : α) (ttl : Duration)
  | get (now : Time) (key : String)
  | delete (key : String)
  | clear
  | cleanup (now : Time)

/-- The cache after one call. -/
def Cache.step {α : Type} (c : Cache α) : CacheOp α → Cache α
  | .set now key value => c.Set now key value
  | .setWithTTL now key value ttl => c.SetWithTTL now key value ttl
  | .get now key => (c.Get now key).2
  | .delete key => c.Delete key
  | .clear => c.Clear
  | .cleanup now => c.cleanup now

/-- The call leaves the entry of `key` written at expiration `exp` alone: it is a write,
delete of another key, or a read or sweep at a time not after `exp`. -/
def CacheOp.keeps {α : Type} (key : String) (exp : Time) : CacheOp α → Prop
  | .set _ k _ => k ≠ key
  | .setWithTTL _ k _ _ => k ≠ key
  | .get now k => k ≠ key ∨ now ≤ exp
  | .delete k => k ≠ key
  | .clear => False
  | .cleanup now => now ≤ exp

/-! ## internal/presence: reads -/

/-- The driver error `mongo.ErrNoDocuments`. -/
def ErrNoDocuments : Error := "mongo: no documents in result"

/-- The method `presence.Service.GetPresence`; `findOk` tells whether the `FindOne` on
`users` succeeds at the store. A nil `Connections` slice is the empty list. -/
def GetPresence (w : World) (now : Time) (findOk : Bool) (userID : String) :
    World × Except Error PresenceInfo :=
  -- Check cache first
  let cacheKey := "presence:" ++ userID
  match w.cache.Get now cacheKey with
  | (some cached, cache) => ({ w with cache := cache }, .ok cached)
  | (none, cache) =>
    let w := { w with cache := cache }
    -- Query database
    match ObjectIDFromHex userID with
    | none => (w, .error ErrInvalidHex)
    | some id =>
      if !findOk then (w, .error ErrStore)
      else
        match w.db.users.find? (fun u => u.ID = id) with
        | none => (w, .error ErrNoDocuments)
        | some user =>
          let presence : PresenceInfo :=
            { UserID := userID, Status := user.Presence.Status,
              LastSeen := user.Presence.LastSeen, Connections := [] }
          -- Cache the result
          ({ w with cache := w.cache.SetWithTTL now cacheKey presence (1 * Minute) }, .ok presence)

/-- The method `presence.Service.IsOnline`. -/
def IsOnline (w : World) (now : Time) (findOk : Bool) (userID : String) :
    World × Except Error Bool :=
  match GetPresence w now findOk userID with
  | (w, .error err) => (w, .error err)
  | (w, .ok presence) => (w, .ok (presence.Status == "online"))

/-! ## internal/message: reads and the offline queue drain -/

/-- The cursor option `SetLimit(limit)`: a limit of zero means no limit. -/
def applyLimit {α : Type} (limit : Nat) (l : List α) : List α :=
  if limit = 0 then l else l.take limit

/-- The sort `{timestamp: -1}`: `a` may come before `b`. -/
def timestampDesc (a b : Message) : Prop := b.Timestamp ≤ a.Timestamp

instance : DecidableRel timestampDesc := fun a b => inferInstanceAs (Decidable (b.Timestamp ≤ a.Timestamp))

/-- The in-place reversal loop `for i, j := 0, len-1; i < j; i, j = i+1, j-1` swapping
`messages[i]` and `messages[j]`; `Array.reverse` is that loop. -/
def reverseInPlace {α : Type} (messages : List α) : List α :=
  messages.toArray.reverse.toList

/-- The page the store returns for the `Find` of `GetMessages`: the messages of the
conversation that are not soft-deleted, sorted by timestamp descending, after `skip`, cut
at `limit`. -/
def messagesPage (db : Database) (convID : ObjectID) (limit skip : Nat) : List Message :=
  applyLimit limit
    (((db.messages.filter (fun m => m.ConversationID = convID && !m.Deleted)).insertionSort
      timestampDesc).drop skip)

/-- The method `message.Service.GetMessages`, for non-negative `limit` and `skip`;
`findOk` tells whether the `Find` succeeds. -/
def GetMessages (db : Database) (findOk : Bool) (conversationID : String) (limit skip : Nat) :
    Except Error (List Message) :=
  match ObjectIDFromHex conversationID with
  | none => .error "invalid conversation ID"
  | some convID =>
    if !findOk then .error ErrStore
    else
      let messages := messagesPage db convID limit skip
      -- Reverse to get chronological order
      .ok (reverseInPlace messages)

/-- The sort `{priority: 1, created_at: 1}`: `a` may come before `b`. -/
def queueOrder (a b : MessageQueue) : Prop :=
  a.Priority < b.Priority ∨ (a.Priority = b.Priority ∧ a.CreatedAt ≤ b.CreatedAt)

instance : DecidableRel queueOrder := fun a b =>
  inferInstanceAs (Decidable (a.Priority < b.Priority
    ∨ (a.Priority = b.Priority ∧ a.CreatedAt ≤ b.CreatedAt)))

/-- The queue entries the first `Find` of `GetQueuedMessages` returns: the pending entries
of the user, sorted by priority then creation time, cut at `limit`. -/
def queuePage (db : Database) (uid : ObjectID) (limit : Nat) : List MessageQueue :=
  applyLimit limit
    ((db.message_queue.filter (fun q => q.UserID = uid && q.Status == "pending")).insertionSort
      queueOrder)

/-- The method `message.Service.GetQueuedMessages`, for a non-negative `limit`. `findOk`,
`msgFindOk` and `deleteOk` tell whether the `Find` on `message_queue`, the `Find` on
`messages` and the `DeleteMany` succeed; the error of the last is discarded, by an
assignment of both results to the blank identifier. -/
def GetQueuedMessages (db : Database) (findOk msgFindOk deleteOk : Bool) (userID : String)
    (limit : Nat) : Database × Except Error (List Message) :=
  match ObjectIDFromHex userID with
  | none => (db, .error ErrInvalidHex)
  | some uid =>
    -- Get queued message IDs
    if !findOk then (db, .error ErrStore)
    else
      let page := queuePage db uid limit
      let messageIDs := page.map (fun q => q.MessageID)
      let queueIDs := page.map (fun q => q.ID)
      if messageIDs.length = 0 then (db, .ok [])
      else
        -- Get actual messages
        if !msgFindOk then (db, .error ErrStore)
        else
          let messages := db.messages.filter (fun m => messageIDs.contains m.ID)
          -- Remove from queue
          let remaining := db.message_queue.filter (fun q => !queueIDs.contains q.ID)
          let db := if deleteOk then { db with message_queue := remaining } else db
          (db, .ok messages)

/-- Inputs of one `sendQueuedMessages` call: the verdict of its three store calls. -/
structure DrainEnv where
  findOk : Bool
  msgFindOk : Bool
  deleteOk : Bool

/-- The loop body of `sendQueuedMessages` for one message: a non-blocking send of the
`queued_message` frame; when the buffer is full the failure is only logged: the comment
of that branch speaks of a re-queue, and the branch puts nothing back in the queue. -/
def sendQueued (marshal : Frame → Option Bytes) (client : Client) (w : World) (msg : Message) :
    World :=
  let data := (marshal (.queued_message msg)).getD ""
  match (w.chans client.Send).trySend data with
  | .sent ch => { w with chans := Function.update w.chans client.Send ch }
  | .full => w
  | .closed => { w with panicked := true }

/-- The method `Manager.sendQueuedMessages`. -/
def sendQueuedMessages (marshal : Frame → Option Bytes) (e : DrainEnv) (w : World)
    (client : Client) : World :=
  match GetQueuedMessages w.db e.findOk e.msgFindOk e.deleteOk client.UserID 100 with
  | (_, .error _) => w
  | (db, .ok messages) =>
    let w := { w with db := db }
    messages.foldl (sendQueued marshal client) w

/-! ## internal/websocket: read receipts, and the REST status endpoint -/

/-- The anonymous request struct of `handleReadReceipt`. -/
structure ReadReceiptReq where
  MessageID : String
deriving DecidableEq

/-- Inputs of one `handleReadReceipt` call: the clock and the verdict of its two store
calls. -/
structure ReceiptEnv where
  now : Time
  updateOk : Bool
  findOk : Bool

/-- The method `Client.handleReadReceipt`; `err` tells whether `json.Unmarshal` failed. -/
def handleReadReceipt (e : ReceiptEnv) (w : World) (c : Client) (err : Bool)
    (req : ReadReceiptReq) : World :=
  if err then w
  else
    -- Update message status to read
    let db := (UpdateStatus w.db e.now e.updateOk req.MessageID c.UserID "read").1
    let w := { w with db := db }
    -- Notify sender about read status
    let msgID := mustObjectID req.MessageID
    let found := if e.findOk then w.db.messages.find? (fun m => m.ID = msgID) else none
    match found with
    | some message => SendToUser w message.SenderID.Hex (.status_update req.MessageID "read")
    | none => w

/-- The REST handler `message.Handler.UpdateStatus` (`PUT /api/messages/:id/status`):
`userID` is the authenticated user, `messageID` the path parameter, `body` the parsed
request body (`none` when `BodyParser` fails). The result is the store and the HTTP status
code. -/
def Handler.UpdateStatus (db : Database) (now : Time) (updateOk : Bool)
    (userID messageID : String) (body : Option String) : Database × Nat :=
  match body with
  | none => (db, 400)
  | some status =>
    match Messaging.UpdateStatus db now updateOk messageID userID status with
    | (db, some _) => (db, 500)
    | (db, none) => (db, 200)

/-! ## A series of `GetOrCreateConversation` calls for one pair of users -/

/-- One call of the series: whether the ids are passed as `[B, A]` rather than `[A, B]`,
the clock, and the id the driver would generate on insert. -/
structure ConvCall where
  swap : Bool
  now : Time
  newID : ObjectID

/-- The id list one call passes. -/
def ConvCall.ids (A B : String) (c : ConvCall) : List String :=
  if c.swap then [B, A] else [A, B]

/-- The calls run one after the other on a store that accepts every call: the final store
and the results in call order. -/
def convSeries (A B : String) : Database → List ConvCall →
    Database × List (Except Error Conversation)
  | db, [] => (db, [])
  | db, c :: cs =>
    let r := GetOrCreateConversation db c.now c.newID true true (c.ids A B)
    let rest := convSeries A B r.1 cs
    (rest.1, r.2 :: rest.2)

/-- The conversation document the call creates for the users with object ids `a`, `b`. -/
def ConvCall.created (a b : ObjectID) (c : ConvCall) : Conversation :=
  { ID := c.newID, Type_ := "direct", Participants := if c.swap then [b, a] else [a, b],
    CreatedBy := NilObjectID, Name := "", Description := "", GroupPicture := "", Admins := [],
    LastMessage := none, CreatedAt := c.now, UpdatedAt := c.now }

/-- A pending queue entry for bob with id `id`, referencing message `m`. -/
def sampleQueueEntry (id m : Nat) (prio : Int) (t : Time) : MessageQueue :=
  { ID := ObjectID.ofNat id, UserID := ObjectID.ofNat 2, MessageID := ObjectID.ofNat m,
    ConversationID := ObjectID.ofNat 400, Priority := prio, CreatedAt := t, RetryCount := 0,
    LastRetry := 0, Status := "pending" }

/-- A second message of the sample conversation. -/
def sampleMessage2 : Message :=
  { sampleMessage with ID := ObjectID.ofNat 501, Content := "there", Timestamp := 21 }

/-- A store with two messages queued for bob, the later entry stored first. -/
def queueDB : Database :=
  { sampleDB with
    messages := [sampleMessage, sampleMessage2],
    message_queue := [sampleQueueEntry 601 501 1 31, sampleQueueEntry 600 500 1 30] }

/-- A store in which two pending entries of bob reference the same message. -/
def dupQueueDB : Database :=
  { sampleDB with
    messages := [sampleMessage],
    message_queue := [sampleQueueEntry 600 500 1 30, sampleQueueEntry 601 500 1 31] }

/-- The pending queue entries of user `uid`. -/
def pendingOf (db : Database) (uid : ObjectID) : List MessageQueue :=
  db.message_queue.filter (fun q => q.UserID = uid && q.Status == "pending")

/-- A store holding the sample message and an empty queue. -/
def msgDB : Database := { sampleDB with messages := [sampleMessage] }

/-- The sample world with two messages queued for bob. -/
def queuedWorld : World :=
  { sampleWorld with
    db := { sampleWorld.db with
            messages := [sampleMessage, sampleMessage2],
            message_queue := [sampleQueueEntry 601 501 1 31, sampleQueueEntry 600 500 1 30] } }

/-! ## The order of the delivery statuses -/

/-- The place of a status in the order sent, delivered, read of the delivery statuses
(`models.Message.Status`); any other string stands with sent. -/
def statusRank (s : String) : Nat :=
  if s = "read" then 2 else if s = "delivered" then 1 else 0

/-- The delivery-status element at position `j` of the message at position `i` of the
collection: the message id, the recipient and the recorded status. -/
def statusAt (ms : List Message) (i j : Nat) : Option (ObjectID × ObjectID × String) :=
  (ms[i]?).bind (fun m => (m.DeliveryStatus[j]?).map (fun d => (m.ID, d.UserID, d.Status)))

/-- The sample world after alice sent "hi" to bob, who is online. -/
def sentWorld : World := handleSendMessage sampleMarshal sendEnvOk sampleWorld sessionA1 sendHi

/-- A `read_receipt` call at time `t` whose store calls succeed. -/
def receiptEnv (t : Time) : ReceiptEnv := { now := t, updateOk := true, findOk := true }

/-- The world after bob read the message. -/
def readWorld : World :=
  handleReadReceipt (receiptEnv 25) sentWorld sessionB1 false ⟨"0000000000000000000001f4"⟩

/-- Every delivery-status element of `ms` is still at its place in `ms1`, for the same
message and the same recipient, with a status that is not earlier in the order. -/
def StatusLe (ms ms1 : List Message) : Prop :=
  ∀ i j mid u s, statusAt ms i j = some (mid, u, s) →
    ∃ s1, statusAt ms1 i j = some (mid, u, s1) ∧ statusRank s ≤ statusRank s1

/-! ## internal/websocket: the `typing` frame -/

/-- The anonymous request struct of `handleTyping`. -/
structure TypingReq where
  RecipientID : String
  IsTyping : Bool
deriving DecidableEq

/-- The method `Client.handleTyping`; `err` tells whether `json.Unmarshal` failed. -/
def handleTyping (w : World) (c : Client) (err : Bool) (req : TypingReq) : World :=
  if err then w
  else
    -- Broadcast typing indicator
    SendToUser w req.RecipientID (.typing c.UserID req.IsTyping)

/-- A third user, who takes no part in the sample conversation, and a session of hers. -/
def carolID : String := "000000000000000000000003"
def sessionC1 : Client := { ID := "conn-c1", UserID := carolID, Send := 3 }

/-- A store holding the two sample messages and an empty queue. -/
def twoMsgDB : Database := { sampleDB with messages := [sampleMessage, sampleMessage2] }

/-- A store in which the later of the two messages was queued for bob first. -/
def lateQueueDB : Database :=
  { twoMsgDB with
    message_queue := [sampleQueueEntry 600 501 1 30, sampleQueueEntry 601 500 1 31] }

/-- A direct conversation between bob and carol. -/
def convBC : Conversation :=
  { ID := ObjectID.ofNat 401, Type_ := "direct",
    Participants := [ObjectID.ofNat 2, ObjectID.ofNat 3], CreatedBy := NilObjectID, Name := "",
    Description := "", GroupPicture := "", Admins := [], LastMessage := none, CreatedAt := 5,
    UpdatedAt := 5 }

/-- The sample world whose store holds the conversation between bob and carol. -/
def bcWorld : World :=
  { sampleWorld with db := { sampleWorld.db with conversations := [convBC] } }

/-- A decoded `send_message` payload from alice naming the conversation of bob and carol. -/
def sendIntoBC : Decoded :=
  ⟨false, { RecipientID := bobID, ConversationID := "000000000000000000000191",
            Content := "hi", Type_ := "text", TempID := "t1" }⟩

/-! ## `handleSendMessage` after the message is saved, statement by statement -/

/-- The statements of `handleSendMessage` between the successful `CreateMessage` and the ack:
the push of `new_message` toward the recipient and, when the recipient has a live session,
the delivered update and the push of `status_update` toward the sender. -/
def beforeAck (e : SendEnv) (w : World) (c : Client) (req : SendMessageReq) (db : Database)
    (message : Message) : World :=
  let w := { w with db := db }
  -- Send to recipient (full message)
  let w := SendToUser w req.RecipientID (.new_message message)
  -- Update delivery status to "delivered" if recipient is online
  if hasLiveSession w req.RecipientID then
    let db := (UpdateStatus w.db e.now e.updateStatusOk message.ID.Hex req.RecipientID
      "delivered").1
    let w := { w with db := db }
    -- Notify sender about delivery
    SendToUser w c.UserID (.status_update message.ID.Hex "delivered")
  else w

/-- The last statement of `handleSendMessage`: the ack sent on the channel of the session. -/
def sendAck (marshal : Frame → Option Bytes) (w : World) (c : Client) (req : SendMessageReq)
    (message : Message) : World :=
  let ack := (marshal (.message_ack req.TempID message.ID.Hex message.Timestamp "sent")).getD ""
  w.chanSend c.Send ack

/-- The store after the sample message of alice is saved in the sample world. -/
def persistedDB : Database :=
  (CreateMessage (resolveConversation sendEnvOk sampleWorld.db sessionA1 sendHi.req).1 20
    (ObjectID.ofNat 500) true true
    (newMessage sendEnvOk sessionA1 sendHi.req sampleConversation)).1

/-! ## internal/user: the readers -/

/-- The method `user.Service.GetByID`; `findOk` tells whether the store call succeeds. -/
def GetByID (db : Database) (findOk : Bool) (userID : String) : Except Error User :=
  match ObjectIDFromHex userID with
  | none => .error "invalid user ID"
  | some id =>
    if !findOk then .error ErrStore
    else
      match db.users.find? (fun u => u.ID = id) with
      | none => .error "user not found"
      | some user => .ok { user with PasswordHash := "" }

/-- The method `user.Service.Search`. The store evaluates the case-insensitive `$regex`:
`regexMatch query s` tells whether `s` matches. -/
def Search (regexMatch : String → String → Bool) (db : Database) (findOk : Bool)
    (query : String) (limit : Nat) : Except Error (List User) :=
  if !findOk then .error ErrStore
  else
    let found := applyLimit limit
      (db.users.filter (fun u => regexMatch query u.Username || regexMatch query u.Email))
    .ok (found.map (fun user => { user with PasswordHash := "" }))

/-- The method `user.Service.GetContacts`: the pipeline `$match` on the contacts of the
user that are not blocked, `$lookup` of the user with the contact id, `$unwind`,
`$replaceRoot`. -/
def GetContacts (db : Database) (aggregateOk : Bool) (userID : String) :
    Except Error (List User) :=
  match ObjectIDFromHex userID with
  | none => .error "invalid user ID"
  | some id =>
    if !aggregateOk then .error ErrStore
    else
      let matched := db.contacts.filter (fun c => c.UserID = id && c.Blocked == false)
      let contacts := matched.flatMap (fun c => db.users.filter (fun u => u.ID = c.ContactID))
      .ok (contacts.map (fun user => { user with PasswordHash := "" }))

/-! ## internal/auth -/

structure RegisterRequest where
  Username : String
  Email : String
  Phone : String
  Password : String
deriving DecidableEq

structure LoginRequest where
  Username : String
  Password : String
deriving DecidableEq

structure AuthResponse where
  Token : String
  User : User
deriving DecidableEq

/-- The verdict of the store on the insert of `Register`. -/
inductive InsertVerdict where
  | inserted
  | duplicateKey
  | failed
deriving DecidableEq

/-- Inputs of one `Register` call: the clock, the result of `bcrypt.GenerateFromPassword`
(`none` when it fails), the verdict of the insert and the id the driver generates. -/
structure AuthEnv where
  now : Time
  hashed : Option String
  insert : InsertVerdict
  newID : ObjectID

/-- The error of a failing `bcrypt` or `jwt` call. -/
def ErrCrypto : Error := "crypto error"

/-- The method `auth.Service.generateToken`. The signature is the work of the `jwt`
library: `sign user_id username now` is the signed token, `none` when signing fails. -/
def generateToken (sign : String → String → Time → Option String) (now : Time) (user : User) :
    Option String :=
  sign user.ID.Hex user.Username now

/-- The method `auth.Service.Register`. -/
def Register (sign : String → String → Time → Option String) (db : Database) (e : AuthEnv)
    (req : RegisterRequest) : Database × Except Error AuthResponse :=
  -- Validate input
  if req.Username = "" ∨ req.Password = "" then
    (db, .error "username and password are required")
  else
    -- Hash password
    match e.hashed with
    | none => (db, .error ErrCrypto)
    | some hashedPassword =>
      -- Create user
      let user : User :=
        { ID := NilObjectID, Username := req.Username, Email := req.Email, Phone := req.Phone,
          PasswordHash := hashedPassword, ProfilePicture := "", StatusMessage := "",
          Presence := { Status := "offline", LastSeen := e.now, WebSocketID := "",
                        DeviceID := "" },
          Settings := { ReadReceipts := true, LastSeenPrivacy := "everyone" },
          CreatedAt := e.now, UpdatedAt := e.now }
      match e.insert with
      | .duplicateKey => (db, .error "username already exists")
      | .failed => (db, .error ErrStore)
      | .inserted =>
        let user := { user with ID := insertedID user.ID e.newID }
        let db := { db with users := db.users ++ [user] }
        -- Generate token
        match generateToken sign e.now user with
        | none => (db, .error ErrCrypto)
        | some token =>
          -- Remove password hash from response
          (db, .ok { Token := token, User := { user with PasswordHash := "" } })

/-- The method `auth.Service.Login`. `compare hash password` is the verdict of
`bcrypt.CompareHashAndPassword`. -/
def Login (compare : String → String → Bool) (sign : String → String → Time → Option String)
    (db : Database) (now : Time) (findOk : Bool) (req : LoginRequest) :
    Except Error AuthResponse :=
  -- Find user
  if !findOk then .error ErrStore
  else
    match db.users.find? (fun u => u.Username = req.Username) with
    | none => .error "invalid username or password"
    | some user =>
      -- Check password
      if !compare user.PasswordHash req.Password then .error "invalid username or password"
      else
        -- Generate token
        match generateToken sign now user with
        | none => .error ErrCrypto
        | some token =>
          -- Remove password hash from response
          .ok { Token := token, User := { user with PasswordHash := "" } }

/-- The sample store in which alice has bob as a contact. -/
def contactsDB : Database :=
  { sampleDB with
    contacts := [{ ID := ObjectID.ofNat 700, UserID := ObjectID.ofNat 1,
                   ContactID := ObjectID.ofNat 2, DisplayName := "", Blocked := false,
                   AddedAt := 0 }] }

/-- Sample library behaviours: a pattern matches the string equal to it, the stored
sample hash is the hash of "secret", and a token names the user it is signed for. -/
def sampleRegex (query s : String) : Bool := query == s
def sampleCompare (hash password : String) : Bool := hash == "hash" && password == "secret"
def sampleSign (userID username : String) (_now : Time) : Option String :=
  some ("token:" ++ userID ++ ":" ++ username)

/-- A `Register` call for carol in which everything succeeds. -/
def authEnvOk : AuthEnv :=
  { now := 50, hashed := some "hash-of-pw", insert := .inserted, newID := ObjectID.ofNat 3 }

/-! ## internal/user: the profile update -/

/-- A BSON value: what a JSON body decodes to in a `map[string]interface{}` (null, a
boolean, a number, a string, an array, an object) and what the driver stores for a
`time.Time` and for a `primitive.ObjectID`. -/
inductive Value where
  | null
  | bool (b : Bool)
  | num (x : ℚ)
  | str (s : String)
  | time (t : Time)
  | id (o : ObjectID)
  | arr (items : List Value)
  | doc (fields : List (String × Value))

/-- A BSON document: its fields in order. -/
abbrev Doc := List (String × Value)

/-- The value of the field `key` of a document. -/
def getField : Doc → String → Option Value
  | [], _ => none
  | (k, v) :: rest, key => if k = key then some v else getField rest key

/-- The document with the field `key` set to `v`: in place when the document has the
field, at the end otherwise. -/
def setField : Doc → String → Value → Doc
  | [], key, v => [(key, v)]
  | (k, x) :: rest, key, v =>
    if k = key then (key, v) :: rest else (k, x) :: setField rest key v

/-- The segments of a dotted key: `"presence.status"` is `["presence", "status"]`. The
first argument collects the characters of the current segment, last one first. -/
def splitDots : List Char → List Char → List String
  | acc, [] => [String.mk acc.reverse]
  | acc, c :: cs =>
    if c = '.' then String.mk acc.reverse :: splitDots [] cs else splitDots (c :: acc) cs

def segments (key : String) : List String := splitDots [] key.toList

/-- The array index a path segment stands for: a decimal numeral without a leading zero. -/
def arrayIndex (seg : String) : Option Nat :=
  match seg.toList with
  | [] => none
  | c :: cs =>
    if (c :: cs).all (fun d => decide (48 ≤ d.toNat ∧ d.toNat ≤ 57)) && (c != '0' || cs.isEmpty)
    then some ((c :: cs).foldl (fun n d => 10 * n + (d.toNat - 48)) 0)
    else none

/-- The array with element `i` set to `x`, filled up with nulls when it is shorter. -/
def setAt (items : List Value) (i : Nat) (x : Value) : List Value :=
  if i < items.length then items.set i x
  else items ++ List.replicate (i - items.length) .null ++ [x]

/-- The operator `$set` below a field: the value `old` of a field or array element (`none`
when it is absent) after `v` is written at the path `path` under it. The empty path
replaces the value, whatever it was; a path goes down through sub-documents by field name
and through arrays by index, creates the sub-documents that are missing, and is refused
(`none`) when it would go down into any other value. -/
def setBelow : List String → Value → Option Value → Option Value
  | [], v, _ => some v
  | seg :: rest, v, none => (setBelow rest v none).map (fun x => .doc [(seg, x)])
  | seg :: rest, v, some (.doc fields) =>
    (setBelow rest v (getField fields seg)).map (fun x => .doc (setField fields seg x))
  | seg :: rest, v, some (.arr items) =>
    match arrayIndex seg with
    | none => none
    | some i => (setBelow rest v (items[i]?)).map (fun x => .arr (setAt items i x))
  | _ :: _, _, some _ => none

/-- One `$set` entry applied to a document. -/
def setPath (path : List String) (v : Value) (d : Doc) : Option Doc :=
  match path with
  | [] => none
  | seg :: rest => (setBelow rest v (getField d seg)).map (fun x => setField d seg x)

/-- A Go `map[string]interface{}`: its entries, in the order the driver writes them. -/
abbrev UpdateMap := List (String × Value)

/-- The call `delete(m, k)`. -/
def UpdateMap.delete (m : UpdateMap) (k : String) : UpdateMap :=
  m.filter (fun kv => kv.1 != k)

/-- The assignment `m[k] = v`. -/
def UpdateMap.set (m : UpdateMap) (k : String) (v : Value) : UpdateMap :=
  UpdateMap.delete m k ++ [(k, v)]

/-- The update document `{"$set": updates}` applied to a document, entry by entry;
`none` when the store refuses an entry. -/
def applySet : UpdateMap → Doc → Option Doc
  | [], d => some d
  | (k, v) :: rest, d =>
    match setPath (segments k) v d with
    | none => none
    | some d1 => applySet rest d1

/-- Whether two of the paths conflict: one is the other or goes through it. -/
def conflicts : List (List String) → Bool
  | [] => false
  | p :: ps => ps.any (fun q => p.isPrefixOf q || q.isPrefixOf p) || conflicts ps

/-- The store call `UpdateOne` on a collection of raw documents: the first document
matching `p` is replaced by `f` of it; `none` when `f` refuses. No match is no error. -/
def updateFirst (p : Doc → Bool) (f : Doc → Option Doc) : List Doc → Option (List Doc)
  | [] => some []
  | d :: rest =>
    if p d then (f d).map (fun d1 => d1 :: rest)
    else (updateFirst p f rest).map (fun rest1 => d :: rest1)

/-- The filter `{"_id": id}`. -/
def hasID (id : ObjectID) (d : Doc) : Bool :=
  match getField d "_id" with
  | some (.id o) => decide (o = id)
  | _ => false

/-- The store call `UpdateOne(ctx, {"_id": id}, {"$set": updates})` on the users
collection, `none` when the store returns an error: `updateOk` is the verdict of the store
on what lies outside the documents (whether it can be reached at all); the store refuses
an update document with an empty path segment or with two conflicting paths before it
looks for the user, and an entry whose path goes down into a value that is neither a
document nor an array when it applies the update to the user it found. -/
def usersUpdateOne (updateOk : Bool) (id : ObjectID) (updates : UpdateMap)
    (users : List Doc) : Option (List Doc) :=
  let paths := updates.map (fun kv => segments kv.1)
  if !updateOk || paths.any (fun p => p.any (fun seg => seg == "")) || conflicts paths
  then none
  else updateFirst (hasID id) (applySet updates) users

/-- How a call ends that can panic: with no error, with an error, or in a panic. -/
inductive Outcome where
  | ok
  | err (e : Error)
  | panicked
deriving DecidableEq

/-- The method `user.Service.Update` on the users collection as the store holds it;
`updates` is `none` for a nil map, on which the assignment `updates["updated_at"] = ...`
panics. -/
def Update (users : List Doc) (now : Time) (updateOk : Bool) (userID : String)
    (updates : Option UpdateMap) : List Doc × Outcome :=
  match ObjectIDFromHex userID with
  | none => (users, .err "invalid user ID")
  | some id =>
    match updates with
    | none => (users, .panicked)
    | some updates =>
      let updates := UpdateMap.set updates "updated_at" (.time now)
      let updates := UpdateMap.delete updates "password_hash"
      let updates := UpdateMap.delete updates "_id"
      match usersUpdateOne updateOk id updates users with
      | none => (users, .err ErrStore)
      | some users => (users, .ok)

/-- The REST handler `user.Handler.UpdateMe` (`PUT /api/users/me`): `userID` is the
authenticated user, `body` what `BodyParser` makes of the request body: `none` when it
fails, `some none` when it leaves the map nil (the body `null`), the parsed map otherwise.
The result is the users collection and the HTTP status code; a panic of `Update` is
caught by the `recover` middleware and answered through the error handler of the
application, with 500. -/
def Handler.UpdateMe (users : List Doc) (now : Time) (updateOk : Bool) (userID : String)
    (body : Option (Option UpdateMap)) : List Doc × Nat :=
  match body with
  | none => (users, 400)
  | some updates =>
    match Update users now updateOk userID updates with
    | (users, .ok) => (users, 200)
    | (users, .err _) => (users, 500)
    | (users, .panicked) => (users, 500)

/-- The document the driver stores for a `models.Presence`, by its bson tags. -/
def encodePresence (p : Presence) : Value :=
  .doc ([("status", .str p.Status), ("last_seen", .time p.LastSeen)]
    ++ (if p.WebSocketID = "" then [] else [("websocket_id", .str p.WebSocketID)])
    ++ (if p.DeviceID = "" then [] else [("device_id", .str p.DeviceID)]))

/-- The document the driver stores for a `models.User`, by its bson tags. -/
def encodeUser (u : User) : Doc :=
  (if u.ID = NilObjectID then [] else [("_id", .id u.ID)])
    ++ [("username", .str u.Username)]
    ++ (if u.Email = "" then [] else [("email", .str u.Email)])
    ++ (if u.Phone = "" then [] else [("phone", .str u.Phone)])
    ++ [("password_hash", .str u.PasswordHash)]
    ++ (if u.ProfilePicture = "" then [] else [("profile_picture", .str u.ProfilePicture)])
    ++ (if u.StatusMessage = "" then [] else [("status_message", .str u.StatusMessage)])
    ++ [("presence", encodePresence u.Presence),
        ("settings", .doc [("read_receipts", .bool u.Settings.ReadReceipts),
          ("last_seen_privacy", .str u.Settings.LastSeenPrivacy)]),
        ("created_at", .time u.CreatedAt),
        ("updated_at", .time u.UpdatedAt)]

/-- The users collection of the sample store, as documents. -/
def sampleUsers : List Doc := sampleDB.users.map encodeUser

/-- Bodies of `PUT /api/users/me`: `{"presence.status": "online"}`, `{"presence": 7}`
and `{"status_message": "busy"}`. -/
def presenceUpdate : UpdateMap := [("presence.status", .str "online")]
def presenceReplace : UpdateMap := [("presence", .num 7)]
def statusMessageUpdate : UpdateMap := [("status_message", .str "busy")]

/-- The path of the presence status in a user document. -/
def presenceStatus (d : Doc) : Option Value :=
  match getField d "presence" with
  | some (.doc fields) => getField fields "status"
  | _ => none

/-- A register call and an unregister call whose presence write the store refuses. -/
def regEnvRefused (t : Time) (n : Nat) : RegisterEnv := { regEnv t n with presenceOk := false }
def unregEnvRefused (t : Time) : UnregisterEnv := { unregEnv t with presenceOk := false }

/-- A store with one message queued for bob. -/
def oneQueueDB : Database :=
  { sampleDB with
    messages := [sampleMessage],
    message_queue := [sampleQueueEntry 600 500 1 30] }

/-! ## `handleSendMessage` between the push of the message and the delivered update -/

/-- The statement of `handleSendMessage` that follows the successful `CreateMessage`: the
push of `new_message` toward the recipient. -/
def pushNewMessage (w : World) (req : SendMessageReq) (db : Database) (message : Message) :
    World :=
  let w := { w with db := db }
  -- Send to recipient (full message)
  SendToUser w req.RecipientID (.new_message message)

/-- The statement that follows the push: when the recipient has a live session, the
delivered update and the push of `status_update` toward the sender. -/
def deliveredUpgrade (e : SendEnv) (w : World) (c : Client) (req : SendMessageReq)
    (message : Message) : World :=
  -- Update delivery status to "delivered" if recipient is online
  if hasLiveSession w req.RecipientID then
    let db := (UpdateStatus w.db e.now e.updateStatusOk message.ID.Hex req.RecipientID
      "delivered").1
    let w := { w with db := db }
    -- Notify sender about delivery
    SendToUser w c.UserID (.status_update message.ID.Hex "delivered")
  else w

/-- The sample world when alice's handler has saved "hi" and pushed it toward bob, the
coordinator has served that broadcast, and the handler has not yet reached the delivered
update. -/
def pushedWorld : World :=
  broadcastToUser sampleMarshal
    (pushNewMessage sampleWorld sendHi.req persistedDB sampleMessage)
    ⟨bobID, .new_message sampleMessage⟩

/-- The world after bob's `read_receipt` for the message is handled at that point. -/
def readEarlyWorld : World :=
  handleReadReceipt (receiptEnv 21) pushedWorld sessionB1 false ⟨"0000000000000000000001f4"⟩

/-- A second `send_message` call of alice, after the first, in which every store call
succeeds. -/
def sendEnvOk2 : SendEnv := { sendEnvOk with now := 30, newMsgID := ObjectID.ofNat 501 }

/-- Whether a key of an update map addresses the presence sub-record: the key `presence`
or a dotted path below it. -/
def isPresenceKey (key : String) : Bool := (segments key).head? == some "presence"
/-! # Lemmas and theorems -/

/-! ## Lemmas: object ids -/

theorem hexVal_hexDigit : ∀ d : Fin 16, hexVal (hexDigit d) = some d := by decide

theorem decodeHex_map_hexDigit (ds : List (Fin 16)) :
    decodeHex (ds.map hexDigit) = some ds := by
  induction ds with
  | nil => rfl
  | cons d ds ih => simp [decodeHex, hexVal_hexDigit, ih]

theorem ObjectIDFromHex_Hex (o : ObjectID) : ObjectIDFromHex o.Hex = some o := by
  obtain ⟨ds, hlen⟩ := o
  simp [ObjectIDFromHex, ObjectID.Hex, String.length, decodeHex_map_hexDigit, hlen]

theorem Hex_injective {a b : ObjectID} (h : a.Hex = b.Hex) : a = b := by
  have := ObjectIDFromHex_Hex a
  rw [h, ObjectIDFromHex_Hex] at this
  exact (Option.some.inj this).symm

theorem isCanonicalID_iff (s : String) :
    isCanonicalID s = true ↔ ∃ o : ObjectID, ObjectIDFromHex s = some o ∧ o.Hex = s := by
  unfold isCanonicalID
  cases h : ObjectIDFromHex s with
  | none => simp
  | some o => simp

/-! ## Lemmas: store primitives -/

theorem updateOne_map_key {α β : Type} (key : α → β) (p : α → Bool) (f : α → α)
    (hf : ∀ x, key (f x) = key x) (l : List α) :
    (updateOne p f l).map key = l.map key := by
  induction l with
  | nil => rfl
  | cons x xs ih =>
    by_cases hx : p x = true
    · simp [updateOne, hx, hf]
    · simp [updateOne, hx, ih]

theorem mem_updateOne {α β : Type} (key : α → β) (k : β) (p : α → Bool) (f : α → α)
    (hp : ∀ x, p x = true ↔ key x = k) (l : List α) (hnd : (l.map key).Nodup)
    (y : α) (hy : y ∈ updateOne p f l) :
    (y ∈ l ∧ key y ≠ k) ∨ ∃ x ∈ l, key x = k ∧ y = f x := by
  induction l with
  | nil => simp [updateOne] at hy
  | cons x xs ih =>
    rw [List.map_cons, List.nodup_cons] at hnd
    by_cases hx : p x = true
    · rw [updateOne, if_pos hx, List.mem_cons] at hy
      rcases hy with rfl | hy
      · exact Or.inr ⟨x, List.mem_cons_self _ _, (hp x).1 hx, rfl⟩
      · refine Or.inl ⟨List.mem_cons_of_mem _ hy, fun hk => hnd.1 ?_⟩
        rw [(hp x).1 hx, ← hk]
        exact List.mem_map_of_mem key hy
    · rw [updateOne, if_neg hx, List.mem_cons] at hy
      rcases hy with rfl | hy
      · exact Or.inl ⟨List.mem_cons_self _ _, fun hk => hx ((hp y).2 hk)⟩
      · rcases ih hnd.2 hy with ⟨h1, h2⟩ | ⟨z, hz, h1, h2⟩
        · exact Or.inl ⟨List.mem_cons_of_mem _ h1, h2⟩
        · exact Or.inr ⟨z, List.mem_cons_of_mem _ hz, h1, h2⟩

/-! ## Lemmas: what each manager operation does to each part of the state -/

theorem SetOnline_fields (w : World) (now : Time) (ok : Bool) (u c : String) :
    (SetOnline w now ok u c).1.connections = w.connections
    ∧ (SetOnline w now ok u c).1.userConnections = w.userConnections
    ∧ (SetOnline w now ok u c).1.chans = w.chans
    ∧ (SetOnline w now ok u c).1.broadcast = w.broadcast
    ∧ (SetOnline w now ok u c).1.spawned = w.spawned
    ∧ (SetOnline w now ok u c).1.nextChan = w.nextChan
    ∧ (SetOnline w now ok u c).1.panicked = w.panicked
    ∧ (SetOnline w now ok u c).1.db.active_connections = w.db.active_connections
    ∧ (SetOnline w now ok u c).1.db.messages = w.db.messages
    ∧ (SetOnline w now ok u c).1.db.conversations = w.db.conversations
    ∧ (SetOnline w now ok u c).1.db.message_queue = w.db.message_queue
    ∧ (SetOnline w now ok u c).1.db.contacts = w.db.contacts := by
  unfold SetOnline
  cases ObjectIDFromHex u with
  | none => simp
  | some id => cases ok <;> simp

theorem SetOffline_fields (w : World) (now : Time) (ok : Bool) (u : String) :
    (SetOffline w now ok u).1.connections = w.connections
    ∧ (SetOffline w now ok u).1.userConnections = w.userConnections
    ∧ (SetOffline w now ok u).1.chans = w.chans
    ∧ (SetOffline w now ok u).1.broadcast = w.broadcast
    ∧ (SetOffline w now ok u).1.spawned = w.spawned
    ∧ (SetOffline w now ok u).1.nextChan = w.nextChan
    ∧ (SetOffline w now ok u).1.panicked = w.panicked
    ∧ (SetOffline w now ok u).1.db.active_connections = w.db.active_connections
    ∧ (SetOffline w now ok u).1.db.messages = w.db.messages
    ∧ (SetOffline w now ok u).1.db.conversations = w.db.conversations
    ∧ (SetOffline w now ok u).1.db.message_queue = w.db.message_queue
    ∧ (SetOffline w now ok u).1.db.contacts = w.db.contacts := by
  unfold SetOffline
  cases ObjectIDFromHex u with
  | none => simp
  | some id => cases ok <;> simp

theorem registerClient_connections (cfg : Config) (e : RegisterEnv) (w : World) (c : Client) :
    (registerClient cfg e w c).connections = w.connections.Store c.ID c := by
  simp only [registerClient, (SetOnline_fields _ _ _ _ _).1]
  split <;> rfl

theorem registerClient_userConnections (cfg : Config) (e : RegisterEnv) (w : World)
    (c : Client) :
    (registerClient cfg e w c).userConnections
      = w.userConnections.Store c.UserID ((w.userConnections c.UserID).getD [] ++ [c.ID]) := by
  simp only [registerClient, (SetOnline_fields _ _ _ _ _).2.1]
  funext k
  cases hi : e.insertOk <;> cases h : w.userConnections c.UserID <;>
    by_cases hk : k = c.UserID <;>
    simp [SyncMap.LoadOrStore, SyncMap.Store, h, hk]

theorem SetOnline_users_eq (w : World) (now : Time) (ok : Bool) (u c : String) :
    (SetOnline w now ok u c).1.db.users =
      match ObjectIDFromHex u with
      | none => w.db.users
      | some id =>
        if ok then updateOne (fun x : User => x.ID = id) (onlineDoc now c) w.db.users
        else w.db.users := by
  unfold SetOnline
  cases ObjectIDFromHex u with
  | none => rfl
  | some id => cases ok <;> rfl

theorem SetOffline_users_eq (w : World) (now : Time) (ok : Bool) (u : String) :
    (SetOffline w now ok u).1.db.users =
      match ObjectIDFromHex u with
      | none => w.db.users
      | some id =>
        if ok then updateOne (fun x : User => x.ID = id) (offlineDoc now) w.db.users
        else w.db.users := by
  unfold SetOffline
  cases ObjectIDFromHex u with
  | none => rfl
  | some id => cases ok <;> rfl

theorem SetOnline_cache_eq (w : World) (now : Time) (ok : Bool) (u c : String) :
    (SetOnline w now ok u c).1.cache =
      match ObjectIDFromHex u with
      | none => w.cache
      | some _ =>
        if ok then w.cache.Set now ("presence:" ++ u) ⟨u, "online", now, [c]⟩ else w.cache := by
  unfold SetOnline
  cases ObjectIDFromHex u with
  | none => rfl
  | some id => cases ok <;> rfl

theorem SetOffline_cache_eq (w : World) (now : Time) (ok : Bool) (u : String) :
    (SetOffline w now ok u).1.cache =
      match ObjectIDFromHex u with
      | none => w.cache
      | some _ =>
        if ok then w.cache.SetWithTTL now ("presence:" ++ u) ⟨u, "offline", now, []⟩ (1 * Minute)
        else w.cache := by
  unfold SetOffline
  cases ObjectIDFromHex u with
  | none => rfl
  | some id => cases ok <;> rfl

theorem registerClient_users (cfg : Config) (e : RegisterEnv) (w : World) (c : Client) :
    (registerClient cfg e w c).db.users
      = (SetOnline w e.now e.presenceOk c.UserID c.ID).1.db.users := by
  simp only [registerClient, SetOnline_users_eq]
  cases e.insertOk <;> rfl

theorem registerClient_cache (cfg : Config) (e : RegisterEnv) (w : World) (c : Client) :
    (registerClient cfg e w c).cache
      = (SetOnline w e.now e.presenceOk c.UserID c.ID).1.cache := by
  simp only [registerClient, SetOnline_cache_eq]
  cases e.insertOk <;> rfl

theorem unregisterClient_connections (e : UnregisterEnv) (w : World) (c : Client) :
    (unregisterClient e w c).connections = w.connections.Delete c.ID := by
  unfold unregisterClient
  simp only [SyncMap.Load]
  repeat' split
  all_goals first
    | rfl
    | simp only [(SetOffline_fields _ _ _ _).1]

theorem unregisterClient_userConnections (e : UnregisterEnv) (w : World) (c : Client) :
    (unregisterClient e w c).userConnections =
      match w.userConnections c.UserID with
      | some l =>
        if l.filter (fun id => id ≠ c.ID) = [] then w.userConnections.Delete c.UserID
        else w.userConnections.Store c.UserID (l.filter (fun id => id ≠ c.ID))
      | none => w.userConnections := by
  unfold unregisterClient
  simp only [SyncMap.Load, List.length_eq_zero]
  repeat' split
  all_goals first
    | rfl
    | simp only [(SetOffline_fields _ _ _ _).2.1]

theorem unregisterClient_users (e : UnregisterEnv) (w : World) (c : Client) :
    (unregisterClient e w c).db.users =
      match w.userConnections c.UserID with
      | some l =>
        if l.filter (fun id => id ≠ c.ID) = []
        then (SetOffline w e.now e.presenceOk c.UserID).1.db.users
        else w.db.users
      | none => w.db.users := by
  unfold unregisterClient
  simp only [SyncMap.Load, List.length_eq_zero]
  repeat' split
  all_goals first
    | rfl
    | simp only [SetOffline_users_eq]

theorem unregisterClient_cache (e : UnregisterEnv) (w : World) (c : Client) :
    (unregisterClient e w c).cache =
      match w.userConnections c.UserID with
      | some l =>
        if l.filter (fun id => id ≠ c.ID) = []
        then (SetOffline w e.now e.presenceOk c.UserID).1.cache
        else w.cache
      | none => w.cache := by
  unfold unregisterClient
  simp only [SyncMap.Load, List.length_eq_zero]
  repeat' split
  all_goals first
    | rfl
    | simp only [SetOffline_cache_eq]

theorem broadcastToConn_registry (data : Bytes) (w : World) (connID : String) :
    (broadcastToConn data w connID).connections = w.connections
    ∧ (broadcastToConn data w connID).userConnections = w.userConnections
    ∧ (broadcastToConn data w connID).db = w.db
    ∧ (broadcastToConn data w connID).cache = w.cache
    ∧ (broadcastToConn data w connID).broadcast = w.broadcast
    ∧ (broadcastToConn data w connID).nextChan = w.nextChan := by
  unfold broadcastToConn
  repeat' split
  all_goals simp

theorem foldl_broadcastToConn_registry (data : Bytes) (l : List String) (w : World) :
    (l.foldl (broadcastToConn data) w).connections = w.connections
    ∧ (l.foldl (broadcastToConn data) w).userConnections = w.userConnections
    ∧ (l.foldl (broadcastToConn data) w).db = w.db
    ∧ (l.foldl (broadcastToConn data) w).cache = w.cache
    ∧ (l.foldl (broadcastToConn data) w).broadcast = w.broadcast
    ∧ (l.foldl (broadcastToConn data) w).nextChan = w.nextChan := by
  induction l generalizing w with
  | nil => simp
  | cons x xs ih =>
    obtain ⟨h1, h2, h3, h4, h5, h6⟩ := broadcastToConn_registry data w x
    obtain ⟨i1, i2, i3, i4, i5, i6⟩ := ih (broadcastToConn data w x)
    simp only [List.foldl_cons]
    exact ⟨i1.trans h1, i2.trans h2, i3.trans h3, i4.trans h4, i5.trans h5, i6.trans h6⟩

theorem broadcastToUser_registry (marshal : Frame → Option Bytes) (w : World)
    (b : BroadcastMessage) :
    (broadcastToUser marshal w b).connections = w.connections
    ∧ (broadcastToUser marshal w b).userConnections = w.userConnections
    ∧ (broadcastToUser marshal w b).db = w.db
    ∧ (broadcastToUser marshal w b).cache = w.cache
    ∧ (broadcastToUser marshal w b).broadcast = w.broadcast
    ∧ (broadcastToUser marshal w b).nextChan = w.nextChan := by
  unfold broadcastToUser
  repeat' split
  all_goals first
    | exact foldl_broadcastToConn_registry _ _ _
    | simp

/-! ## Presence follows the registry -/

theorem PresenceInv_init (cfg : Config) (db : Database)
    (hnd : (db.users.map (fun u => u.ID)).Nodup)
    (hoff : ∀ u ∈ db.users, u.Presence.Status = "offline") :
    PresenceInv (World.init cfg db) := by
  refine ⟨hnd, ?_, ?_⟩
  · intro k l h
    simp [World.init, SyncMap.empty] at h
  · intro u hu
    have := hoff u hu
    simp [World.init, SyncMap.empty, this]

theorem PresenceInv_registerClient (cfg : Config) (e : RegisterEnv) (w : World) (c : Client)
    (hinv : PresenceInv w) (hok : e.presenceOk = true) (hc : isCanonicalID c.UserID = true) :
    PresenceInv (registerClient cfg e w c) := by
  obtain ⟨o, ho, hhex⟩ := (isCanonicalID_iff _).1 hc
  have husers : (registerClient cfg e w c).db.users
      = updateOne (fun x : User => x.ID = o) (onlineDoc e.now c.ID) w.db.users := by
    rw [registerClient_users, SetOnline_users_eq, ho, hok]; rfl
  refine ⟨?_, ?_, ?_⟩
  · rw [husers, updateOne_map_key (fun u : User => u.ID) _ (onlineDoc e.now c.ID) (fun _ => rfl)]
    exact hinv.nodup
  · intro k l h
    rw [registerClient_userConnections] at h
    by_cases hk : k = c.UserID
    · simp [SyncMap.Store, hk] at h
      rw [← h]; simp
    · simp [SyncMap.Store, hk] at h
      exact hinv.nonempty k l h
  · intro u hu
    rw [husers] at hu
    rw [registerClient_userConnections]
    rcases mem_updateOne (fun u : User => u.ID) o _ _ (fun x => by simp) _ hinv.nodup u hu with
      ⟨hmem, hne⟩ | ⟨x, hx, hxo, rfl⟩
    · have hkey : u.ID.Hex ≠ c.UserID := by
        intro h
        rw [← hhex] at h
        exact hne (Hex_injective h)
      simp only [SyncMap.Store, hkey, if_false]
      exact hinv.online u hmem
    · have hkey : x.ID.Hex = c.UserID := by rw [hxo, hhex]
      simp [SyncMap.Store, hkey, onlineDoc]

theorem PresenceInv_unregisterClient (e : UnregisterEnv) (w : World) (c : Client)
    (hinv : PresenceInv w) (hok : e.presenceOk = true) (hc : isCanonicalID c.UserID = true) :
    PresenceInv (unregisterClient e w c) := by
  obtain ⟨o, ho, hhex⟩ := (isCanonicalID_iff _).1 hc
  cases hl : w.userConnections c.UserID with
  | none =>
    refine ⟨?_, ?_, ?_⟩
    · rw [unregisterClient_users, hl]; exact hinv.nodup
    · rw [unregisterClient_userConnections, hl]; exact hinv.nonempty
    · rw [unregisterClient_users, unregisterClient_userConnections, hl]; exact hinv.online
  | some l =>
    by_cases hf : l.filter (fun id => id ≠ c.ID) = []
    · have husers : (unregisterClient e w c).db.users
          = updateOne (fun x : User => x.ID = o) (offlineDoc e.now) w.db.users := by
        rw [unregisterClient_users, hl]
        simp only [hf, if_true]
        rw [SetOffline_users_eq, ho, hok]; rfl
      have huc : (unregisterClient e w c).userConnections = w.userConnections.Delete c.UserID := by
        rw [unregisterClient_userConnections, hl]
        simp only [hf, if_true]
      refine ⟨?_, ?_, ?_⟩
      · rw [husers, updateOne_map_key (fun u : User => u.ID) _ (offlineDoc e.now) (fun _ => rfl)]
        exact hinv.nodup
      · intro k l2 h
        rw [huc] at h
        by_cases hk : k = c.UserID
        · simp [SyncMap.Delete, hk] at h
        · simp [SyncMap.Delete, hk] at h
          exact hinv.nonempty k l2 h
      · intro u hu
        rw [husers] at hu
        rw [huc]
        rcases mem_updateOne (fun u : User => u.ID) o _ _ (fun x => by simp) _ hinv.nodup u hu
          with ⟨hmem, hne⟩ | ⟨x, hx, hxo, rfl⟩
        · have hkey : u.ID.Hex ≠ c.UserID := by
            intro h
            rw [← hhex] at h
            exact hne (Hex_injective h)
          simp only [SyncMap.Delete, hkey, if_false]
          exact hinv.online u hmem
        · have hkey : x.ID.Hex = c.UserID := by rw [hxo, hhex]
          simp [SyncMap.Delete, hkey, offlineDoc]
    · have husers : (unregisterClient e w c).db.users = w.db.users := by
        rw [unregisterClient_users, hl]
        simp only [hf, if_false]
      have huc : (unregisterClient e w c).userConnections
          = w.userConnections.Store c.UserID (l.filter (fun id => id ≠ c.ID)) := by
        rw [unregisterClient_userConnections, hl]
        simp only [hf, if_false]
      refine ⟨?_, ?_, ?_⟩
      · rw [husers]; exact hinv.nodup
      · intro k l2 h
        rw [huc] at h
        by_cases hk : k = c.UserID
        · simp [SyncMap.Store, hk] at h
          rw [← h]; simpa using hf
        · simp [SyncMap.Store, hk] at h
          exact hinv.nonempty k l2 h
      · intro u hu
        rw [husers] at hu
        rw [huc]
        by_cases hk : u.ID.Hex = c.UserID
        · simp only [SyncMap.Store, hk, if_true]
          rw [hinv.online u hu, hk, hl]
          simp
        · simp only [SyncMap.Store, hk, if_false]
          exact hinv.online u hu

theorem PresenceInv_broadcastToUser (marshal : Frame → Option Bytes) (w : World)
    (b : BroadcastMessage) (hinv : PresenceInv w) :
    PresenceInv (broadcastToUser marshal w b) := by
  obtain ⟨_, h2, h3, _⟩ := broadcastToUser_registry marshal w b
  refine ⟨?_, ?_, ?_⟩
  · rw [h3]; exact hinv.nodup
  · rw [h2]; exact hinv.nonempty
  · rw [h2, h3]; exact hinv.online

theorem PresenceInv_Run (marshal : Frame → Option Bytes) (cfg : Config) (ops : List Op)
    (w : World) (hinv : PresenceInv w) (hops : ∀ op ∈ ops, op.presenceOk = true) :
    PresenceInv (Manager.Run marshal cfg w ops) := by
  induction ops generalizing w with
  | nil => exact hinv
  | cons op ops ih =>
    have hop := hops op (List.mem_cons_self _ _)
    have hrest : ∀ op2 ∈ ops, op2.presenceOk = true :=
      fun op2 h => hops op2 (List.mem_cons_of_mem _ h)
    unfold Manager.Run
    rw [List.foldl_cons]
    apply ih _ _ hrest
    cases op with
    | register e c =>
      simp only [Op.presenceOk, Bool.and_eq_true] at hop
      exact PresenceInv_registerClient cfg e w c hinv hop.1 hop.2
    | unregister e c =>
      simp only [Op.presenceOk, Bool.and_eq_true] at hop
      exact PresenceInv_unregisterClient e w c hinv hop.1 hop.2
    | broadcast b => exact PresenceInv_broadcastToUser marshal w b hinv

/-- C1, amended. Presence follows the registry as long as the store accepts the presence
writes. Start the process on a store whose user documents have distinct ids and are all
offline, and let the coordinator process any sequence of register, unregister and
broadcast values in which every session belongs to an authenticated user (its user id
string is the hex form of an object id) and the store accepts every presence write. Then
after each operation (after the first `n` operations, for every `n`) a stored user has
status online if and only if `userConnections` holds at least one connection id under
that user id. -/
theorem presence_online_iff_user_connected (marshal : Frame → Option Bytes) (cfg : Config)
    (db : Database) (ops : List Op) (n : Nat)
    (hnd : (db.users.map (fun u => u.ID)).Nodup)
    (hoff : ∀ u ∈ db.users, u.Presence.Status = "offline")
    (hops : ∀ op ∈ ops, op.presenceOk = true) :
    ∀ u ∈ (Manager.Run marshal cfg (World.init cfg db) (ops.take n)).db.users,
      (u.Presence.Status = "online" ↔
        ∃ l, (Manager.Run marshal cfg (World.init cfg db) (ops.take n)).userConnections u.ID.Hex
              = some l ∧ 1 ≤ l.length) := by
  have hinv := PresenceInv_Run marshal cfg (ops.take n) _ (PresenceInv_init cfg db hnd hoff)
    (fun op h => hops op (List.mem_of_mem_take h))
  intro u hu
  rw [hinv.online u hu]
  constructor
  · rintro ⟨l, hl⟩
    refine ⟨l, hl, ?_⟩
    have := hinv.nonempty _ l hl
    cases l with
    | nil => exact absurd rfl this
    | cons a t => simp
  · rintro ⟨l, hl, _⟩
    exact ⟨l, hl⟩

theorem presence_online_iff_user_connected_witness :
    (sampleDB.users.map (fun u => u.ID)).Nodup
    ∧ (∀ u ∈ sampleDB.users, u.Presence.Status = "offline")
    ∧ (∀ op ∈ sampleOps, op.presenceOk = true)
    ∧ ∀ u ∈ (Manager.Run sampleMarshal sampleConfig (World.init sampleConfig sampleDB)
          (sampleOps.take 3)).db.users,
      (u.Presence.Status = "online" ↔
        ∃ l, (Manager.Run sampleMarshal sampleConfig (World.init sampleConfig sampleDB)
            (sampleOps.take 3)).userConnections u.ID.Hex = some l ∧ 1 ≤ l.length) :=
  ⟨by decide, by decide, by decide,
   presence_online_iff_user_connected sampleMarshal sampleConfig sampleDB sampleOps 3
     (by decide) (by decide) (by decide)⟩

/-- C1, the claim as stated fails. `registerClient` and `unregisterClient` discard the error
of `SetOnline` and `SetOffline`. From the empty registry with alice and bob offline: when
the store refuses the presence write of a register, alice has a registered connection and
is stored offline; and when it refuses the presence write of the unregister of her only
session, she has no entry in `userConnections` and is stored online. -/
theorem presence_refused_write_counterexample :
    (Manager.Run sampleMarshal sampleConfig (World.init sampleConfig sampleDB)
        [.register (regEnvRefused 10 100) sessionA1]).userConnections aliceID
      = some ["conn-a1"]
    ∧ (Manager.Run sampleMarshal sampleConfig (World.init sampleConfig sampleDB)
        [.register (regEnvRefused 10 100) sessionA1]).db.users.map
          (fun u => (u.ID.Hex, u.Presence.Status))
      = [(aliceID, "offline"), (bobID, "offline")]
    ∧ (Manager.Run sampleMarshal sampleConfig (World.init sampleConfig sampleDB)
        [.register (regEnv 10 100) sessionA1,
         .unregister (unregEnvRefused 12) sessionA1]).userConnections aliceID = none
    ∧ (Manager.Run sampleMarshal sampleConfig (World.init sampleConfig sampleDB)
        [.register (regEnv 10 100) sessionA1,
         .unregister (unregEnvRefused 12) sessionA1]).db.users.map
          (fun u => (u.ID.Hex, u.Presence.Status))
      = [(aliceID, "online"), (bobID, "offline")] := by
  refine ⟨?_, ?_, ?_, ?_⟩ <;> decide

theorem unregisterClient_active_connections (e : UnregisterEnv) (w : World) (c : Client) :
    (unregisterClient e w c).db.active_connections =
      if e.deleteOk then
        deleteOne (fun a : ActiveConnection => a.ConnectionID = c.ID) w.db.active_connections
      else w.db.active_connections := by
  unfold unregisterClient
  simp only [SyncMap.Load]
  repeat' split
  all_goals first
    | rfl
    | simp only [(SetOffline_fields _ _ _ _).2.2.2.2.2.2.2.1]

theorem registerClient_active_connections (cfg : Config) (e : RegisterEnv) (w : World)
    (c : Client) :
    (registerClient cfg e w c).db.active_connections =
      if e.insertOk then
        w.db.active_connections ++
          [{ ID := e.newID, UserID := mustObjectID c.UserID, ConnectionID := c.ID,
             DeviceID := "", DeviceType := "web", ConnectedAt := e.now, LastHeartbeat := e.now,
             ServerInstance := cfg.ServerID, ExpiresAt := e.now + cfg.WSConnectionTimeout }]
      else w.db.active_connections := by
  simp only [registerClient, (SetOnline_fields _ _ _ _ _).2.2.2.2.2.2.2.1]
  cases e.insertOk <;> rfl

/-- C2. `unregisterClient(c)` removes `c.ID` from `connections` and leaves every other
connection as it was; it leaves the entry of every other user as it was; when the user has
an entry `l`, the remaining sequence is `l` with the occurrences of `c.ID` filtered out
(a sublist of `l`, so the relative order is kept), and exactly when that sequence is empty
the entry is deleted and the presence state (user documents and cache) is the one
`SetOffline` produces, otherwise the entry becomes the remaining sequence and the user
documents and the cache are untouched; when the user has no entry nothing of the
registry entry or presence changes. -/
theorem unregisterClient_spec (e : UnregisterEnv) (w : World) (c : Client) :
    (unregisterClient e w c).connections c.ID = none
    ∧ (∀ k, k ≠ c.ID → (unregisterClient e w c).connections k = w.connections k)
    ∧ (∀ u, u ≠ c.UserID →
        (unregisterClient e w c).userConnections u = w.userConnections u)
    ∧ (match w.userConnections c.UserID with
       | none =>
         (unregisterClient e w c).userConnections c.UserID = none
         ∧ (unregisterClient e w c).db.users = w.db.users
         ∧ (unregisterClient e w c).cache = w.cache
       | some l =>
         (l.filter (fun id => id ≠ c.ID)).Sublist l
         ∧ (∀ id, id ∈ l.filter (fun id => id ≠ c.ID) ↔ id ∈ l ∧ id ≠ c.ID)
         ∧ (if l.filter (fun id => id ≠ c.ID) = [] then
              (unregisterClient e w c).userConnections c.UserID = none
              ∧ (unregisterClient e w c).db.users
                  = (SetOffline w e.now e.presenceOk c.UserID).1.db.users
              ∧ (unregisterClient e w c).cache
                  = (SetOffline w e.now e.presenceOk c.UserID).1.cache
            else
              (unregisterClient e w c).userConnections c.UserID
                  = some (l.filter (fun id => id ≠ c.ID))
              ∧ (unregisterClient e w c).db.users = w.db.users
              ∧ (unregisterClient e w c).cache = w.cache)) := by
  refine ⟨?_, ?_, ?_, ?_⟩
  · rw [unregisterClient_connections]; simp [SyncMap.Delete]
  · intro k hk
    rw [unregisterClient_connections]; simp [SyncMap.Delete, hk]
  · intro u hu
    rw [unregisterClient_userConnections]
    cases w.userConnections c.UserID with
    | none => rfl
    | some l =>
      by_cases hf : l.filter (fun id => id ≠ c.ID) = []
      · simp only [hf, if_true, SyncMap.Delete, hu, if_false]
      · simp only [hf, if_false, SyncMap.Store, hu]
  · rw [unregisterClient_userConnections, unregisterClient_users, unregisterClient_cache]
    cases hl : w.userConnections c.UserID with
    | none => exact ⟨hl, rfl, rfl⟩
    | some l =>
      refine ⟨List.filter_sublist l, fun id => by simp [List.mem_filter], ?_⟩
      by_cases hf : l.filter (fun id => id ≠ c.ID) = []
      · simp only [hf, if_true, SyncMap.Delete]
        exact ⟨trivial, trivial, trivial⟩
      · simp only [hf, if_false, SyncMap.Store, if_true]
        exact ⟨trivial, trivial, trivial⟩

/-- C3. `registerClient(c)` stores `c` under `c.ID` in `connections` (other connections
unchanged) and sets `userConnections[c.UserID]` to its previous sequence, empty when the
user had no entry, with `c.ID` appended at the end (entries of other users unchanged);
when the store accepts the insert, `active_connections` gains one record for `c.ID` with
`expires_at = now + connection_timeout`; the presence state (user documents and cache) is
the one `SetOnline(c.UserID, c.ID)` produces; and the offline-queue drain for the client
is started. -/
theorem registerClient_spec (cfg : Config) (e : RegisterEnv) (w : World) (c : Client) :
    (registerClient cfg e w c).connections c.ID = some c
    ∧ (∀ k, k ≠ c.ID → (registerClient cfg e w c).connections k = w.connections k)
    ∧ (registerClient cfg e w c).userConnections c.UserID
        = some ((w.userConnections c.UserID).getD [] ++ [c.ID])
    ∧ (∀ u, u ≠ c.UserID →
        (registerClient cfg e w c).userConnections u = w.userConnections u)
    ∧ (registerClient cfg e w c).db.active_connections =
        (if e.insertOk then
          w.db.active_connections ++
            [{ ID := e.newID, UserID := mustObjectID c.UserID, ConnectionID := c.ID,
               DeviceID := "", DeviceType := "web", ConnectedAt := e.now,
               LastHeartbeat := e.now, ServerInstance := cfg.ServerID,
               ExpiresAt := e.now + cfg.WSConnectionTimeout }]
        else w.db.active_connections)
    ∧ (registerClient cfg e w c).db.users
        = (SetOnline w e.now e.presenceOk c.UserID c.ID).1.db.users
    ∧ (registerClient cfg e w c).cache
        = (SetOnline w e.now e.presenceOk c.UserID c.ID).1.cache
    ∧ (registerClient cfg e w c).spawned = w.spawned ++ [.sendQueuedMessages c] := by
  refine ⟨?_, ?_, ?_, ?_, registerClient_active_connections cfg e w c,
    registerClient_users cfg e w c, registerClient_cache cfg e w c, ?_⟩
  · rw [registerClient_connections]; simp [SyncMap.Store]
  · intro k hk
    rw [registerClient_connections]; simp [SyncMap.Store, hk]
  · rw [registerClient_userConnections]; simp [SyncMap.Store]
  · intro u hu
    rw [registerClient_userConnections]; simp [SyncMap.Store, hu]
  · simp only [registerClient, (SetOnline_fields _ _ _ _ _).2.2.2.2.1]
    cases e.insertOk <;> rfl

/-! ## The two registry maps agree -/

theorem RegistryInv_init (cfg : Config) (db : Database) :
    RegistryInv [] (World.init cfg db) := by
  refine ⟨by simp, ?_, ?_, ?_⟩
  · intro id c h; simp [World.init, SyncMap.empty] at h
  · intro u id; simp [World.init, SyncMap.empty]
  · intro u l h; simp [World.init, SyncMap.empty] at h

theorem RegistryInv_registerClient (cfg : Config) (e : RegisterEnv) (reg : List Client)
    (w : World) (c : Client) (hinv : RegistryInv reg w)
    (hfresh : c.ID ∉ reg.map (fun r => r.ID)) :
    RegistryInv (c :: reg) (registerClient cfg e w c) := by
  have hnone : w.connections c.ID = none := by
    cases h : w.connections c.ID with
    | none => rfl
    | some d =>
      obtain ⟨hd, hid⟩ := hinv.conn _ _ h
      exact absurd (List.mem_map.2 ⟨d, hd, hid⟩) hfresh
  have hnotin : ∀ u l, w.userConnections u = some l → c.ID ∉ l := by
    intro u l hl hmem
    obtain ⟨d, hd, _⟩ := (hinv.mem u c.ID).1 ⟨l, hl, hmem⟩
    rw [hnone] at hd; cases hd
  refine ⟨?_, ?_, ?_, ?_⟩
  · rw [List.map_cons, List.nodup_cons]; exact ⟨hfresh, hinv.regNodup⟩
  · intro id d h
    rw [registerClient_connections] at h
    by_cases hid : id = c.ID
    · simp [SyncMap.Store, hid] at h
      subst h; exact ⟨List.mem_cons_self _ _, hid.symm⟩
    · simp [SyncMap.Store, hid] at h
      obtain ⟨h1, h2⟩ := hinv.conn _ _ h
      exact ⟨List.mem_cons_of_mem _ h1, h2⟩
  · intro u id
    rw [registerClient_connections, registerClient_userConnections]
    by_cases hu : u = c.UserID
    · subst hu
      by_cases hid : id = c.ID
      · subst hid; simp [SyncMap.Store]
      · simp only [SyncMap.Store, if_true, hid, if_false]
        rw [← hinv.mem c.UserID id]
        cases hl : w.userConnections c.UserID with
        | none => simp [hid]
        | some l => simp [hid]
    · simp only [SyncMap.Store, hu, if_false]
      by_cases hid : id = c.ID
      · subst hid
        simp only [if_true]
        constructor
        · rintro ⟨l, hl, hmem⟩
          exact absurd hmem (hnotin u l hl)
        · rintro ⟨d, hd, hdu⟩
          cases hd; exact absurd hdu.symm hu
      · simp only [hid, if_false]
        exact hinv.mem u id
  · intro u l h
    rw [registerClient_userConnections] at h
    by_cases hu : u = c.UserID
    · subst hu
      simp [SyncMap.Store] at h
      subst h
      cases hl : w.userConnections c.UserID with
      | none => simp
      | some l0 =>
        simp only [Option.getD_some]
        rw [List.nodup_append]
        refine ⟨hinv.nodup _ _ hl, by simp, ?_⟩
        intro a ha hb
        rw [List.mem_singleton] at hb
        subst hb
        exact hnotin _ _ hl ha
    · simp [SyncMap.Store, hu] at h
      exact hinv.nodup u l h

theorem RegistryInv_unregisterClient (e : UnregisterEnv) (reg : List Client)
    (w : World) (c : Client) (hinv : RegistryInv reg w) (hreg : c ∈ reg) :
    RegistryInv reg (unregisterClient e w c) := by
  have hsame : ∀ d, w.connections c.ID = some d → d = c := by
    intro d hd
    obtain ⟨hdr, hid⟩ := hinv.conn _ _ hd
    exact List.inj_on_of_nodup_map hinv.regNodup hdr hreg hid
  refine ⟨hinv.regNodup, ?_, ?_, ?_⟩
  · intro id d h
    rw [unregisterClient_connections] at h
    by_cases hid : id = c.ID
    · simp [SyncMap.Delete, hid] at h
    · simp [SyncMap.Delete, hid] at h
      exact hinv.conn _ _ h
  · intro u id
    rw [unregisterClient_connections, unregisterClient_userConnections]
    by_cases hu : u = c.UserID
    · subst hu
      cases hl : w.userConnections c.UserID with
      | none =>
        simp only [SyncMap.Delete]
        by_cases hid : id = c.ID
        · simp [hid, hl]
        · simp only [hid, if_false]
          rw [← hinv.mem c.UserID id, hl]
      | some l =>
        have hmem := hinv.mem c.UserID id
        rw [hl] at hmem
        by_cases hf : l.filter (fun id => id ≠ c.ID) = []
        · simp only [hf, if_true, SyncMap.Delete]
          by_cases hid : id = c.ID
          · simp [hid]
          · simp only [hid, if_false]
            rw [← hmem]
            have : id ∉ l := by
              intro h
              have : id ∈ l.filter (fun id => id ≠ c.ID) := by simp [List.mem_filter, h, hid]
              rw [hf] at this; cases this
            simp [this]
        · simp only [hf, if_false, SyncMap.Store, if_true, SyncMap.Delete]
          by_cases hid : id = c.ID
          · simp [hid, List.mem_filter]
          · simp only [hid, if_false]
            rw [← hmem]
            simp [List.mem_filter, hid]
    · have huc : (match w.userConnections c.UserID with
          | some l =>
            if l.filter (fun id => id ≠ c.ID) = [] then w.userConnections.Delete c.UserID
            else w.userConnections.Store c.UserID (l.filter (fun id => id ≠ c.ID))
          | none => w.userConnections) u = w.userConnections u := by
        cases w.userConnections c.UserID with
        | none => rfl
        | some l =>
          by_cases hf : l.filter (fun id => id ≠ c.ID) = []
          · simp only [hf, if_true, SyncMap.Delete, hu, if_false]
          · simp only [hf, if_false, SyncMap.Store, hu]
      rw [huc]
      by_cases hid : id = c.ID
      · subst hid
        simp only [SyncMap.Delete, if_true]
        constructor
        · rintro ⟨l, hl, hm⟩
          obtain ⟨d, hd, hdu⟩ := (hinv.mem u c.ID).1 ⟨l, hl, hm⟩
          rw [hsame d hd] at hdu
          exact absurd hdu.symm hu
        · rintro ⟨d, hd, _⟩; cases hd
      · simp only [SyncMap.Delete, hid, if_false]
        exact hinv.mem u id
  · intro u l h
    rw [unregisterClient_userConnections] at h
    cases hl : w.userConnections c.UserID with
    | none =>
      rw [hl] at h
      exact hinv.nodup u l h
    | some l0 =>
      rw [hl] at h
      by_cases hf : l0.filter (fun id => id ≠ c.ID) = []
      · simp only [hf, if_true, SyncMap.Delete] at h
        by_cases hu : u = c.UserID
        · simp [hu] at h
        · simp only [hu, if_false] at h
          exact hinv.nodup u l h
      · simp only [hf, if_false, SyncMap.Store] at h
        by_cases hu : u = c.UserID
        · simp only [hu, if_true, Option.some.injEq] at h
          subst h
          exact (hinv.nodup _ _ hl).filter _
        · simp only [hu, if_false] at h
          exact hinv.nodup u l h

theorem RegistryInv_broadcastToUser (marshal : Frame → Option Bytes) (reg : List Client)
    (w : World) (b : BroadcastMessage) (hinv : RegistryInv reg w) :
    RegistryInv reg (broadcastToUser marshal w b) := by
  obtain ⟨h1, h2, _⟩ := broadcastToUser_registry marshal w b
  refine ⟨hinv.regNodup, ?_, ?_, ?_⟩
  · rw [h1]; exact hinv.conn
  · rw [h1, h2]; exact hinv.mem
  · rw [h2]; exact hinv.nodup

theorem RegistryInv_Run (marshal : Frame → Option Bytes) (cfg : Config) (ops : List Op)
    (reg : List Client) (w : World) (hinv : RegistryInv reg w) (hwf : WellFormed reg ops) :
    ∃ reg2, RegistryInv reg2 (Manager.Run marshal cfg w ops) := by
  induction ops generalizing reg w with
  | nil => exact ⟨reg, hinv⟩
  | cons op ops ih =>
    unfold Manager.Run
    rw [List.foldl_cons]
    cases op with
    | register e c =>
      exact ih (c :: reg) _ (RegistryInv_registerClient cfg e reg w c hinv hwf.1) hwf.2
    | unregister e c =>
      exact ih reg _ (RegistryInv_unregisterClient e reg w c hinv hwf.1) hwf.2
    | broadcast b =>
      exact ih reg _ (RegistryInv_broadcastToUser marshal reg w b hinv) hwf

/-- C4. The two registry maps stay mutually consistent. After the coordinator has
processed any sequence of register, unregister and broadcast values in which every
registered session has a connection id not used before and only sessions registered
before are unregistered, a connection id occurs in `userConnections[u]` if and only if
`connections` maps that id to a client whose `UserID` is `u` (and that client is stored
under its own id), and no connection id occurs twice in the sequence of any user. -/
theorem registry_maps_consistent (marshal : Frame → Option Bytes) (cfg : Config)
    (db : Database) (ops : List Op) (hwf : WellFormed [] ops) :
    (∀ u id,
      (∃ l, (Manager.Run marshal cfg (World.init cfg db) ops).userConnections u = some l
          ∧ id ∈ l) ↔
      ∃ c, (Manager.Run marshal cfg (World.init cfg db) ops).connections id = some c
          ∧ c.UserID = u ∧ c.ID = id)
    ∧ (∀ u l, (Manager.Run marshal cfg (World.init cfg db) ops).userConnections u = some l →
        l.Nodup) := by
  obtain ⟨reg, hinv⟩ := RegistryInv_Run marshal cfg ops [] _ (RegistryInv_init cfg db) hwf
  refine ⟨fun u id => ?_, hinv.nodup⟩
  rw [hinv.mem u id]
  constructor
  · rintro ⟨c, hc, hu⟩
    exact ⟨c, hc, hu, (hinv.conn _ _ hc).2⟩
  · rintro ⟨c, hc, hu, _⟩
    exact ⟨c, hc, hu⟩

theorem registry_maps_consistent_witness :
    WellFormed [] sampleOps
    ∧ (∀ u id,
      (∃ l, (Manager.Run sampleMarshal sampleConfig (World.init sampleConfig sampleDB)
          sampleOps).userConnections u = some l ∧ id ∈ l) ↔
      ∃ c, (Manager.Run sampleMarshal sampleConfig (World.init sampleConfig sampleDB)
          sampleOps).connections id = some c ∧ c.UserID = u ∧ c.ID = id)
    ∧ (∀ u l, (Manager.Run sampleMarshal sampleConfig (World.init sampleConfig sampleDB)
          sampleOps).userConnections u = some l → l.Nodup) :=
  ⟨by simp [WellFormed, sampleOps, sessionA1, sessionA2],
   registry_maps_consistent sampleMarshal sampleConfig sampleDB sampleOps
     (by simp [WellFormed, sampleOps, sessionA1, sessionA2])⟩

/-! ## Broadcast -/

theorem broadcastToConn_chans (data : Bytes) (w : World) (connID : String) :
    (broadcastToConn data w connID).chans =
      match w.connections connID with
      | some client =>
        Function.update w.chans client.Send ((w.chans client.Send).deliver data)
      | none => w.chans := by
  unfold broadcastToConn
  simp only [SyncMap.Load, Chan.deliver]
  cases w.connections connID with
  | none => rfl
  | some c =>
    cases h : (w.chans c.Send).trySend data <;> simp [h]

theorem broadcastToConn_spawned (data : Bytes) (w : World) (connID : String) :
    (broadcastToConn data w connID).spawned = w.spawned ++ (evictee data w connID).toList := by
  unfold broadcastToConn evictee
  simp only [SyncMap.Load]
  cases w.connections connID with
  | none => simp
  | some c =>
    cases h : (w.chans c.Send).trySend data <;> simp [h]

theorem broadcastToConn_panicked (data : Bytes) (w : World) (connID : String) :
    (broadcastToConn data w connID).panicked =
      (w.panicked || match w.connections connID with
        | some client => (w.chans client.Send).closed
        | none => false) := by
  unfold broadcastToConn
  simp only [SyncMap.Load]
  cases w.connections connID with
  | none => simp
  | some c =>
    unfold Chan.trySend
    by_cases hc : (w.chans c.Send).closed = true
    · simp [hc]
    · by_cases hl : (w.chans c.Send).buf.length < (w.chans c.Send).cap
      · simp [hc, hl]
      · simp [hc, hl]

/-- The effect of the loop of `broadcastToUser` over a duplicate-free list of connection
ids on the channels and on the goroutines started. -/
theorem foldl_broadcastToConn_chans (data : Bytes) (l : List String) (w : World)
    (hnd : l.Nodup) (hinj : SendInjective w) :
    (∀ h, (∀ id ∈ l, ∀ c, w.connections id = some c → c.Send ≠ h) →
        (l.foldl (broadcastToConn data) w).chans h = w.chans h)
    ∧ (∀ id ∈ l, ∀ c, w.connections id = some c →
        (l.foldl (broadcastToConn data) w).chans c.Send = (w.chans c.Send).deliver data)
    ∧ (l.foldl (broadcastToConn data) w).spawned
        = w.spawned ++ l.filterMap (evictee data w) := by
  induction l generalizing w with
  | nil => simp
  | cons x xs ih =>
    rw [List.nodup_cons] at hnd
    obtain ⟨hconn, _⟩ := broadcastToConn_registry data w x
    have hinj1 : SendInjective (broadcastToConn data w x) := by
      intro i j c d hi hj; rw [hconn] at hi hj; exact hinj i j c d hi hj
    obtain ⟨ih1, ih2, ih3⟩ := ih (broadcastToConn data w x) hnd.2 hinj1
    have hch := broadcastToConn_chans data w x
    -- channels of the sessions later in the list are not touched by the first step
    have hlater : ∀ id ∈ xs, ∀ c, w.connections id = some c →
        (broadcastToConn data w x).chans c.Send = w.chans c.Send := by
      intro id hid c hc
      rw [hch]
      cases hx : w.connections x with
      | none => rfl
      | some cx =>
        have hne : c.Send ≠ cx.Send := by
          intro heq
          have := hinj id x c cx hc hx heq
          subst this
          exact hnd.1 hid
        simp [Function.update, hne]
    simp only [List.foldl_cons]
    refine ⟨?_, ?_, ?_⟩
    · intro h hh
      rw [ih1 h (fun id hid c hc => by
        rw [hconn] at hc
        exact hh id (List.mem_cons_of_mem _ hid) c hc)]
      rw [hch]
      cases hx : w.connections x with
      | none => rfl
      | some cx =>
        have := hh x (List.mem_cons_self _ _) cx hx
        simp [Function.update, Ne.symm this]
    · intro id hid c hc
      rcases List.mem_cons.1 hid with rfl | hid
      · rw [ih1 c.Send (fun j hj d hd => by
          rw [hconn] at hd
          intro heq
          have := hinj j id d c hd hc heq
          subst this
          exact hnd.1 hj)]
        rw [hch, hc]
        simp [Function.update]
      · rw [ih2 id hid c (by rw [hconn]; exact hc), hlater id hid c hc]
    · rw [ih3, broadcastToConn_spawned, List.filterMap_cons, List.append_assoc]
      have hev : xs.filterMap (evictee data (broadcastToConn data w x))
          = xs.filterMap (evictee data w) := by
        apply List.filterMap_congr
        intro id hid
        unfold evictee
        rw [hconn]
        cases hc : w.connections id with
        | none => rfl
        | some c => simp only [hlater id hid c hc]
      rw [hev]
      cases evictee data w x <;> simp

theorem newClient_fields (w : World) (userID uuid : String) :
    (newClient w userID uuid).1.connections = w.connections
    ∧ (newClient w userID uuid).1.userConnections = w.userConnections
    ∧ (newClient w userID uuid).1.nextChan = w.nextChan + 1
    ∧ (newClient w userID uuid).2 = ⟨uuid, userID, w.nextChan⟩ := by
  simp [newClient]

theorem RegistryInv_HandleWebSocket (cfg : Config) (e : RegisterEnv) (reg : List Client)
    (w : World) (userID uuid : String) (hinv : RegistryInv reg w)
    (hfresh : uuid ∉ reg.map (fun r => r.ID)) :
    RegistryInv ((HandleWebSocket cfg e w userID uuid).2 :: reg)
      (HandleWebSocket cfg e w userID uuid).1 := by
  unfold HandleWebSocket
  exact RegistryInv_registerClient cfg e reg _ _
    ⟨hinv.regNodup, hinv.conn, hinv.mem, hinv.nodup⟩ hfresh

theorem registerClient_nextChan (cfg : Config) (e : RegisterEnv) (w : World) (c : Client) :
    (registerClient cfg e w c).nextChan = w.nextChan := by
  simp only [registerClient, (SetOnline_fields _ _ _ _ _).2.2.2.2.2.1]
  cases e.insertOk <;> rfl

theorem unregisterClient_nextChan (e : UnregisterEnv) (w : World) (c : Client) :
    (unregisterClient e w c).nextChan = w.nextChan := by
  unfold unregisterClient
  simp only [SyncMap.Load]
  repeat' split
  all_goals first
    | rfl
    | simp only [(SetOffline_fields _ _ _ _).2.2.2.2.2.1]

theorem AllocInv_init (cfg : Config) (db : Database) : AllocInv (World.init cfg db) := by
  refine ⟨?_, ?_⟩
  · intro i j c d hi; simp [World.init, SyncMap.empty] at hi
  · intro id c h; simp [World.init, SyncMap.empty] at h

theorem AllocInv_HandleWebSocket (cfg : Config) (e : RegisterEnv) (w : World)
    (userID uuid : String) (hinv : AllocInv w) :
    AllocInv (HandleWebSocket cfg e w userID uuid).1 := by
  have hconn : (HandleWebSocket cfg e w userID uuid).1.connections
      = w.connections.Store uuid ⟨uuid, userID, w.nextChan⟩ := by
    unfold HandleWebSocket
    rw [registerClient_connections]
    rfl
  have hnext : (HandleWebSocket cfg e w userID uuid).1.nextChan = w.nextChan + 1 := by
    unfold HandleWebSocket
    rw [registerClient_nextChan]
    rfl
  refine ⟨?_, ?_⟩
  · intro i j c d hi hj hs
    rw [hconn] at hi hj
    simp only [SyncMap.Store] at hi hj
    by_cases hiu : i = uuid <;> by_cases hju : j = uuid
    · rw [hiu, hju]
    · simp only [hiu, if_true, Option.some.injEq] at hi
      simp only [hju, if_false] at hj
      have := hinv.below j d hj
      rw [← hs, ← hi] at this
      exact absurd this (lt_irrefl _)
    · simp only [hiu, if_false] at hi
      simp only [hju, if_true, Option.some.injEq] at hj
      have := hinv.below i c hi
      rw [hs, ← hj] at this
      exact absurd this (lt_irrefl _)
    · simp only [hiu, if_false] at hi
      simp only [hju, if_false] at hj
      exact hinv.inj i j c d hi hj hs
  · intro id c h
    rw [hconn] at h
    simp only [SyncMap.Store] at h
    rw [hnext]
    by_cases hiu : id = uuid
    · simp only [hiu, if_true, Option.some.injEq] at h
      rw [← h]; exact Nat.lt_succ_self _
    · simp only [hiu, if_false] at h
      exact Nat.lt_succ_of_lt (hinv.below id c h)

theorem AllocInv_unregisterClient (e : UnregisterEnv) (w : World) (c : Client)
    (hinv : AllocInv w) : AllocInv (unregisterClient e w c) := by
  have hsub : ∀ id d, (unregisterClient e w c).connections id = some d →
      w.connections id = some d := by
    intro id d h
    rw [unregisterClient_connections] at h
    by_cases hid : id = c.ID
    · simp [SyncMap.Delete, hid] at h
    · simpa [SyncMap.Delete, hid] using h
  refine ⟨?_, ?_⟩
  · intro i j a b hi hj hs
    exact hinv.inj i j a b (hsub _ _ hi) (hsub _ _ hj) hs
  · intro id d h
    rw [unregisterClient_nextChan]
    exact hinv.below id d (hsub _ _ h)

theorem AllocInv_broadcastToUser (marshal : Frame → Option Bytes) (w : World)
    (b : BroadcastMessage) (hinv : AllocInv w) : AllocInv (broadcastToUser marshal w b) := by
  obtain ⟨h1, _, _, _, _, h6⟩ := broadcastToUser_registry marshal w b
  refine ⟨?_, ?_⟩
  · intro i j c d hi hj; rw [h1] at hi hj; exact hinv.inj i j c d hi hj
  · intro id c h; rw [h1] at h; rw [h6]; exact hinv.below id c h

theorem sampleWorld_consistent :
    (∀ v id, (∃ l, sampleWorld.userConnections v = some l ∧ id ∈ l) ↔
      ∃ c, sampleWorld.connections id = some c ∧ c.UserID = v)
    ∧ (∀ id c, sampleWorld.connections id = some c → c.ID = id)
    ∧ (∀ v l, sampleWorld.userConnections v = some l → l.Nodup) := by
  have h0 := RegistryInv_init sampleConfig sampleDB
  have h1 := RegistryInv_HandleWebSocket sampleConfig (regEnv 10 100) _ _ aliceID "conn-a1" h0
    (by simp)
  have h2 := RegistryInv_HandleWebSocket sampleConfig (regEnv 11 101) _ _ aliceID "conn-a2" h1
    (by simp [HandleWebSocket, newClient])
  have h3 := RegistryInv_HandleWebSocket sampleConfig (regEnv 12 102) _ _ bobID "conn-b1" h2
    (by simp [HandleWebSocket, newClient])
  exact ⟨h3.mem, fun id c h => (h3.conn id c h).2, h3.nodup⟩

theorem sampleWorld_AllocInv : AllocInv sampleWorld :=
  AllocInv_HandleWebSocket _ _ _ _ _ (AllocInv_HandleWebSocket _ _ _ _ _
    (AllocInv_HandleWebSocket _ _ _ _ _ (AllocInv_init sampleConfig sampleDB)))

/-- C5. `broadcastToUser(u, payload)` on a consistent registry (the two maps agree, no
sequence repeats an id, distinct sessions own distinct channels, as holds in every
reachable state), the payload serialising to `data`: every registered session of `u` whose outbound channel is open and not full has
exactly `data` appended at the tail of its buffer, so all of them receive the same bytes;
the outbound channel of every registered session of any other user is unchanged; the
registry, the store and the cache are unchanged; and when `u` has no registered session
the whole state is unchanged. -/
theorem broadcastToUser_delivers (marshal : Frame → Option Bytes) (w : World) (u : String)
    (payload : Frame) (data : Bytes)
    (hcons : ∀ v id, (∃ l, w.userConnections v = some l ∧ id ∈ l) ↔
      ∃ c, w.connections id = some c ∧ c.UserID = v)
    (hnodup : ∀ v l, w.userConnections v = some l → l.Nodup)
    (hinj : SendInjective w)
    (hm : marshal payload = some data) :
    (∀ id c, w.connections id = some c → c.UserID = u →
        (w.chans c.Send).closed = false →
        (w.chans c.Send).buf.length < (w.chans c.Send).cap →
        (broadcastToUser marshal w ⟨u, payload⟩).chans c.Send
          = { w.chans c.Send with buf := (w.chans c.Send).buf ++ [data] })
    ∧ (∀ id c, w.connections id = some c → c.UserID ≠ u →
        (broadcastToUser marshal w ⟨u, payload⟩).chans c.Send = w.chans c.Send)
    ∧ (broadcastToUser marshal w ⟨u, payload⟩).connections = w.connections
    ∧ (broadcastToUser marshal w ⟨u, payload⟩).userConnections = w.userConnections
    ∧ (broadcastToUser marshal w ⟨u, payload⟩).db = w.db
    ∧ (broadcastToUser marshal w ⟨u, payload⟩).cache = w.cache
    ∧ ((∀ id c, w.connections id = some c → c.UserID ≠ u) →
        broadcastToUser marshal w ⟨u, payload⟩ = w) := by
  obtain ⟨r1, r2, r3, r4, _, _⟩ := broadcastToUser_registry marshal w ⟨u, payload⟩
  refine ⟨?_, ?_, r1, r2, r3, r4, ?_⟩
  · intro id c hc hu hopen hroom
    obtain ⟨l, hl, hmem⟩ := (hcons u id).2 ⟨c, hc, hu⟩
    simp only [broadcastToUser, SyncMap.Load, hl, hm]
    rw [(foldl_broadcastToConn_chans data l w (hnodup u l hl) hinj).2.1 id hmem c hc]
    simp [Chan.deliver, Chan.trySend, hopen, hroom]
  · intro id c hc hu
    cases hl : w.userConnections u with
    | none => simp [broadcastToUser, SyncMap.Load, hl]
    | some l =>
      simp only [broadcastToUser, SyncMap.Load, hl, hm]
      apply (foldl_broadcastToConn_chans data l w (hnodup u l hl) hinj).1
      intro j hj d hd heq
      have hij := hinj j id d c hd hc heq
      subst hij
      obtain ⟨c2, hc2, hu2⟩ := (hcons u j).1 ⟨l, hl, hj⟩
      rw [hc] at hc2
      cases hc2
      exact hu hu2
  · intro hnone
    cases hl : w.userConnections u with
    | none => simp [broadcastToUser, SyncMap.Load, hl]
    | some l =>
      have : l = [] := by
        cases l with
        | nil => rfl
        | cons a t =>
          obtain ⟨c, hc, hu⟩ := (hcons u a).1 ⟨a :: t, hl, List.mem_cons_self _ _⟩
          exact absurd hu (hnone a c hc)
      subst this
      simp [broadcastToUser, SyncMap.Load, hl, hm]

theorem broadcastToUser_delivers_witness :
    (∀ v id, (∃ l, sampleWorld.userConnections v = some l ∧ id ∈ l) ↔
      ∃ c, sampleWorld.connections id = some c ∧ c.UserID = v)
    ∧ (∀ v l, sampleWorld.userConnections v = some l → l.Nodup)
    ∧ SendInjective sampleWorld
    ∧ sampleMarshal (.new_message sampleMessage) = some "new_message:hi"
    ∧ (broadcastToUser sampleMarshal sampleWorld
          ⟨aliceID, .new_message sampleMessage⟩).chans 0 = ⟨["new_message:hi"], 256, false, []⟩
    ∧ (broadcastToUser sampleMarshal sampleWorld
          ⟨aliceID, .new_message sampleMessage⟩).chans 1 = ⟨["new_message:hi"], 256, false, []⟩
    ∧ (broadcastToUser sampleMarshal sampleWorld
          ⟨aliceID, .new_message sampleMessage⟩).chans 2 = ⟨[], 256, false, []⟩ :=
  ⟨sampleWorld_consistent.1, sampleWorld_consistent.2.2, sampleWorld_AllocInv.inj, rfl,
   (broadcastToUser_delivers sampleMarshal sampleWorld aliceID (.new_message sampleMessage)
      "new_message:hi" sampleWorld_consistent.1 sampleWorld_consistent.2.2
      sampleWorld_AllocInv.inj rfl).1 "conn-a1" sessionA1 (by decide) rfl (by decide)
      (by decide),
   (broadcastToUser_delivers sampleMarshal sampleWorld aliceID (.new_message sampleMessage)
      "new_message:hi" sampleWorld_consistent.1 sampleWorld_consistent.2.2
      sampleWorld_AllocInv.inj rfl).1 "conn-a2" sessionA2 (by decide) rfl (by decide)
      (by decide),
   (broadcastToUser_delivers sampleMarshal sampleWorld aliceID (.new_message sampleMessage)
      "new_message:hi" sampleWorld_consistent.1 sampleWorld_consistent.2.2
      sampleWorld_AllocInv.inj rfl).2.1 "conn-b1" sessionB1 (by decide) (by decide)⟩

/-! ## The dispatcher: `handleSendMessage` -/

theorem handleSendMessage_parse_error (marshal : Frame → Option Bytes) (e : SendEnv)
    (w : World) (c : Client) (d : Decoded) (h : d.err = true) :
    handleSendMessage marshal e w c d =
      if d.req.TempID ≠ "" then sendErrorAck marshal w c d.req.TempID "Invalid message format"
      else w := by
  simp [handleSendMessage, h]

theorem handleSendMessage_conv_error (marshal : Frame → Option Bytes) (e : SendEnv)
    (w : World) (c : Client) (d : Decoded) (db1 : Database) (err : Error)
    (h : d.err = false) (hc : resolveConversation e w.db c d.req = (db1, .error err)) :
    handleSendMessage marshal e w c d =
      if d.req.TempID ≠ "" then
        sendErrorAck marshal w c d.req.TempID "Failed to create conversation"
      else w := by
  simp [handleSendMessage, h, hc]

theorem handleSendMessage_create_error (marshal : Frame → Option Bytes) (e : SendEnv)
    (w : World) (c : Client) (d : Decoded) (db1 db2 : Database) (conv : Conversation)
    (msg : Message) (err : Error)
    (h : d.err = false) (hc : resolveConversation e w.db c d.req = (db1, .ok conv))
    (hm : CreateMessage db1 e.now e.newMsgID e.insertMsgOk e.updateLastOk
      (newMessage e c d.req conv) = (db2, msg, some err)) :
    handleSendMessage marshal e w c d =
      if d.req.TempID ≠ "" then
        sendErrorAck marshal { w with db := db1 } c d.req.TempID "Failed to save message"
      else { w with db := db1 } := by
  simp [handleSendMessage, h, hc, hm]

theorem handleSendMessage_persisted (marshal : Frame → Option Bytes) (e : SendEnv)
    (w : World) (c : Client) (d : Decoded) (db1 db2 : Database) (conv : Conversation)
    (msg : Message)
    (h : d.err = false) (hc : resolveConversation e w.db c d.req = (db1, .ok conv))
    (hm : CreateMessage db1 e.now e.newMsgID e.insertMsgOk e.updateLastOk
      (newMessage e c d.req conv) = (db2, msg, none)) :
    handleSendMessage marshal e w c d = afterPersist marshal e w c d.req db2 msg := by
  simp [handleSendMessage, h, hc, hm, afterPersist]

theorem CreateMessage_cases (db : Database) (now : Time) (newID : ObjectID)
    (insertOk updateOk : Bool) (msg : Message) :
    (insertOk = false ∧ CreateMessage db now newID insertOk updateOk msg
        = (db, { msg with Timestamp := now, Status := "sent" }, some ErrStore))
    ∨ (insertOk = true ∧ ∃ db2 m,
        CreateMessage db now newID insertOk updateOk msg = (db2, m, none)
        ∧ m = { msg with Timestamp := now, Status := "sent", ID := insertedID msg.ID newID }
        ∧ db2.messages = db.messages ++ [m]
        ∧ db2.message_queue = db.message_queue
        ∧ db2.users = db.users) := by
  cases insertOk with
  | false => left; simp [CreateMessage]
  | true =>
    right
    refine ⟨rfl, _, _, rfl, rfl, ?_, ?_, ?_⟩
    all_goals cases updateOk <;> simp [updateConversationLastMessage]

theorem GetOrCreateConversation_frame (db : Database) (now : Time) (newID : ObjectID)
    (findOk insertOk : Bool) (userIDs : List String) :
    (GetOrCreateConversation db now newID findOk insertOk userIDs).1.messages = db.messages
    ∧ (GetOrCreateConversation db now newID findOk insertOk userIDs).1.message_queue
        = db.message_queue
    ∧ (GetOrCreateConversation db now newID findOk insertOk userIDs).1.users = db.users := by
  unfold GetOrCreateConversation
  repeat' split
  all_goals simp

theorem GetOrCreateConversation_error (db : Database) (now : Time) (newID : ObjectID)
    (findOk insertOk : Bool) (userIDs : List String) (db1 : Database) (err : Error)
    (h : GetOrCreateConversation db now newID findOk insertOk userIDs = (db1, .error err)) :
    db1 = db := by
  unfold GetOrCreateConversation at h
  repeat' split at h
  all_goals simp_all

theorem resolveConversation_frame (e : SendEnv) (db : Database) (c : Client)
    (req : SendMessageReq) :
    (resolveConversation e db c req).1.messages = db.messages
    ∧ (resolveConversation e db c req).1.message_queue = db.message_queue
    ∧ (resolveConversation e db c req).1.users = db.users := by
  unfold resolveConversation
  dsimp only
  repeat' split
  all_goals first
    | exact ⟨rfl, rfl, rfl⟩
    | exact GetOrCreateConversation_frame _ _ _ _ _ _

theorem resolveConversation_error (e : SendEnv) (db : Database) (c : Client)
    (req : SendMessageReq) (db1 : Database) (err : Error)
    (h : resolveConversation e db c req = (db1, .error err)) : db1 = db := by
  unfold resolveConversation at h
  dsimp only at h
  split at h
  · simp at h
  · exact GetOrCreateConversation_error _ _ _ _ _ _ _ _ h

theorem UpdateStatus_frame (db : Database) (now : Time) (ok : Bool)
    (messageID userID status : String) :
    (UpdateStatus db now ok messageID userID status).1.message_queue = db.message_queue
    ∧ (UpdateStatus db now ok messageID userID status).1.users = db.users
    ∧ (UpdateStatus db now ok messageID userID status).1.conversations = db.conversations
    ∧ (UpdateStatus db now ok messageID userID status).1.messages.map (fun m => m.ID)
        = db.messages.map (fun m => m.ID) := by
  unfold UpdateStatus
  repeat' split
  all_goals first
    | exact ⟨rfl, rfl, rfl, rfl⟩
    | exact ⟨rfl, rfl, rfl,
        updateOne_map_key (fun m : Message => m.ID) _ (setDeliveryStatus _ _ _) (fun _ => rfl) _⟩

theorem sendErrorAck_fields (marshal : Frame → Option Bytes) (w : World) (c : Client)
    (t err : String) :
    (sendErrorAck marshal w c t err).db = w.db
    ∧ (sendErrorAck marshal w c t err).broadcast = w.broadcast
    ∧ (sendErrorAck marshal w c t err).connections = w.connections
    ∧ (sendErrorAck marshal w c t err).userConnections = w.userConnections
    ∧ (sendErrorAck marshal w c t err).chans
        = Function.update w.chans c.Send
            ((w.chans c.Send).send ((marshal (.message_ack_error t err)).getD "")).1 := by
  simp [sendErrorAck, World.chanSend]

theorem afterPersist_fields (marshal : Frame → Option Bytes) (e : SendEnv) (w : World)
    (c : Client) (req : SendMessageReq) (db : Database) (msg : Message) :
    (afterPersist marshal e w c req db msg).broadcast =
        w.broadcast ++ [⟨req.RecipientID, .new_message msg⟩] ++
          (if hasLiveSession w req.RecipientID
           then [⟨c.UserID, .status_update msg.ID.Hex "delivered"⟩] else [])
    ∧ (afterPersist marshal e w c req db msg).db =
        (if hasLiveSession w req.RecipientID
         then (UpdateStatus db e.now e.updateStatusOk msg.ID.Hex req.RecipientID "delivered").1
         else db)
    ∧ (afterPersist marshal e w c req db msg).chans =
        Function.update w.chans c.Send
          ((w.chans c.Send).send
            ((marshal (.message_ack req.TempID msg.ID.Hex msg.Timestamp "sent")).getD "")).1
    ∧ (afterPersist marshal e w c req db msg).connections = w.connections
    ∧ (afterPersist marshal e w c req db msg).userConnections = w.userConnections
    ∧ (afterPersist marshal e w c req db msg).nextChan = w.nextChan := by
  have hlive : hasLiveSession (SendToUser { w with db := db } req.RecipientID
      (.new_message msg)) req.RecipientID = hasLiveSession w req.RecipientID := rfl
  unfold afterPersist
  simp only [hlive]
  cases hasLiveSession w req.RecipientID <;> simp [SendToUser, World.chanSend]

/-- The four ways `handleSendMessage` can end: the payload did not parse, the conversation
could not be resolved, the message could not be saved, or the message was persisted. -/
theorem handleSendMessage_cases (marshal : Frame → Option Bytes) (e : SendEnv) (w : World)
    (c : Client) (d : Decoded) :
    (d.err = true ∧ handleSendMessage marshal e w c d =
        if d.req.TempID ≠ "" then
          sendErrorAck marshal w c d.req.TempID "Invalid message format"
        else w)
    ∨ (d.err = false ∧ (∃ err, resolveConversation e w.db c d.req = (w.db, .error err))
        ∧ handleSendMessage marshal e w c d =
          if d.req.TempID ≠ "" then
            sendErrorAck marshal w c d.req.TempID "Failed to create conversation"
          else w)
    ∨ (d.err = false ∧ ∃ db1 conv, resolveConversation e w.db c d.req = (db1, .ok conv)
        ∧ e.insertMsgOk = false
        ∧ db1.messages = w.db.messages ∧ db1.message_queue = w.db.message_queue
        ∧ handleSendMessage marshal e w c d =
          if d.req.TempID ≠ "" then
            sendErrorAck marshal { w with db := db1 } c d.req.TempID "Failed to save message"
          else { w with db := db1 })
    ∨ (d.err = false ∧ ∃ db1 conv db2 msg,
        resolveConversation e w.db c d.req = (db1, .ok conv)
        ∧ e.insertMsgOk = true
        ∧ CreateMessage db1 e.now e.newMsgID e.insertMsgOk e.updateLastOk
            (newMessage e c d.req conv) = (db2, msg, none)
        ∧ db2.messages = w.db.messages ++ [msg]
        ∧ db2.message_queue = w.db.message_queue
        ∧ handleSendMessage marshal e w c d = afterPersist marshal e w c d.req db2 msg) := by
  cases hd : d.err with
  | true => exact Or.inl ⟨rfl, handleSendMessage_parse_error marshal e w c d hd⟩
  | false =>
    right
    have hframe := resolveConversation_frame e w.db c d.req
    rcases hres : resolveConversation e w.db c d.req with ⟨db1, r⟩
    rw [hres] at hframe
    cases r with
    | error err =>
      have hdb := resolveConversation_error e w.db c d.req db1 err hres
      subst hdb
      exact Or.inl ⟨rfl, ⟨err, rfl⟩, handleSendMessage_conv_error marshal e w c d _ err hd hres⟩
    | ok conv =>
      right
      rcases CreateMessage_cases db1 e.now e.newMsgID e.insertMsgOk e.updateLastOk
          (newMessage e c d.req conv) with ⟨hi, hm⟩ | ⟨hi, db2, m, hm, _, hmsgs, hq, _⟩
      · exact Or.inl ⟨rfl, db1, conv, rfl, hi, hframe.1, hframe.2.1,
          handleSendMessage_create_error marshal e w c d db1 _ conv _ _ hd hres hm⟩
      · refine Or.inr ⟨rfl, db1, conv, db2, m, rfl, hi, hm, ?_, ?_,
          handleSendMessage_persisted marshal e w c d db1 db2 conv m hd hres hm⟩
        · rw [hmsgs, hframe.1]
        · rw [hq, hframe.2.1]

/-- C7, what the code does. `handleSendMessage` never writes the offline queue: for every
input the `message_queue` collection afterwards is the one before. In the run where alice
sends "hi" to bob, bob has no session and every store call succeeds: the message is
persisted, the only broadcast is the `new_message` toward bob, the sender is acked with
status sent, no `status_update` is emitted, and `message_queue` is still empty, also after
the coordinator has processed the broadcast. The entry the claim expects is the one
`QueueOfflineMessage` would insert, a method no code path calls. -/
theorem handleSendMessage_never_queues :
    (∀ (marshal : Frame → Option Bytes) (e : SendEnv) (w : World) (c : Client) (d : Decoded),
      (handleSendMessage marshal e w c d).db.message_queue = w.db.message_queue)
    ∧ hasLiveSession sampleWorld2 bobID = false
    ∧ (handleSendMessage sampleMarshal sendEnvOk sampleWorld2 sessionA1 sendHi).db.messages
        = [sampleMessage]
    ∧ (handleSendMessage sampleMarshal sendEnvOk sampleWorld2 sessionA1 sendHi).broadcast
        = [⟨bobID, .new_message sampleMessage⟩]
    ∧ ((handleSendMessage sampleMarshal sendEnvOk sampleWorld2 sessionA1 sendHi).chans 0).buf
        = ["message_ack:t1:0000000000000000000001f4:sent"]
    ∧ (handleSendMessage sampleMarshal sendEnvOk sampleWorld2 sessionA1 sendHi).db.message_queue
        = []
    ∧ (broadcastToUser sampleMarshal
        (handleSendMessage sampleMarshal sendEnvOk sampleWorld2 sessionA1 sendHi)
        ⟨bobID, .new_message sampleMessage⟩).db.message_queue = []
    ∧ (QueueOfflineMessage
        (handleSendMessage sampleMarshal sendEnvOk sampleWorld2 sessionA1 sendHi).db 20
        (ObjectID.ofNat 600) true bobID sampleMessage.ID
        sampleMessage.ConversationID).1.message_queue
        = [{ ID := ObjectID.ofNat 600, UserID := ObjectID.ofNat 2,
             MessageID := ObjectID.ofNat 500, ConversationID := ObjectID.ofNat 400,
             Priority := 1, CreatedAt := 20, RetryCount := 0, LastRetry := 0,
             Status := "pending" }] := by
  refine ⟨?_, by decide, by decide, by decide, by decide, by decide, by decide, by decide⟩
  intro marshal e w c d
  rcases handleSendMessage_cases marshal e w c d with
    ⟨_, h⟩ | ⟨_, _, h⟩ | ⟨_, db1, conv, _, _, _, hq, h⟩ | ⟨_, db1, conv, db2, msg, _, _, _, _, hq, h⟩
  · rw [h]; split
    · rw [(sendErrorAck_fields _ _ _ _ _).1]
    · rfl
  · rw [h]; split
    · rw [(sendErrorAck_fields _ _ _ _ _).1]
    · rfl
  · rw [h]; split
    · rw [(sendErrorAck_fields _ _ _ _ _).1]; exact hq
    · exact hq
  · rw [h, (afterPersist_fields _ _ _ _ _ _ _).2.1]
    split
    · rw [(UpdateStatus_frame _ _ _ _ _ _).1]; exact hq
    · exact hq

theorem hasLiveSession_iff (w : World) (u : String) :
    hasLiveSession w u = true ↔ ∃ l, w.userConnections u = some l ∧ 1 ≤ l.length := by
  unfold hasLiveSession
  simp only [SyncMap.Load]
  cases w.userConnections u with
  | none => simp
  | some l => simp [Nat.succ_le_iff]

/-- C8. Online-delivery upgrade. When the payload parsed, the conversation was resolved
and `CreateMessage` persisted the message `msg` leaving the store `db2`:
if `userConnections` holds at least one connection id for the recipient, the broadcasts
pushed are the `new_message` toward the recipient followed by exactly one `status_update`
with status delivered toward the sender user, and the store is `db2` after
`UpdateStatus(msg.ID, recipient, "delivered")`; otherwise only the `new_message` is pushed
and the store is `db2`. So the number of status updates pushed is one exactly when the
recipient has a session, whatever their number, and never more than one. -/
theorem delivered_upgrade_iff_recipient_connected (marshal : Frame → Option Bytes)
    (e : SendEnv) (w : World) (c : Client) (d : Decoded) (db1 db2 : Database)
    (conv : Conversation) (msg : Message)
    (hparse : d.err = false)
    (hconv : resolveConversation e w.db c d.req = (db1, .ok conv))
    (hcreate : CreateMessage db1 e.now e.newMsgID e.insertMsgOk e.updateLastOk
      (newMessage e c d.req conv) = (db2, msg, none)) :
    ((∃ l, w.userConnections d.req.RecipientID = some l ∧ 1 ≤ l.length) →
        (handleSendMessage marshal e w c d).broadcast =
          w.broadcast ++ [⟨d.req.RecipientID, .new_message msg⟩,
            ⟨c.UserID, .status_update msg.ID.Hex "delivered"⟩]
        ∧ (handleSendMessage marshal e w c d).db =
          (UpdateStatus db2 e.now e.updateStatusOk msg.ID.Hex d.req.RecipientID
            "delivered").1)
    ∧ (¬ (∃ l, w.userConnections d.req.RecipientID = some l ∧ 1 ≤ l.length) →
        (handleSendMessage marshal e w c d).broadcast =
          w.broadcast ++ [⟨d.req.RecipientID, .new_message msg⟩]
        ∧ (handleSendMessage marshal e w c d).db = db2)
    ∧ ((((handleSendMessage marshal e w c d).broadcast.drop w.broadcast.length).countP
          isStatusUpdate = 1) ↔
        ∃ l, w.userConnections d.req.RecipientID = some l ∧ 1 ≤ l.length)
    ∧ ((handleSendMessage marshal e w c d).broadcast.drop w.broadcast.length).countP
          isStatusUpdate ≤ 1 := by
  rw [handleSendMessage_persisted marshal e w c d db1 db2 conv msg hparse hconv hcreate]
  obtain ⟨hb, hdb, _⟩ := afterPersist_fields marshal e w c d.req db2 msg
  rw [hb, hdb, ← hasLiveSession_iff]
  cases hasLiveSession w d.req.RecipientID <;> simp [isStatusUpdate]

theorem delivered_upgrade_iff_recipient_connected_witness :
    sendHi.err = false
    ∧ resolveConversation sendEnvOk sampleWorld.db sessionA1 sendHi.req
        = ({ sampleWorld.db with conversations := [sampleConversation] }, .ok sampleConversation)
    ∧ CreateMessage { sampleWorld.db with conversations := [sampleConversation] } sendEnvOk.now
        sendEnvOk.newMsgID sendEnvOk.insertMsgOk sendEnvOk.updateLastOk
        (newMessage sendEnvOk sessionA1 sendHi.req sampleConversation)
        = ((CreateMessage { sampleWorld.db with conversations := [sampleConversation] }
            sendEnvOk.now sendEnvOk.newMsgID sendEnvOk.insertMsgOk sendEnvOk.updateLastOk
            (newMessage sendEnvOk sessionA1 sendHi.req sampleConversation)).1,
           sampleMessage, none)
    ∧ (handleSendMessage sampleMarshal sendEnvOk sampleWorld sessionA1 sendHi).broadcast =
        [⟨bobID, .new_message sampleMessage⟩,
         ⟨aliceID, .status_update "0000000000000000000001f4" "delivered"⟩] :=
  ⟨rfl, rfl, rfl,
   ((delivered_upgrade_iff_recipient_connected sampleMarshal sendEnvOk sampleWorld sessionA1
      sendHi _ _ sampleConversation sampleMessage rfl rfl rfl).1
      ⟨["conn-b1"], by decide, by decide⟩).1⟩

/-- C9. For every `send_message` frame, `handleSendMessage` performs at most one send on
the outbound channel of the originating session and touches no other channel: either no
send at all, or one error ack carrying the `temp_id` with no message persisted, or one
positive ack (status sent, `server_id` the id of the persisted message) with exactly that
message added to the store. It never sends both, and the channel gains at most one
payload. -/
theorem at_most_one_message_ack (marshal : Frame → Option Bytes) (e : SendEnv) (w : World)
    (c : Client) (d : Decoded) :
    ((handleSendMessage marshal e w c d).chans = w.chans
        ∧ (handleSendMessage marshal e w c d).db.messages = w.db.messages)
    ∨ (∃ err, (handleSendMessage marshal e w c d).chans =
          Function.update w.chans c.Send
            ((w.chans c.Send).send
              ((marshal (.message_ack_error d.req.TempID err)).getD "")).1
        ∧ (handleSendMessage marshal e w c d).db.messages = w.db.messages)
    ∨ (∃ msg : Message, (handleSendMessage marshal e w c d).chans =
          Function.update w.chans c.Send
            ((w.chans c.Send).send
              ((marshal (.message_ack d.req.TempID msg.ID.Hex msg.Timestamp "sent")).getD "")).1
        ∧ (handleSendMessage marshal e w c d).db.messages.map (fun m => m.ID)
            = w.db.messages.map (fun m => m.ID) ++ [msg.ID]
        ∧ d.err = false ∧ e.insertMsgOk = true) := by
  rcases handleSendMessage_cases marshal e w c d with
    ⟨_, h⟩ | ⟨_, _, h⟩ | ⟨_, db1, conv, _, _, hm, _, h⟩ |
    ⟨hd, db1, conv, db2, msg, _, hi, _, hm, _, h⟩
  · rw [h]
    by_cases ht : d.req.TempID ≠ ""
    · rw [if_pos ht]
      exact Or.inr (Or.inl ⟨_, (sendErrorAck_fields _ _ _ _ _).2.2.2.2,
        by rw [(sendErrorAck_fields _ _ _ _ _).1]⟩)
    · rw [if_neg ht]; exact Or.inl ⟨rfl, rfl⟩
  · rw [h]
    by_cases ht : d.req.TempID ≠ ""
    · rw [if_pos ht]
      exact Or.inr (Or.inl ⟨_, (sendErrorAck_fields _ _ _ _ _).2.2.2.2,
        by rw [(sendErrorAck_fields _ _ _ _ _).1]⟩)
    · rw [if_neg ht]; exact Or.inl ⟨rfl, rfl⟩
  · rw [h]
    by_cases ht : d.req.TempID ≠ ""
    · rw [if_pos ht]
      exact Or.inr (Or.inl ⟨_, (sendErrorAck_fields _ _ _ _ _).2.2.2.2,
        by rw [(sendErrorAck_fields _ _ _ _ _).1]; exact hm⟩)
    · rw [if_neg ht]; exact Or.inl ⟨rfl, hm⟩
  · refine Or.inr (Or.inr ⟨msg, ?_, ?_, hd, hi⟩)
    · rw [h, (afterPersist_fields _ _ _ _ _ _ _).2.2.1]
    · rw [h, (afterPersist_fields _ _ _ _ _ _ _).2.1]
      split
      · rw [(UpdateStatus_frame _ _ _ _ _ _).2.2.2, hm]; simp
      · rw [hm]; simp

/-- C10, as amended. For every `send_message` frame in which payload parsing, conversation
resolution or message persistence fails, the operation halts: nothing is pushed on the
broadcast channel, no message is added to the store and no positive ack is sent. When the
payload carries a non-empty `temp_id` the originating session is sent exactly one
`message_ack` with that `temp_id` and an error; when it carries none, no ack is sent. -/
theorem failure_halts_with_error_ack (marshal : Frame → Option Bytes) (e : SendEnv)
    (w : World) (c : Client) (d : Decoded)
    (hfail : d.err = true
      ∨ (∃ db1 err, resolveConversation e w.db c d.req = (db1, .error err))
      ∨ e.insertMsgOk = false) :
    (handleSendMessage marshal e w c d).broadcast = w.broadcast
    ∧ (handleSendMessage marshal e w c d).db.messages = w.db.messages
    ∧ (d.req.TempID ≠ "" →
        ∃ err ∈ ["Invalid message format", "Failed to create conversation",
            "Failed to save message"],
          (handleSendMessage marshal e w c d).chans =
            Function.update w.chans c.Send
              ((w.chans c.Send).send
                ((marshal (.message_ack_error d.req.TempID err)).getD "")).1)
    ∧ (d.req.TempID = "" → (handleSendMessage marshal e w c d).chans = w.chans) := by
  rcases handleSendMessage_cases marshal e w c d with
    ⟨_, h⟩ | ⟨_, _, h⟩ | ⟨_, db1, conv, _, _, hm, _, h⟩ |
    ⟨hd, db1, conv, db2, msg, hres, hi, _, _, _, _⟩
  · rw [h]
    by_cases ht : d.req.TempID ≠ ""
    · rw [if_pos ht]
      obtain ⟨f1, f2, _, _, f5⟩ := sendErrorAck_fields marshal w c d.req.TempID
        "Invalid message format"
      exact ⟨f2, by rw [f1], fun _ => ⟨_, by simp, f5⟩, fun h0 => absurd h0 ht⟩
    · rw [if_neg ht]
      exact ⟨rfl, rfl, fun h0 => absurd h0 ht, fun _ => rfl⟩
  · rw [h]
    by_cases ht : d.req.TempID ≠ ""
    · rw [if_pos ht]
      obtain ⟨f1, f2, _, _, f5⟩ := sendErrorAck_fields marshal w c d.req.TempID
        "Failed to create conversation"
      exact ⟨f2, by rw [f1], fun _ => ⟨_, by simp, f5⟩, fun h0 => absurd h0 ht⟩
    · rw [if_neg ht]
      exact ⟨rfl, rfl, fun h0 => absurd h0 ht, fun _ => rfl⟩
  · rw [h]
    by_cases ht : d.req.TempID ≠ ""
    · rw [if_pos ht]
      obtain ⟨f1, f2, _, _, f5⟩ := sendErrorAck_fields marshal { w with db := db1 } c
        d.req.TempID "Failed to save message"
      exact ⟨f2, by rw [f1]; exact hm, fun _ => ⟨_, by simp, f5⟩, fun h0 => absurd h0 ht⟩
    · rw [if_neg ht]
      exact ⟨rfl, hm, fun h0 => absurd h0 ht, fun _ => rfl⟩
  · exfalso
    rcases hfail with h1 | ⟨db3, err, h2⟩ | h3
    · rw [hd] at h1; cases h1
    · rw [hres] at h2; cases h2
    · rw [hi] at h3; cases h3

theorem failure_halts_with_error_ack_witness :
    (sendHi.err = true
      ∨ (∃ db1 err, resolveConversation sendEnvInsertFails sampleWorld.db sessionA1 sendHi.req
          = (db1, .error err))
      ∨ sendEnvInsertFails.insertMsgOk = false)
    ∧ (handleSendMessage sampleMarshal sendEnvInsertFails sampleWorld sessionA1 sendHi).broadcast
        = []
    ∧ (handleSendMessage sampleMarshal sendEnvInsertFails sampleWorld sessionA1
        sendHi).db.messages = []
    ∧ ((handleSendMessage sampleMarshal sendEnvInsertFails sampleWorld sessionA1
        sendHi).chans 0).buf = ["message_ack:t1:error:Failed to save message"] :=
  ⟨Or.inr (Or.inr rfl),
   (failure_halts_with_error_ack sampleMarshal sendEnvInsertFails sampleWorld sessionA1 sendHi
      (Or.inr (Or.inr rfl))).1,
   (failure_halts_with_error_ack sampleMarshal sendEnvInsertFails sampleWorld sessionA1 sendHi
      (Or.inr (Or.inr rfl))).2.1,
   by decide⟩

/-- C10, the claim as stated fails. With bob online and only the delivered status update
failing, alice is sent the positive ack and the delivered `status_update`, and no error
ack, while the store still records the status sent; and with no `temp_id` in the payload
and the message insert failing, the originating session is sent no ack at all. -/
theorem error_ack_counterexample :
    sendEnvStatusFails.updateStatusOk = false
    ∧ ((handleSendMessage sampleMarshal sendEnvStatusFails sampleWorld sessionA1 sendHi).chans
        0).buf = ["message_ack:t1:0000000000000000000001f4:sent"]
    ∧ (handleSendMessage sampleMarshal sendEnvStatusFails sampleWorld sessionA1 sendHi).broadcast
        = [⟨bobID, .new_message sampleMessage⟩,
           ⟨aliceID, .status_update "0000000000000000000001f4" "delivered"⟩]
    ∧ (handleSendMessage sampleMarshal sendEnvStatusFails sampleWorld sessionA1
        sendHi).db.messages = [sampleMessage]
    ∧ sendEnvInsertFails.insertMsgOk = false
    ∧ sendHiNoTemp.req.TempID = ""
    ∧ ((handleSendMessage sampleMarshal sendEnvInsertFails sampleWorld sessionA1
        sendHiNoTemp).chans 0).buf = []
    ∧ (handleSendMessage sampleMarshal sendEnvInsertFails sampleWorld sessionA1
        sendHiNoTemp).db.messages = [] := by
  decide

/-! ## The bound on outbound buffers -/

theorem Chan.trySend_bound (ch ch1 : Chan) (x : Bytes) (h : ch.trySend x = .sent ch1) :
    ch1.buf.length ≤ ch1.cap ∧ ch1.cap = ch.cap := by
  unfold Chan.trySend at h
  split at h
  · cases h
  · split at h
    · rename_i hl
      cases h
      exact ⟨by simpa using hl, rfl⟩
    · cases h

theorem Chan.deliver_bound (ch : Chan) (x : Bytes) (hb : ch.buf.length ≤ ch.cap) :
    (ch.deliver x).buf.length ≤ (ch.deliver x).cap ∧ (ch.deliver x).cap = ch.cap := by
  unfold Chan.deliver
  cases h : ch.trySend x with
  | sent ch1 => exact Chan.trySend_bound ch ch1 x h
  | full => exact ⟨hb, rfl⟩
  | closed => exact ⟨hb, rfl⟩

theorem Chan.send_bound (ch : Chan) (x : Bytes) (hb : ch.buf.length ≤ ch.cap) :
    (ch.send x).1.buf.length ≤ (ch.send x).1.cap ∧ (ch.send x).1.cap = ch.cap := by
  unfold Chan.send
  cases h : ch.trySend x with
  | sent ch1 => exact Chan.trySend_bound ch ch1 x h
  | full => exact ⟨hb, rfl⟩
  | closed => exact ⟨hb, rfl⟩

theorem Chan.close_bound (ch : Chan) (hb : ch.buf.length ≤ ch.cap) :
    ch.close.1.buf.length ≤ ch.close.1.cap ∧ ch.close.1.cap = ch.cap := by
  unfold Chan.close
  split <;> exact ⟨hb, rfl⟩

theorem Chan.close_bound_cap (ch : Chan) : ch.close.1.cap = ch.cap := by
  unfold Chan.close
  split <;> rfl

theorem Chan.send_bound_cap (ch : Chan) (x : Bytes) : (ch.send x).1.cap = ch.cap := by
  unfold Chan.send
  cases h : ch.trySend x with
  | sent ch1 => exact (Chan.trySend_bound ch ch1 x h).2
  | full => rfl
  | closed => rfl

theorem Chan.recv_bound (ch : Chan) (hb : ch.buf.length ≤ ch.cap) :
    ch.recv.2.buf.length ≤ ch.recv.2.cap ∧ ch.recv.2.cap = ch.cap := by
  unfold Chan.recv
  cases hbuf : ch.buf with
  | nil => exact ⟨by simp [hbuf], rfl⟩
  | cons x rest =>
    rw [hbuf, List.length_cons] at hb
    cases hq : ch.sendq with
    | nil =>
      refine ⟨?_, rfl⟩
      show rest.length ≤ ch.cap
      omega
    | cons y q =>
      refine ⟨?_, rfl⟩
      show (rest ++ [y]).length ≤ ch.cap
      simpa using hb

theorem Chan.step_bound (ch : Chan) (op : ChanOp) (hb : ch.buf.length ≤ ch.cap) :
    (ch.step op).buf.length ≤ (ch.step op).cap ∧ (ch.step op).cap = ch.cap := by
  cases op with
  | trySend x => exact Chan.deliver_bound ch x hb
  | send x => exact Chan.send_bound ch x hb
  | recv => exact Chan.recv_bound ch hb
  | close => exact Chan.close_bound ch hb

theorem Chan.foldl_step_bound (ops : List ChanOp) (ch : Chan) (hb : ch.buf.length ≤ ch.cap) :
    (ops.foldl Chan.step ch).buf.length ≤ (ops.foldl Chan.step ch).cap
    ∧ (ops.foldl Chan.step ch).cap = ch.cap := by
  induction ops generalizing ch with
  | nil => exact ⟨hb, rfl⟩
  | cons op ops ih =>
    obtain ⟨h1, h2⟩ := Chan.step_bound ch op hb
    obtain ⟨i1, i2⟩ := ih (ch.step op) h1
    exact ⟨i1, i2.trans h2⟩

theorem ChanBounded_update (w : World) (chans : Nat → Chan) (h : Nat) (ch : Chan)
    (hw : ChanBounded w) (hch : ch.buf.length ≤ ch.cap ∧ ch.cap ≤ 256)
    (heq : chans = Function.update w.chans h ch) :
    ∀ k, (chans k).buf.length ≤ (chans k).cap ∧ (chans k).cap ≤ 256 := by
  intro k
  rw [heq]
  by_cases hk : k = h
  · subst hk; simpa using hch
  · simpa [Function.update, hk] using hw k

theorem ChanBounded_broadcastToConn (data : Bytes) (w : World) (connID : String)
    (hw : ChanBounded w) : ChanBounded (broadcastToConn data w connID) := by
  unfold ChanBounded
  rw [broadcastToConn_chans]
  cases w.connections connID with
  | none => exact hw
  | some c =>
    obtain ⟨h1, h2⟩ := Chan.deliver_bound (w.chans c.Send) data (hw c.Send).1
    exact ChanBounded_update w _ c.Send _ hw ⟨h1, h2 ▸ (hw c.Send).2⟩ rfl

theorem ChanBounded_foldl_broadcastToConn (data : Bytes) (l : List String) (w : World)
    (hw : ChanBounded w) : ChanBounded (l.foldl (broadcastToConn data) w) := by
  induction l generalizing w with
  | nil => exact hw
  | cons x xs ih => exact ih _ (ChanBounded_broadcastToConn data w x hw)

theorem ChanBounded_broadcastToUser (marshal : Frame → Option Bytes) (w : World)
    (b : BroadcastMessage) (hw : ChanBounded w) : ChanBounded (broadcastToUser marshal w b) := by
  unfold broadcastToUser
  repeat' split
  all_goals first
    | exact hw
    | exact ChanBounded_foldl_broadcastToConn _ _ _ hw

theorem registerClient_chans (cfg : Config) (e : RegisterEnv) (w : World) (c : Client) :
    (registerClient cfg e w c).chans = w.chans := by
  simp only [registerClient, (SetOnline_fields _ _ _ _ _).2.2.1]
  cases e.insertOk <;> rfl

theorem unregisterClient_chans (e : UnregisterEnv) (w : World) (c : Client) :
    (unregisterClient e w c).chans = Function.update w.chans c.Send (w.chans c.Send).close.1 := by
  unfold unregisterClient
  simp only [SyncMap.Load]
  repeat' split
  all_goals first
    | rfl
    | simp only [(SetOffline_fields _ _ _ _).2.2.1]

theorem ChanBounded_HandleWebSocket (cfg : Config) (e : RegisterEnv) (w : World)
    (userID uuid : String) (hw : ChanBounded w) :
    ChanBounded (HandleWebSocket cfg e w userID uuid).1 := by
  unfold ChanBounded HandleWebSocket
  rw [registerClient_chans]
  exact ChanBounded_update w _ w.nextChan (Chan.make 256) hw (by simp [Chan.make]) rfl

theorem ChanBounded_unregisterClient (e : UnregisterEnv) (w : World) (c : Client)
    (hw : ChanBounded w) : ChanBounded (unregisterClient e w c) := by
  unfold ChanBounded
  rw [unregisterClient_chans]
  obtain ⟨h1, h2⟩ := Chan.close_bound (w.chans c.Send) (hw c.Send).1
  exact ChanBounded_update w _ c.Send _ hw ⟨h1, h2 ▸ (hw c.Send).2⟩ rfl

theorem ChanBounded_chanSend (w : World) (h : Nat) (x : Bytes) (hw : ChanBounded w) :
    ChanBounded (w.chanSend h x) := by
  unfold ChanBounded
  obtain ⟨h1, h2⟩ := Chan.send_bound (w.chans h) x (hw h).1
  exact ChanBounded_update w _ h _ hw ⟨h1, h2 ▸ (hw h).2⟩ rfl

theorem ChanBounded_handleSendMessage (marshal : Frame → Option Bytes) (e : SendEnv)
    (w : World) (c : Client) (d : Decoded) (hw : ChanBounded w) :
    ChanBounded (handleSendMessage marshal e w c d) := by
  have hack : ∀ (w0 : World) (t err : String), ChanBounded w0 →
      ChanBounded (sendErrorAck marshal w0 c t err) :=
    fun w0 t err h0 => ChanBounded_chanSend w0 c.Send _ h0
  rcases handleSendMessage_cases marshal e w c d with
    ⟨_, h⟩ | ⟨_, _, h⟩ | ⟨_, db1, conv, _, _, _, _, h⟩ |
    ⟨_, db1, conv, db2, msg, _, _, _, _, _, h⟩
  · rw [h]; split
    · exact hack w _ _ hw
    · exact hw
  · rw [h]; split
    · exact hack w _ _ hw
    · exact hw
  · rw [h]; split
    · exact hack _ _ _ hw
    · exact hw
  · rw [h]
    unfold ChanBounded
    rw [(afterPersist_fields _ _ _ _ _ _ _).2.2.1]
    obtain ⟨h1, h2⟩ := Chan.send_bound (w.chans c.Send)
      ((marshal (.message_ack d.req.TempID msg.ID.Hex msg.Timestamp "sent")).getD "")
      (hw c.Send).1
    exact ChanBounded_update w _ c.Send _ hw ⟨h1, h2 ▸ (hw c.Send).2⟩ rfl

theorem ChanBounded_init (cfg : Config) (db : Database) : ChanBounded (World.init cfg db) := by
  intro h; simp [World.init, Chan.make]

theorem ChanBounded_run (marshal : Frame → Option Bytes) (cfg : Config) (events : List Event)
    (w : World) (hw : ChanBounded w) : ChanBounded (World.run marshal cfg w events) := by
  induction events generalizing w with
  | nil => exact hw
  | cons ev evs ih =>
    unfold World.run
    rw [List.foldl_cons]
    apply ih
    cases ev with
    | connect e userID uuid => exact ChanBounded_HandleWebSocket cfg e w userID uuid hw
    | unregister e client => exact ChanBounded_unregisterClient e w client hw
    | broadcast b => exact ChanBounded_broadcastToUser marshal w b hw
    | sendMessage e client d => exact ChanBounded_handleSendMessage marshal e w client d hw

theorem handleSendMessage_registry (marshal : Frame → Option Bytes) (e : SendEnv)
    (w : World) (c : Client) (d : Decoded) :
    (handleSendMessage marshal e w c d).connections = w.connections
    ∧ (handleSendMessage marshal e w c d).userConnections = w.userConnections
    ∧ (handleSendMessage marshal e w c d).nextChan = w.nextChan
    ∧ ((handleSendMessage marshal e w c d).chans = w.chans
      ∨ ∃ x, (handleSendMessage marshal e w c d).chans
          = Function.update w.chans c.Send ((w.chans c.Send).send x).1) := by
  rcases handleSendMessage_cases marshal e w c d with
    ⟨_, h⟩ | ⟨_, _, h⟩ | ⟨_, db1, conv, _, _, _, _, h⟩ |
    ⟨_, db1, conv, db2, msg, _, _, _, _, _, h⟩
  · rw [h]; split
    · exact ⟨rfl, rfl, rfl, Or.inr ⟨_, rfl⟩⟩
    · exact ⟨rfl, rfl, rfl, Or.inl rfl⟩
  · rw [h]; split
    · exact ⟨rfl, rfl, rfl, Or.inr ⟨_, rfl⟩⟩
    · exact ⟨rfl, rfl, rfl, Or.inl rfl⟩
  · rw [h]; split
    · exact ⟨rfl, rfl, rfl, Or.inr ⟨_, rfl⟩⟩
    · exact ⟨rfl, rfl, rfl, Or.inl rfl⟩
  · rw [h]
    obtain ⟨_, _, f3, f4, f5, f6⟩ := afterPersist_fields marshal e w c d.req db2 msg
    exact ⟨f4, f5, f6, Or.inr ⟨_, f3⟩⟩

theorem AllocInv_handleSendMessage (marshal : Frame → Option Bytes) (e : SendEnv)
    (w : World) (c : Client) (d : Decoded) (hinv : AllocInv w) :
    AllocInv (handleSendMessage marshal e w c d) := by
  obtain ⟨h1, _, h3, _⟩ := handleSendMessage_registry marshal e w c d
  refine ⟨?_, ?_⟩
  · intro i j a b hi hj; rw [h1] at hi hj; exact hinv.inj i j a b hi hj
  · intro id a h; rw [h1] at h; rw [h3]; exact hinv.below id a h

theorem cap_update_same (chans : Nat → Chan) (h : Nat) (ch : Chan) (hcap : ch.cap = (chans h).cap)
    (k : Nat) : (Function.update chans h ch k).cap = (chans k).cap := by
  by_cases hk : k = h
  · subst hk; simpa using hcap
  · simp [Function.update, hk]

theorem broadcastToUser_cap (marshal : Frame → Option Bytes) (w : World)
    (b : BroadcastMessage) (k : Nat) :
    ((broadcastToUser marshal w b).chans k).cap = (w.chans k).cap := by
  have hconn : ∀ (data : Bytes) (w0 : World) (x : String),
      ((broadcastToConn data w0 x).chans k).cap = (w0.chans k).cap := by
    intro data w0 x
    rw [broadcastToConn_chans]
    cases w0.connections x with
    | none => rfl
    | some c =>
      apply cap_update_same
      unfold Chan.deliver
      cases h : (w0.chans c.Send).trySend data with
      | sent ch1 => exact (Chan.trySend_bound _ _ _ h).2
      | full => rfl
      | closed => rfl
  have hfold : ∀ (data : Bytes) (l : List String) (w0 : World),
      ((l.foldl (broadcastToConn data) w0).chans k).cap = (w0.chans k).cap := by
    intro data l
    induction l with
    | nil => intro w0; rfl
    | cons x xs ih => intro w0; rw [List.foldl_cons, ih, hconn]
  unfold broadcastToUser
  repeat' split
  all_goals first
    | rfl
    | exact hfold _ _ _

/-- The allocation discipline and the capacity of session channels along a run. -/
theorem SessionCap_run (marshal : Frame → Option Bytes) (cfg : Config) (events : List Event)
    (w : World) (hinv : AllocInv w) (hcap : SessionCap w) :
    AllocInv (World.run marshal cfg w events) ∧ SessionCap (World.run marshal cfg w events) := by
  induction events generalizing w with
  | nil => exact ⟨hinv, hcap⟩
  | cons ev evs ih =>
    unfold World.run
    rw [List.foldl_cons]
    cases ev with
    | connect e userID uuid =>
      refine ih _ (AllocInv_HandleWebSocket cfg e w userID uuid hinv) ?_
      intro id c h
      have hconn : (HandleWebSocket cfg e w userID uuid).1.connections
          = w.connections.Store uuid ⟨uuid, userID, w.nextChan⟩ := by
        unfold HandleWebSocket; rw [registerClient_connections]; rfl
      have hch : (HandleWebSocket cfg e w userID uuid).1.chans
          = Function.update w.chans w.nextChan (Chan.make 256) := by
        unfold HandleWebSocket; rw [registerClient_chans]; rfl
      show ((HandleWebSocket cfg e w userID uuid).1.chans c.Send).cap = 256
      change (HandleWebSocket cfg e w userID uuid).1.connections id = some c at h
      rw [hconn] at h
      rw [hch]
      simp only [SyncMap.Store] at h
      by_cases hiu : id = uuid
      · simp only [hiu, if_true, Option.some.injEq] at h
        rw [← h]; simp [Chan.make]
      · simp only [hiu, if_false] at h
        have hlt := hinv.below id c h
        have hne : c.Send ≠ w.nextChan := Nat.ne_of_lt hlt
        simp only [Function.update, hne, dif_neg, not_false_eq_true]
        exact hcap id c h
    | unregister e client =>
      refine ih _ (AllocInv_unregisterClient e w client hinv) ?_
      intro id c h
      show ((unregisterClient e w client).chans c.Send).cap = 256
      change (unregisterClient e w client).connections id = some c at h
      rw [unregisterClient_connections] at h
      rw [unregisterClient_chans,
        cap_update_same _ _ _ (Chan.close_bound_cap (w.chans client.Send))]
      by_cases hid : id = client.ID
      · simp [SyncMap.Delete, hid] at h
      · simp only [SyncMap.Delete, hid, if_false] at h
        exact hcap id c h
    | broadcast b =>
      refine ih _ (AllocInv_broadcastToUser marshal w b hinv) ?_
      intro id c h
      show ((broadcastToUser marshal w b).chans c.Send).cap = 256
      change (broadcastToUser marshal w b).connections id = some c at h
      rw [(broadcastToUser_registry marshal w b).1] at h
      rw [broadcastToUser_cap]
      exact hcap id c h
    | sendMessage e client d =>
      refine ih _ (AllocInv_handleSendMessage marshal e w client d hinv) ?_
      intro id c h
      show ((handleSendMessage marshal e w client d).chans c.Send).cap = 256
      change (handleSendMessage marshal e w client d).connections id = some c at h
      obtain ⟨h1, _, _, h4⟩ := handleSendMessage_registry marshal e w client d
      rw [h1] at h
      rcases h4 with h4 | ⟨x, h4⟩
      · rw [h4]; exact hcap id c h
      · rw [h4, cap_update_same _ _ _ (Chan.send_bound_cap (w.chans client.Send) x)]
        exact hcap id c h

theorem Chan.trySend_full_iff (ch : Chan) (x : Bytes) :
    ch.trySend x = .full ↔ ch.closed = false ∧ ¬ ch.buf.length < ch.cap := by
  unfold Chan.trySend
  cases ch.closed <;> by_cases hl : ch.buf.length < ch.cap <;> simp [hl]

theorem sampleWorld_bounded : ChanBounded sampleWorld :=
  ChanBounded_HandleWebSocket _ _ _ _ _ (ChanBounded_HandleWebSocket _ _ _ _ _
    (ChanBounded_HandleWebSocket _ _ _ _ _ (ChanBounded_init sampleConfig sampleDB)))

theorem fullWorld_bounded : ChanBounded fullWorld :=
  ChanBounded_update sampleWorld _ 0 ⟨List.replicate 256 "x", 256, false, []⟩
    sampleWorld_bounded ⟨le_of_eq (List.length_replicate _ _), le_refl _⟩ rfl

/-- C6. Slow-consumer eviction. On a consistent registry (the two maps agree, every
client is stored under its own id, no sequence repeats an id, distinct sessions own
distinct channels, as holds in every reachable state) whose channels respect their
capacity (at most 256), `broadcastToUser(u, payload)` with the payload serialising to
`data`: a registered session of `u` whose open outbound buffer is full keeps its buffer as
it was (the payload is dropped, there is no retry) and `go unregisterClient` is started for
it, which when it runs removes the session from `connections` and from the sequence of the
user; every registered session of `u` whose buffer has room receives `data` at the tail;
an `unregisterClient` is started only for sessions of `u` whose buffer is full; and the
channels still respect their capacity. In every state the process reaches from its
start through connection upgrades, unregisters, broadcasts and `send_message` frames,
the channel of every registered session has capacity exactly 256 and holds at most 256
payloads; and for every sequence of non-blocking sends, blocking sends, receives and
closes on a channel made with capacity 256 the buffer never holds more than 256
payloads. -/
theorem slow_consumer_evicted (marshal : Frame → Option Bytes) (w : World) (u : String)
    (payload : Frame) (data : Bytes)
    (hcons : ∀ v id, (∃ l, w.userConnections v = some l ∧ id ∈ l) ↔
      ∃ c, w.connections id = some c ∧ c.UserID = v)
    (hid : ∀ id c, w.connections id = some c → c.ID = id)
    (hnodup : ∀ v l, w.userConnections v = some l → l.Nodup)
    (hinj : SendInjective w)
    (hm : marshal payload = some data)
    (hbound : ChanBounded w) :
    (∀ id c, w.connections id = some c → c.UserID = u →
        (w.chans c.Send).closed = false →
        (w.chans c.Send).buf.length = (w.chans c.Send).cap →
        (broadcastToUser marshal w ⟨u, payload⟩).chans c.Send = w.chans c.Send
        ∧ Goroutine.unregisterClient c ∈ (broadcastToUser marshal w ⟨u, payload⟩).spawned
        ∧ ∀ e : UnregisterEnv,
            (unregisterClient e (broadcastToUser marshal w ⟨u, payload⟩) c).connections id
              = none
            ∧ ∀ l, (unregisterClient e (broadcastToUser marshal w ⟨u, payload⟩)
                c).userConnections u = some l → id ∉ l)
    ∧ (∀ id c, w.connections id = some c → c.UserID = u →
        (w.chans c.Send).closed = false →
        (w.chans c.Send).buf.length < (w.chans c.Send).cap →
        (broadcastToUser marshal w ⟨u, payload⟩).chans c.Send
          = { w.chans c.Send with buf := (w.chans c.Send).buf ++ [data] })
    ∧ (∀ g ∈ (broadcastToUser marshal w ⟨u, payload⟩).spawned, g ∈ w.spawned ∨
        ∃ id c, g = .unregisterClient c ∧ w.connections id = some c ∧ c.UserID = u
          ∧ (w.chans c.Send).closed = false
          ∧ (w.chans c.Send).buf.length = (w.chans c.Send).cap)
    ∧ ChanBounded (broadcastToUser marshal w ⟨u, payload⟩)
    ∧ (∀ (cfg : Config) (db : Database) (events : List Event),
        ChanBounded (World.run marshal cfg (World.init cfg db) events)
        ∧ ∀ id c, (World.run marshal cfg (World.init cfg db) events).connections id = some c →
            ((World.run marshal cfg (World.init cfg db) events).chans c.Send).cap = 256
            ∧ ((World.run marshal cfg (World.init cfg db) events).chans c.Send).buf.length
                ≤ 256)
    ∧ (∀ ops : List ChanOp, (ops.foldl Chan.step (Chan.make 256)).buf.length ≤ 256) := by
  refine ⟨?_, ?_, ?_, ChanBounded_broadcastToUser marshal w _ hbound, ?_, ?_⟩
  · intro id c hc hu hopen hfull
    obtain ⟨l, hl, hmem⟩ := (hcons u id).2 ⟨c, hc, hu⟩
    have hcid := hid id c hc
    have hts : (w.chans c.Send).trySend data = .full :=
      (Chan.trySend_full_iff _ _).2 ⟨hopen, by omega⟩
    obtain ⟨_, f2, f3⟩ := foldl_broadcastToConn_chans data l w (hnodup u l hl) hinj
    have hw : broadcastToUser marshal w ⟨u, payload⟩ = l.foldl (broadcastToConn data) w := by
      simp only [broadcastToUser, SyncMap.Load, hl, hm]
    rw [hw]
    refine ⟨?_, ?_, ?_⟩
    · rw [f2 id hmem c hc]
      simp [Chan.deliver, hts]
    · rw [f3]
      apply List.mem_append_right
      rw [List.mem_filterMap]
      exact ⟨id, hmem, by simp [evictee, hc, hts]⟩
    · intro e
      rw [← hcid]
      refine ⟨?_, ?_⟩
      · rw [unregisterClient_connections]; simp [SyncMap.Delete]
      · intro l2 hl2
        rw [unregisterClient_userConnections] at hl2
        rw [← hu] at hl2
        cases hx : (l.foldl (broadcastToConn data) w).userConnections c.UserID with
        | none => rw [hx] at hl2; simp only at hl2; rw [hx] at hl2; cases hl2
        | some l0 =>
          rw [hx] at hl2
          by_cases hf : l0.filter (fun id => id ≠ c.ID) = []
          · simp only [hf, if_true, SyncMap.Delete] at hl2
            cases hl2
          · simp only [hf, if_false, SyncMap.Store, if_true, Option.some.injEq] at hl2
            rw [← hl2]
            simp [List.mem_filter]
  · intro id c hc hu hopen hroom
    obtain ⟨l, hl, hmem⟩ := (hcons u id).2 ⟨c, hc, hu⟩
    simp only [broadcastToUser, SyncMap.Load, hl, hm]
    rw [(foldl_broadcastToConn_chans data l w (hnodup u l hl) hinj).2.1 id hmem c hc]
    simp [Chan.deliver, Chan.trySend, hopen, hroom]
  · intro g hg
    cases hl : w.userConnections u with
    | none =>
      left
      simpa [broadcastToUser, SyncMap.Load, hl] using hg
    | some l =>
      simp only [broadcastToUser, SyncMap.Load, hl, hm] at hg
      rw [(foldl_broadcastToConn_chans data l w (hnodup u l hl) hinj).2.2,
        List.mem_append] at hg
      rcases hg with hg | hg
      · exact Or.inl hg
      · right
        rw [List.mem_filterMap] at hg
        obtain ⟨id, hid, hev⟩ := hg
        obtain ⟨c, hc, hu⟩ := (hcons u id).1 ⟨l, hl, hid⟩
        unfold evictee at hev
        rw [hc] at hev
        by_cases hts : (w.chans c.Send).trySend data = .full
        · simp only [hts, if_true, Option.some.injEq] at hev
          obtain ⟨hopen, hnl⟩ := (Chan.trySend_full_iff _ _).1 hts
          have := (hbound c.Send).1
          exact ⟨id, c, hev.symm, hc, hu, hopen, by omega⟩
        · simp [hts] at hev
  · intro cfg db events
    have hb := ChanBounded_run marshal cfg events _ (ChanBounded_init cfg db)
    have hc := (SessionCap_run marshal cfg events _ (AllocInv_init cfg db)
      (fun id c h => by simp [World.init, SyncMap.empty] at h)).2
    refine ⟨hb, fun id c h => ⟨hc id c h, ?_⟩⟩
    have := (hb c.Send).1
    rw [hc id c h] at this
    exact this
  · intro ops
    have := Chan.foldl_step_bound ops (Chan.make 256) (by simp [Chan.make])
    rw [this.2] at this
    exact this.1

set_option maxRecDepth 8192 in
theorem slow_consumer_evicted_witness :
    (∀ v id, (∃ l, fullWorld.userConnections v = some l ∧ id ∈ l) ↔
      ∃ c, fullWorld.connections id = some c ∧ c.UserID = v)
    ∧ (∀ id c, fullWorld.connections id = some c → c.ID = id)
    ∧ (∀ v l, fullWorld.userConnections v = some l → l.Nodup)
    ∧ SendInjective fullWorld
    ∧ sampleMarshal (.new_message sampleMessage) = some "new_message:hi"
    ∧ ChanBounded fullWorld
    ∧ ((fullWorld.chans 0).buf.length = 256
      ∧ (broadcastToUser sampleMarshal fullWorld ⟨aliceID, .new_message sampleMessage⟩).chans 0
          = fullWorld.chans 0
      ∧ Goroutine.unregisterClient sessionA1 ∈
          (broadcastToUser sampleMarshal fullWorld
            ⟨aliceID, .new_message sampleMessage⟩).spawned)
    ∧ (broadcastToUser sampleMarshal fullWorld ⟨aliceID, .new_message sampleMessage⟩).chans 1
        = ⟨["new_message:hi"], 256, false, []⟩ :=
  ⟨sampleWorld_consistent.1, sampleWorld_consistent.2.1, sampleWorld_consistent.2.2,
   sampleWorld_AllocInv.inj, rfl, fullWorld_bounded,
   ⟨List.length_replicate _ _,
    ((slow_consumer_evicted sampleMarshal fullWorld aliceID (.new_message sampleMessage)
      "new_message:hi" sampleWorld_consistent.1 sampleWorld_consistent.2.1
      sampleWorld_consistent.2.2 sampleWorld_AllocInv.inj rfl fullWorld_bounded).1 "conn-a1" sessionA1 (by decide) rfl
      rfl (List.length_replicate _ _)).1,
    ((slow_consumer_evicted sampleMarshal fullWorld aliceID (.new_message sampleMessage)
      "new_message:hi" sampleWorld_consistent.1 sampleWorld_consistent.2.1
      sampleWorld_consistent.2.2 sampleWorld_AllocInv.inj rfl fullWorld_bounded).1 "conn-a1" sessionA1 (by decide) rfl
      rfl (List.length_replicate _ _)).2.1⟩,
   (slow_consumer_evicted sampleMarshal fullWorld aliceID (.new_message sampleMessage)
      "new_message:hi" sampleWorld_consistent.1 sampleWorld_consistent.2.1
      sampleWorld_consistent.2.2 sampleWorld_AllocInv.inj rfl fullWorld_bounded).2.1 "conn-a2" sessionA2 (by decide) rfl
      (by decide) (by decide)⟩

/-! ## The hypotheses of the delivery theorems hold in every reachable state -/

theorem Chan.trySend_closed (ch ch1 : Chan) (x : Bytes) (h : ch.trySend x = .sent ch1) :
    ch1.closed = ch.closed := by
  unfold Chan.trySend at h
  split at h
  · cases h
  · split at h
    · cases h; rfl
    · cases h

theorem Chan.send_closed (ch : Chan) (x : Bytes) : (ch.send x).1.closed = ch.closed := by
  unfold Chan.send
  cases h : ch.trySend x with
  | sent ch1 => exact Chan.trySend_closed ch ch1 x h
  | full => rfl
  | closed => rfl

theorem Chan.deliver_closed (ch : Chan) (x : Bytes) : (ch.deliver x).closed = ch.closed := by
  unfold Chan.deliver
  cases h : ch.trySend x with
  | sent ch1 => exact Chan.trySend_closed ch ch1 x h
  | full => rfl
  | closed => rfl

theorem closed_update_same (chans : Nat → Chan) (h : Nat) (ch : Chan)
    (hcl : ch.closed = (chans h).closed) (k : Nat) :
    (Function.update chans h ch k).closed = (chans k).closed := by
  by_cases hk : k = h
  · subst hk; simpa using hcl
  · simp [Function.update, hk]

theorem broadcastToUser_closed (marshal : Frame → Option Bytes) (w : World)
    (b : BroadcastMessage) (k : Nat) :
    ((broadcastToUser marshal w b).chans k).closed = (w.chans k).closed := by
  have hconn : ∀ (data : Bytes) (w0 : World) (x : String),
      ((broadcastToConn data w0 x).chans k).closed = (w0.chans k).closed := by
    intro data w0 x
    rw [broadcastToConn_chans]
    cases w0.connections x with
    | none => rfl
    | some c => exact closed_update_same _ _ _ (Chan.deliver_closed _ _) k
  have hfold : ∀ (data : Bytes) (l : List String) (w0 : World),
      ((l.foldl (broadcastToConn data) w0).chans k).closed = (w0.chans k).closed := by
    intro data l
    induction l with
    | nil => intro w0; rfl
    | cons x xs ih => intro w0; rw [List.foldl_cons, ih, hconn]
  unfold broadcastToUser
  repeat' split
  all_goals first
    | rfl
    | exact hfold _ _ _

theorem RegistryInv_handleSendMessage (marshal : Frame → Option Bytes) (e : SendEnv)
    (reg : List Client) (w : World) (c : Client) (d : Decoded) (hinv : RegistryInv reg w) :
    RegistryInv reg (handleSendMessage marshal e w c d) := by
  obtain ⟨h1, h2, _, _⟩ := handleSendMessage_registry marshal e w c d
  refine ⟨hinv.regNodup, ?_, ?_, ?_⟩
  · rw [h1]; exact hinv.conn
  · rw [h1, h2]; exact hinv.mem
  · rw [h2]; exact hinv.nodup

/-- In every reachable state the registry is consistent, sessions are allocated in order
with distinct channels, every channel respects its capacity, and every registered session
owns an open channel of capacity 256. -/
theorem Reachable.invariants (marshal : Frame → Option Bytes) (cfg : Config) (db : Database)
    (reg : List Client) (w : World) (h : Reachable marshal cfg db reg w) :
    RegistryInv reg w ∧ AllocInv w ∧ RegAlloc reg w ∧ ChanBounded w ∧ SessionCap w
      ∧ SessionsOpen w := by
  induction h with
  | init =>
    refine ⟨RegistryInv_init cfg db, AllocInv_init cfg db, ⟨?_, ?_⟩, ChanBounded_init cfg db,
      ?_, ?_⟩
    · intro c hc; cases hc
    · intro c hc; cases hc
    · intro id c hc; simp [World.init, SyncMap.empty] at hc
    · intro id c hc; simp [World.init, SyncMap.empty] at hc
  | connect reg w e userID uuid _ hfresh ih =>
    obtain ⟨hr, ha, ⟨hb1, hb2⟩, hcb, hcap, hopen⟩ := ih
    have hconn : (HandleWebSocket cfg e w userID uuid).1.connections
        = w.connections.Store uuid ⟨uuid, userID, w.nextChan⟩ := by
      unfold HandleWebSocket; rw [registerClient_connections]; rfl
    have hch : (HandleWebSocket cfg e w userID uuid).1.chans
        = Function.update w.chans w.nextChan (Chan.make 256) := by
      unfold HandleWebSocket; rw [registerClient_chans]; rfl
    have hnext : (HandleWebSocket cfg e w userID uuid).1.nextChan = w.nextChan + 1 := by
      unfold HandleWebSocket; rw [registerClient_nextChan]; rfl
    have hcl : (HandleWebSocket cfg e w userID uuid).2 = ⟨uuid, userID, w.nextChan⟩ := rfl
    have hnew := SessionCap_run marshal cfg [.connect e userID uuid] w ha hcap
    refine ⟨RegistryInv_HandleWebSocket cfg e reg w userID uuid hr hfresh,
      AllocInv_HandleWebSocket cfg e w userID uuid ha, ⟨?_, ?_⟩,
      ChanBounded_HandleWebSocket cfg e w userID uuid hcb, hnew.2, ?_⟩
    · intro c hc
      rw [hnext]
      rcases List.mem_cons.1 hc with rfl | hc
      · rw [hcl]; exact Nat.lt_succ_self _
      · exact Nat.lt_succ_of_lt (hb1 c hc)
    · intro c hc d hd hs
      rcases List.mem_cons.1 hc with rfl | hc <;> rcases List.mem_cons.1 hd with rfl | hd
      · rfl
      · rw [hcl] at hs
        have := hb1 d hd
        rw [← hs] at this
        exact absurd this (lt_irrefl _)
      · rw [hcl] at hs
        have := hb1 c hc
        rw [hs] at this
        exact absurd this (lt_irrefl _)
      · exact hb2 c hc d hd hs
    · intro id c hc
      rw [hconn] at hc
      rw [hch]
      simp only [SyncMap.Store] at hc
      by_cases hiu : id = uuid
      · simp only [hiu, if_true, Option.some.injEq] at hc
        rw [← hc]; simp [Chan.make]
      · simp only [hiu, if_false] at hc
        have hne : c.Send ≠ w.nextChan := Nat.ne_of_lt (ha.below id c hc)
        simp only [Function.update, hne, dif_neg, not_false_eq_true]
        exact hopen id c hc
  | unregister reg w e c _ hmem ih =>
    obtain ⟨hr, ha, ⟨hb1, hb2⟩, hcb, hcap, hopen⟩ := ih
    have hnew := SessionCap_run marshal cfg [.unregister e c] w ha hcap
    refine ⟨RegistryInv_unregisterClient e reg w c hr hmem, AllocInv_unregisterClient e w c ha,
      ⟨?_, hb2⟩, ChanBounded_unregisterClient e w c hcb, hnew.2, ?_⟩
    · intro d hd; rw [unregisterClient_nextChan]; exact hb1 d hd
    · intro id d hd
      rw [unregisterClient_connections] at hd
      rw [unregisterClient_chans]
      by_cases hid : id = c.ID
      · simp [SyncMap.Delete, hid] at hd
      · simp only [SyncMap.Delete, hid, if_false] at hd
        obtain ⟨hdreg, hdid⟩ := hr.conn id d hd
        have hne : d.Send ≠ c.Send := by
          intro hs
          have := hb2 d hdreg c hmem hs
          rw [this] at hdid
          exact hid hdid.symm
        simp only [Function.update, hne, dif_neg, not_false_eq_true]
        exact hopen id d hd
  | broadcast reg w b _ ih =>
    obtain ⟨hr, ha, ⟨hb1, hb2⟩, hcb, hcap, hopen⟩ := ih
    have hnew := SessionCap_run marshal cfg [.broadcast b] w ha hcap
    refine ⟨RegistryInv_broadcastToUser marshal reg w b hr, AllocInv_broadcastToUser marshal w b ha,
      ⟨?_, hb2⟩, ChanBounded_broadcastToUser marshal w b hcb, hnew.2, ?_⟩
    · intro d hd; rw [(broadcastToUser_registry marshal w b).2.2.2.2.2]; exact hb1 d hd
    · intro id d hd
      rw [(broadcastToUser_registry marshal w b).1] at hd
      rw [broadcastToUser_closed]
      exact hopen id d hd
  | sendMessage reg w e c d _ _ ih =>
    obtain ⟨hr, ha, ⟨hb1, hb2⟩, hcb, hcap, hopen⟩ := ih
    have hnew := SessionCap_run marshal cfg [.sendMessage e c d] w ha hcap
    obtain ⟨h1, _, h3, h4⟩ := handleSendMessage_registry marshal e w c d
    refine ⟨RegistryInv_handleSendMessage marshal e reg w c d hr,
      AllocInv_handleSendMessage marshal e w c d ha, ⟨?_, hb2⟩,
      ChanBounded_handleSendMessage marshal e w c d hcb, hnew.2, ?_⟩
    · intro x hx; rw [h3]; exact hb1 x hx
    · intro id x hx
      rw [h1] at hx
      rcases h4 with h4 | ⟨y, h4⟩
      · rw [h4]; exact hopen id x hx
      · rw [h4, closed_update_same _ _ _ (Chan.send_closed _ _)]
        exact hopen id x hx

/-- The hypotheses under which the broadcast theorems are stated hold in every reachable
state: the two registry maps agree, every client is stored under its own id, no sequence
repeats an id, distinct sessions own distinct channels, channels respect their capacity,
and every registered session owns an open channel of capacity 256. -/
theorem Reachable.delivery_hypotheses (marshal : Frame → Option Bytes) (cfg : Config)
    (db : Database) (reg : List Client) (w : World) (h : Reachable marshal cfg db reg w) :
    (∀ v id, (∃ l, w.userConnections v = some l ∧ id ∈ l) ↔
      ∃ c, w.connections id = some c ∧ c.UserID = v)
    ∧ (∀ id c, w.connections id = some c → c.ID = id)
    ∧ (∀ v l, w.userConnections v = some l → l.Nodup)
    ∧ SendInjective w
    ∧ ChanBounded w
    ∧ (∀ id c, w.connections id = some c →
        (w.chans c.Send).cap = 256 ∧ (w.chans c.Send).closed = false) := by
  obtain ⟨hr, ha, _, hcb, hcap, hopen⟩ := Reachable.invariants marshal cfg db reg w h
  exact ⟨hr.mem, fun id c hc => (hr.conn id c hc).2, hr.nodup, ha.inj, hcb,
    fun id c hc => ⟨hcap id c hc, hopen id c hc⟩⟩

theorem sampleWorld_reachable :
    ∃ reg, Reachable sampleMarshal sampleConfig sampleDB reg sampleWorld :=
  ⟨_, Reachable.connect _ _ (regEnv 12 102) bobID "conn-b1"
    (Reachable.connect _ _ (regEnv 11 101) aliceID "conn-a2"
      (Reachable.connect _ _ (regEnv 10 100) aliceID "conn-a1" Reachable.init (by simp))
      (by simp [HandleWebSocket, newClient]))
    (by simp [HandleWebSocket, newClient])⟩

/-! ## The message service: `CreateMessage` and `UpdateStatus` -/

/-- What `UpdateOne` does: nothing when no document matches, else it rewrites the first
matching document and nothing else. -/
theorem updateOne_spec {α : Type} (p : α → Bool) (f : α → α) (l : List α) :
    ((∀ x ∈ l, p x = false) ∧ updateOne p f l = l)
    ∨ ∃ pre x post, l = pre ++ x :: post ∧ (∀ y ∈ pre, p y = false) ∧ p x = true
        ∧ updateOne p f l = pre ++ f x :: post := by
  induction l with
  | nil => left; simp [updateOne]
  | cons a t ih =>
    by_cases ha : p a = true
    · right
      exact ⟨[], a, t, rfl, by simp, ha, by simp [updateOne, ha]⟩
    · have ha2 : p a = false := by simpa using ha
      rcases ih with ⟨hall, heq⟩ | ⟨pre, x, post, hl, hpre, hx, heq⟩
      · left
        refine ⟨?_, by simp [updateOne, ha2, heq]⟩
        intro y hy
        rcases List.mem_cons.1 hy with rfl | hy
        · exact ha2
        · exact hall y hy
      · right
        refine ⟨a :: pre, x, post, by simp [hl], ?_, hx, by simp [updateOne, ha2, heq]⟩
        intro y hy
        rcases List.mem_cons.1 hy with rfl | hy
        · exact ha2
        · exact hpre y hy

/-- C13. `CreateMessage(msg)` always overwrites the timestamp of the message with the
clock and its coarse status with "sent", whatever the caller supplied. It returns an
error exactly when the insert fails, and then the store is unchanged. When the insert
succeeds the message, carrying the id the store reports (the generated id when the
caller left the id zero), is appended to `messages`, the struct of the caller carries
that id, and no error is returned whether or not the update of the conversation
(`last_message`, `updated_at`) succeeds; that update touches only `conversations`. -/
theorem CreateMessage_spec (db : Database) (now : Time) (newID : ObjectID)
    (insertOk updateOk : Bool) (msg : Message) :
    (CreateMessage db now newID insertOk updateOk msg).2.1.Timestamp = now
    ∧ (CreateMessage db now newID insertOk updateOk msg).2.1.Status = "sent"
    ∧ ((CreateMessage db now newID insertOk updateOk msg).2.2 ≠ none ↔ insertOk = false)
    ∧ (insertOk = false →
        (CreateMessage db now newID insertOk updateOk msg).1 = db
        ∧ (CreateMessage db now newID insertOk updateOk msg).2.1
            = { msg with Timestamp := now, Status := "sent" })
    ∧ (insertOk = true →
        (CreateMessage db now newID insertOk updateOk msg).2.1
            = { msg with Timestamp := now, Status := "sent", ID := insertedID msg.ID newID }
        ∧ (msg.ID = NilObjectID →
            (CreateMessage db now newID insertOk updateOk msg).2.1.ID = newID)
        ∧ (CreateMessage db now newID insertOk updateOk msg).1.messages
            = db.messages ++ [(CreateMessage db now newID insertOk updateOk msg).2.1]
        ∧ (CreateMessage db now newID insertOk updateOk msg).1.conversations
            = (if updateOk then
                updateOne (fun c : Conversation => c.ID = msg.ConversationID)
                  (fun c => { c with
                    LastMessage := some ⟨msg.Content, msg.SenderID, now, msg.Type_⟩,
                    UpdatedAt := now }) db.conversations
               else db.conversations)
        ∧ (CreateMessage db now newID insertOk updateOk msg).1.users = db.users
        ∧ (CreateMessage db now newID insertOk updateOk msg).1.message_queue = db.message_queue
        ∧ (CreateMessage db now newID insertOk updateOk msg).1.contacts = db.contacts
        ∧ (CreateMessage db now newID insertOk updateOk msg).1.active_connections
            = db.active_connections) := by
  cases insertOk <;> cases updateOk <;>
    simp [CreateMessage, updateConversationLastMessage, insertedID] <;>
    exact fun h1 h2 => absurd h1 h2

/-- The delivery-status list after the `$set` of `UpdateStatus` on the positional element:
the first element of `uid` gets the new status and timestamp, nothing else changes. -/
theorem setDeliveryStatus_spec (uid : ObjectID) (status : String) (now : Time) (m : Message)
    (h : m.DeliveryStatus.any (fun d => d.UserID = uid) = true) :
    ∃ dpre d dpost, m.DeliveryStatus = dpre ++ d :: dpost ∧ (∀ x ∈ dpre, x.UserID ≠ uid)
      ∧ d.UserID = uid
      ∧ setDeliveryStatus uid status now m
          = { m with DeliveryStatus :=
                dpre ++ { d with Status := status, Timestamp := now } :: dpost } := by
  rcases updateOne_spec (fun d : DeliveryStatus => decide (d.UserID = uid))
      (fun d => { d with Status := status, Timestamp := now }) m.DeliveryStatus with
    ⟨hall, _⟩ | ⟨dpre, d, dpost, hl, hpre, hd, heq⟩
  · exfalso
    rw [List.any_eq_true] at h
    obtain ⟨x, hx, hxu⟩ := h
    have := hall x hx
    simp_all
  · refine ⟨dpre, d, dpost, hl, ?_, by simpa using hd, ?_⟩
    · intro x hx; simpa using hpre x hx
    · simp only [setDeliveryStatus, heq]

/-- C12. `UpdateStatus(message_id, user_id, status)`: a malformed message id or user id
returns an error and leaves the store unchanged. With well-formed ids and a store that
accepts the update no error is returned, every collection other than `messages` is
unchanged, and either no message has the id together with a `delivery_status` element of
the user, and the store is unchanged, or in the first such message `m` the first element
`d` of the user has its status and timestamp set, every other element of
`delivery_status`, every other field of `m` (the coarse status included) and every other
message being unchanged. -/
theorem UpdateStatus_spec (db : Database) (now : Time) (messageID userID status : String) :
    (ObjectIDFromHex messageID = none →
      ∀ ok, UpdateStatus db now ok messageID userID status = (db, some "invalid message ID"))
    ∧ (ObjectIDFromHex messageID ≠ none → ObjectIDFromHex userID = none →
      ∀ ok, UpdateStatus db now ok messageID userID status = (db, some "invalid user ID"))
    ∧ (∀ msgID uid, ObjectIDFromHex messageID = some msgID → ObjectIDFromHex userID = some uid →
        (UpdateStatus db now true messageID userID status).2 = none
        ∧ (UpdateStatus db now true messageID userID status).1.users = db.users
        ∧ (UpdateStatus db now true messageID userID status).1.conversations = db.conversations
        ∧ (UpdateStatus db now true messageID userID status).1.message_queue = db.message_queue
        ∧ (UpdateStatus db now true messageID userID status).1.contacts = db.contacts
        ∧ (UpdateStatus db now true messageID userID status).1.active_connections
            = db.active_connections
        ∧ (((∀ m ∈ db.messages, ¬ (m.ID = msgID ∧ ∃ d ∈ m.DeliveryStatus, d.UserID = uid))
            ∧ (UpdateStatus db now true messageID userID status).1 = db)
          ∨ ∃ pre m post dpre d dpost,
              db.messages = pre ++ m :: post
              ∧ (∀ x ∈ pre, ¬ (x.ID = msgID ∧ ∃ d ∈ x.DeliveryStatus, d.UserID = uid))
              ∧ m.ID = msgID
              ∧ m.DeliveryStatus = dpre ++ d :: dpost
              ∧ (∀ x ∈ dpre, x.UserID ≠ uid)
              ∧ d.UserID = uid
              ∧ (UpdateStatus db now true messageID userID status).1.messages
                  = pre ++ { m with DeliveryStatus :=
                      dpre ++ { d with Status := status, Timestamp := now } :: dpost } :: post)) := by
  refine ⟨?_, ?_, ?_⟩
  · intro h ok; simp [UpdateStatus, h]
  · intro h1 h2 ok
    cases hm : ObjectIDFromHex messageID with
    | none => exact absurd hm h1
    | some msgID => simp [UpdateStatus, hm, h2]
  · intro msgID uid hm hu
    have hmatch : ∀ x : Message,
        (decide (x.ID = msgID) && x.DeliveryStatus.any (fun d => decide (d.UserID = uid))) = false
          ↔ ¬ (x.ID = msgID ∧ ∃ d ∈ x.DeliveryStatus, d.UserID = uid) := by
      intro x
      simp only [Bool.and_eq_false_iff, decide_eq_false_iff_not, List.any_eq_false,
        decide_eq_true_eq, not_and, not_exists]
      constructor
      · rintro (h | h) h1
        · exact absurd h1 h
        · exact fun d hd => h d hd
      · intro h
        by_cases h1 : x.ID = msgID
        · exact Or.inr (fun d hd => h h1 d hd)
        · exact Or.inl h1
    simp only [UpdateStatus, hm, hu, Bool.not_true, Bool.false_eq_true, if_false, true_and]
    rcases updateOne_spec
        (fun m : Message => decide (m.ID = msgID) && m.DeliveryStatus.any (fun d => decide (d.UserID = uid)))
        (setDeliveryStatus uid status now) db.messages with
      ⟨hall, heq⟩ | ⟨pre, m, post, hl, hpre, hx, heq⟩
    · left
      exact ⟨fun m hmem => (hmatch m).1 (hall m hmem), by rw [heq]⟩
    · right
      simp only [Bool.and_eq_true, decide_eq_true_eq] at hx
      obtain ⟨dpre, d, dpost, hd1, hd2, hd3, hd4⟩ :=
        setDeliveryStatus_spec uid status now m hx.2
      exact ⟨pre, m, post, dpre, d, dpost, hl, fun x hxp => (hmatch x).1 (hpre x hxp), hx.1,
        hd1, hd2, hd3, by rw [heq, hd4]⟩

/-! ## The expiring cache -/

theorem Cache.Get_of_entry {α : Type} (c : Cache α) (now : Time) (key : String) (v : α)
    (exp : Time) (h : c.data key = some ⟨v, exp⟩) :
    (now ≤ exp → c.Get now key = (some v, c))
    ∧ (exp < now → (c.Get now key).1 = none ∧ (c.Get now key).2.data key = none) := by
  constructor
  · intro hle
    have : ¬ exp < now := Nat.not_lt.2 hle
    simp [Cache.Get, SyncMap.Load, h, this]
  · intro hlt
    simp [Cache.Get, SyncMap.Load, h, hlt, SyncMap.Delete]

theorem Cache.Get_of_absent {α : Type} (c : Cache α) (now : Time) (key : String)
    (h : c.data key = none) : c.Get now key = (none, c) := by
  simp [Cache.Get, SyncMap.Load, h]

theorem Cache.Get_other {α : Type} (c : Cache α) (now : Time) (key k2 : String)
    (h : k2 ≠ key) : (c.Get now key).2.data k2 = c.data k2 ∧ (c.Get now key).2.ttl = c.ttl := by
  unfold Cache.Get
  simp only [SyncMap.Load]
  cases hk : c.data key with
  | none => exact ⟨rfl, rfl⟩
  | some item =>
    by_cases hlt : item.Expiration < now
    · simp [hlt, SyncMap.Delete, h]
    · simp [hlt]

/-- An entry survives every call that keeps it. -/
theorem Cache.step_keeps {α : Type} (c : Cache α) (op : CacheOp α) (key : String) (v : α)
    (exp : Time) (h : c.data key = some ⟨v, exp⟩) (hop : op.keeps key exp) :
    (c.step op).data key = some ⟨v, exp⟩ := by
  cases op with
  | set now k value =>
    have hk : key ≠ k := fun e => hop e.symm
    simp [Cache.step, Cache.Set, SyncMap.Store, hk, h]
  | setWithTTL now k value ttl =>
    have hk : key ≠ k := fun e => hop e.symm
    simp [Cache.step, Cache.SetWithTTL, SyncMap.Store, hk, h]
  | get now k =>
    by_cases hk : key = k
    · subst hk
      have hle : now ≤ exp := by
        rcases hop with h1 | h1
        · exact absurd rfl h1
        · exact h1
      simp only [Cache.step]
      rw [((Cache.Get_of_entry c now key v exp h).1 hle)]
      exact h
    · simp only [Cache.step]
      rw [(Cache.Get_other c now k key hk).1]
      exact h
  | delete k =>
    have hk : key ≠ k := fun e => hop e.symm
    simp [Cache.step, Cache.Delete, SyncMap.Delete, hk, h]
  | clear => exact absurd hop id
  | cleanup now =>
    have : ¬ exp < now := Nat.not_lt.2 hop
    simp [Cache.step, Cache.cleanup, h, this]

theorem Cache.foldl_step_keeps {α : Type} (ops : List (CacheOp α)) (c : Cache α) (key : String)
    (v : α) (exp : Time) (h : c.data key = some ⟨v, exp⟩)
    (hops : ∀ op ∈ ops, op.keeps key exp) :
    (ops.foldl Cache.step c).data key = some ⟨v, exp⟩ := by
  induction ops generalizing c with
  | nil => exact h
  | cons op ops ih =>
    rw [List.foldl_cons]
    exact ih _ (Cache.step_keeps c op key v exp h (hops op (List.mem_cons_self _ _)))
      (fun o ho => hops o (List.mem_cons_of_mem _ ho))

/-- C19. The expiring cache. After `Set(k, v)` at time `t` (expiration `t + ttl` of the
cache) or `SetWithTTL(k, v, ttl)` at time `t`, `Get(k)` at any time up to and including
the expiration returns `v` as present and leaves the cache unchanged, also after any
calls in between that do not write, delete or clear `k` and were made no later than the
expiration (reads, sweeps, writes and deletes of other keys); `Get(k)` at any later time
returns absent and removes the entry of `k`. `Get` of a key with no entry returns absent
and changes nothing, as for a key of a new cache, a key just deleted and any key of a
cleared cache. `Get(k)` never changes the entry of another key, nor the default TTL. -/
theorem cache_get_spec {α : Type} (c : Cache α) (t now : Time) (k : String) (v : α)
    (ttl : Duration) :
    (now ≤ t + c.ttl → (c.Set t k v).Get now k = (some v, c.Set t k v))
    ∧ (now ≤ t + ttl → (c.SetWithTTL t k v ttl).Get now k = (some v, c.SetWithTTL t k v ttl))
    ∧ (∀ ops : List (CacheOp α), (∀ op ∈ ops, op.keeps k (t + c.ttl)) → now ≤ t + c.ttl →
        ((ops.foldl Cache.step (c.Set t k v)).Get now k).1 = some v)
    ∧ (∀ ops : List (CacheOp α), (∀ op ∈ ops, op.keeps k (t + ttl)) → now ≤ t + ttl →
        ((ops.foldl Cache.step (c.SetWithTTL t k v ttl)).Get now k).1 = some v)
    ∧ (t + c.ttl < now →
        ((c.Set t k v).Get now k).1 = none ∧ ((c.Set t k v).Get now k).2.data k = none)
    ∧ (t + ttl < now →
        ((c.SetWithTTL t k v ttl).Get now k).1 = none
        ∧ ((c.SetWithTTL t k v ttl).Get now k).2.data k = none)
    ∧ (c.data k = none → c.Get now k = (none, c))
    ∧ ((Cache.New ttl : Cache α).Get now k).1 = none
    ∧ ((c.Delete k).Get now k).1 = none
    ∧ (c.Clear.Get now k).1 = none
    ∧ (∀ k2, k2 ≠ k → (c.Get now k).2.data k2 = c.data k2)
    ∧ (c.Get now k).2.ttl = c.ttl := by
  have hset : (c.Set t k v).data k = some ⟨v, t + c.ttl⟩ := by
    simp [Cache.Set, SyncMap.Store]
  have hsetw : (c.SetWithTTL t k v ttl).data k = some ⟨v, t + ttl⟩ := by
    simp [Cache.SetWithTTL, SyncMap.Store]
  refine ⟨(Cache.Get_of_entry _ now k v _ hset).1, (Cache.Get_of_entry _ now k v _ hsetw).1,
    ?_, ?_, (Cache.Get_of_entry _ now k v _ hset).2, (Cache.Get_of_entry _ now k v _ hsetw).2,
    Cache.Get_of_absent c now k, ?_, ?_, ?_, ?_, ?_⟩
  · intro ops hops hle
    have h := Cache.foldl_step_keeps ops (c.Set t k v) k v (t + c.ttl) hset hops
    rw [(Cache.Get_of_entry _ now k v _ h).1 hle]
  · intro ops hops hle
    have h := Cache.foldl_step_keeps ops (c.SetWithTTL t k v ttl) k v (t + ttl) hsetw hops
    rw [(Cache.Get_of_entry _ now k v _ h).1 hle]
  · rw [Cache.Get_of_absent _ now k (by simp [Cache.New, SyncMap.empty])]
  · rw [Cache.Get_of_absent _ now k (by simp [Cache.Delete, SyncMap.Delete])]
  · rw [Cache.Get_of_absent _ now k (by simp [Cache.Clear, SyncMap.empty])]
  · intro k2 hk2
    exact (Cache.Get_other c now k k2 hk2).1
  · unfold Cache.Get
    simp only [SyncMap.Load]
    cases hk : c.data k with
    | none => rfl
    | some item =>
      by_cases hlt : item.Expiration < now
      · simp [hlt]
      · simp [hlt]

/-! ## Presence reads after `SetOffline` -/

theorem find?_updateOne {α : Type} (p : α → Bool) (f : α → α) (hf : ∀ x, p (f x) = p x)
    (l : List α) : (updateOne p f l).find? p = (l.find? p).map f := by
  induction l with
  | nil => rfl
  | cons a t ih =>
    by_cases ha : p a = true
    · simp [updateOne, ha, List.find?_cons, hf]
    · simp [updateOne, ha, List.find?_cons, ih]

theorem SetOffline_ok (w : World) (t : Time) (U : String) (id : ObjectID)
    (hid : ObjectIDFromHex U = some id) :
    SetOffline w t true U =
      ({ w with
          db := { w.db with
            users := updateOne (fun u : User => u.ID = id) (offlineDoc t) w.db.users },
          cache := w.cache.SetWithTTL t ("presence:" ++ U) ⟨U, "offline", t, []⟩ (1 * Minute) },
       none) := by
  simp [SetOffline, hid]

theorem GetPresence_hit (w : World) (now : Time) (findOk : Bool) (U : String)
    (p : PresenceInfo) (c2 : Cache PresenceInfo)
    (h : w.cache.Get now ("presence:" ++ U) = (some p, c2)) :
    GetPresence w now findOk U = ({ w with cache := c2 }, .ok p) := by
  unfold GetPresence
  simp only [h]

theorem GetPresence_miss (w : World) (now : Time) (U : String) (id : ObjectID) (u : User)
    (c2 : Cache PresenceInfo)
    (h : w.cache.Get now ("presence:" ++ U) = (none, c2))
    (hid : ObjectIDFromHex U = some id)
    (hfind : w.db.users.find? (fun x => x.ID = id) = some u) :
    GetPresence w now true U =
      ({ w with
          cache := c2.SetWithTTL now ("presence:" ++ U)
                    (PresenceInfo.mk U u.Presence.Status u.Presence.LastSeen []) (1 * Minute) },
       .ok ⟨U, u.Presence.Status, u.Presence.LastSeen, []⟩) := by
  unfold GetPresence
  simp only [h, hid, hfind, Bool.not_true, Bool.false_eq_true, if_false]

/-- C20. Presence cache coherence. After a `SetOffline(U)` at time `t` that the store
accepted, for a well-formed user id `U`: the cache holds under `presence:U` the snapshot
with status offline, last-seen `t` and an empty connection list, expiring one minute
after `t`; every `GetPresence(U)` up to and including 60 seconds after the write returns
that snapshot from the cache and changes nothing, so the next read and every further read
in that window return offline; and a `GetPresence(U)` later than that misses the cache,
reads the user document, which `SetOffline` left offline, returns status offline and
caches that result for one minute. -/
theorem presence_offline_after_SetOffline (w : World) (t : Time) (U : String) (id : ObjectID)
    (hid : ObjectIDFromHex U = some id) :
    (SetOffline w t true U).2 = none
    ∧ (SetOffline w t true U).1.cache.data ("presence:" ++ U)
        = some ⟨⟨U, "offline", t, []⟩, t + 1 * Minute⟩
    ∧ (∀ now findOk, now ≤ t + 60 →
        GetPresence (SetOffline w t true U).1 now findOk U
          = ((SetOffline w t true U).1, .ok ⟨U, "offline", t, []⟩))
    ∧ (∀ now u, t + 60 < now → w.db.users.find? (fun x => x.ID = id) = some u →
        (GetPresence (SetOffline w t true U).1 now true U).2
          = .ok ⟨U, "offline", t, []⟩
        ∧ (GetPresence (SetOffline w t true U).1 now true U).1.cache.data ("presence:" ++ U)
          = some ⟨⟨U, "offline", t, []⟩, now + 1 * Minute⟩
        ∧ (GetPresence (SetOffline w t true U).1 now true U).1.db
          = (SetOffline w t true U).1.db) := by
  rw [SetOffline_ok w t U id hid]
  have hentry : (w.cache.SetWithTTL t ("presence:" ++ U) (⟨U, "offline", t, []⟩ : PresenceInfo)
      (1 * Minute)).data ("presence:" ++ U) = some ⟨⟨U, "offline", t, []⟩, t + 1 * Minute⟩ := by
    simp [Cache.SetWithTTL, SyncMap.Store]
  have hmin : t + 1 * Minute = t + 60 := by simp [Minute]
  refine ⟨rfl, hentry, ?_, ?_⟩
  · intro now findOk hle
    have hget := (Cache.Get_of_entry _ now _ _ _ hentry).1 (by rw [hmin]; exact hle)
    rw [GetPresence_hit _ now findOk U _ _ hget]
  · intro now u hlt hu
    obtain ⟨h1, h2⟩ := (Cache.Get_of_entry _ now _ _ _ hentry).2 (by rw [hmin]; exact hlt)
    have hfind : (updateOne (fun x : User => decide (x.ID = id)) (offlineDoc t) w.db.users).find?
        (fun x => decide (x.ID = id)) = some (offlineDoc t u) := by
      rw [find?_updateOne _ _ (fun x => by simp [offlineDoc]), hu]; rfl
    rw [GetPresence_miss _ now U id (offlineDoc t u) _ (Prod.ext h1 rfl) hid hfind]
    refine ⟨by simp [offlineDoc], ?_, rfl⟩
    simp [Cache.SetWithTTL, SyncMap.Store, offlineDoc]

theorem presence_offline_after_SetOffline_witness :
    ObjectIDFromHex aliceID = some (ObjectID.ofNat 1)
    ∧ GetPresence (SetOffline sampleWorld 30 true aliceID).1 90 true aliceID
        = ((SetOffline sampleWorld 30 true aliceID).1, .ok ⟨aliceID, "offline", 30, []⟩)
    ∧ (GetPresence (SetOffline sampleWorld 30 true aliceID).1 91 true aliceID).2
        = .ok ⟨aliceID, "offline", 30, []⟩ :=
  ⟨by decide,
   (presence_offline_after_SetOffline sampleWorld 30 aliceID (ObjectID.ofNat 1)
      (by decide)).2.2.1 90 true (by decide),
   ((presence_offline_after_SetOffline sampleWorld 30 aliceID (ObjectID.ofNat 1)
      (by decide)).2.2.2 91 (onlineDoc 11 "conn-a2" (onlineDoc 10 "conn-a1" (sampleUser 1 "alice")))
      (by decide) (by decide)).1⟩

/-! ## Paginated conversation reads -/

instance : IsTotal Message timestampDesc := ⟨fun a b => Nat.le_total b.Timestamp a.Timestamp⟩

instance : IsTrans Message timestampDesc :=
  ⟨fun _ _ _ hab hbc => Nat.le_trans hbc hab⟩

theorem reverseInPlace_eq {α : Type} (l : List α) : reverseInPlace l = l.reverse := by
  simp [reverseInPlace]

theorem applyLimit_sublist {α : Type} (limit : Nat) (l : List α) :
    (applyLimit limit l).Sublist l := by
  unfold applyLimit
  split
  · exact List.Sublist.refl l
  · exact List.take_sublist _ _

theorem applyLimit_length {α : Type} (limit : Nat) (l : List α) (h : 0 < limit) :
    (applyLimit limit l).length ≤ limit := by
  unfold applyLimit
  rw [if_neg (Nat.pos_iff_ne_zero.1 h)]
  exact List.length_take_le _ _

/-- C14. `GetMessages(conversation_id, limit, skip)`: a malformed conversation id yields
the error "invalid conversation ID". Otherwise, when the `Find` succeeds, there is a list
`S` holding exactly the messages of that conversation that are not soft-deleted, sorted by
timestamp descending, such that the result is the reverse of the page of `S` after `skip`
cut at `limit` (no cut when `limit` is zero, as the store reads it). So the result is in
chronological ascending order, every message in it is a stored message of that
conversation that is not soft-deleted, and it holds at most `limit` messages when `limit`
is positive. -/
theorem GetMessages_spec (db : Database) (conversationID : String) (limit skip : Nat) :
    (ObjectIDFromHex conversationID = none →
      ∀ ok, GetMessages db ok conversationID limit skip = .error "invalid conversation ID")
    ∧ (∀ convID, ObjectIDFromHex conversationID = some convID →
        ∃ S : List Message,
          S.Perm (db.messages.filter (fun m => m.ConversationID = convID && !m.Deleted))
          ∧ S.Sorted (fun a b => b.Timestamp ≤ a.Timestamp)
          ∧ GetMessages db true conversationID limit skip
              = .ok (applyLimit limit (S.drop skip)).reverse
          ∧ (applyLimit limit (S.drop skip)).reverse.Sorted
              (fun a b => a.Timestamp ≤ b.Timestamp)
          ∧ (∀ m ∈ (applyLimit limit (S.drop skip)).reverse,
              m ∈ db.messages ∧ m.ConversationID = convID ∧ m.Deleted = false)
          ∧ (0 < limit → (applyLimit limit (S.drop skip)).reverse.length ≤ limit)) := by
  refine ⟨fun h ok => by simp [GetMessages, h], ?_⟩
  intro convID hid
  have hsorted := List.sorted_insertionSort timestampDesc
    (db.messages.filter (fun m => m.ConversationID = convID && !m.Deleted))
  have hperm := List.perm_insertionSort timestampDesc
    (db.messages.filter (fun m => m.ConversationID = convID && !m.Deleted))
  refine ⟨_, hperm, hsorted, ?_, ?_, ?_, ?_⟩
  · simp [GetMessages, hid, reverseInPlace_eq, messagesPage]
  · have hsub : (applyLimit limit (((db.messages.filter
        (fun m => m.ConversationID = convID && !m.Deleted)).insertionSort timestampDesc).drop
          skip)).Sublist _ :=
      (applyLimit_sublist limit _).trans (List.drop_sublist skip _)
    have := List.Pairwise.sublist hsub hsorted
    unfold List.Sorted
    rw [List.pairwise_reverse]
    exact this
  · intro m hm
    rw [List.mem_reverse] at hm
    have h1 := (applyLimit_sublist limit _).subset hm
    have h2 := (List.drop_sublist skip _).subset h1
    have h3 := (hperm.subset h2)
    rw [List.mem_filter] at h3
    simpa using h3
  · intro hpos
    rw [List.length_reverse]
    exact applyLimit_length limit _ hpos

/-! ## Direct conversations are unique per pair -/

theorem directFilter_swap (a b : ObjectID) (c : Conversation) :
    directFilter [b, a] c = directFilter [a, b] c := by
  simp only [directFilter, List.all_cons, List.all_nil, Bool.and_true, List.length_cons,
    List.length_nil, List.isEmpty_cons, Bool.not_false]
  cases c.Participants.contains a <;> cases c.Participants.contains b <;> rfl

theorem parseIDs_pair (A B : String) (a b : ObjectID) (ha : ObjectIDFromHex A = some a)
    (hb : ObjectIDFromHex B = some b) (c : ConvCall) :
    parseIDs (c.ids A B) = some (if c.swap then [b, a] else [a, b]) := by
  cases hs : c.swap <;> simp [ConvCall.ids, hs, parseIDs, ha, hb]

theorem find?_directFilter_pair (a b : ObjectID) (c : ConvCall) (l : List Conversation) :
    l.find? (directFilter (if c.swap then [b, a] else [a, b])) = l.find? (directFilter [a, b]) := by
  cases c.swap
  · rfl
  · simp only [if_true]
    congr 1
    funext x
    exact directFilter_swap a b x

theorem directFilter_created (a b : ObjectID) (c : ConvCall) :
    directFilter [a, b] (c.created a b) = true := by
  cases hs : c.swap <;> simp [directFilter, ConvCall.created, hs]

theorem GetOrCreateConversation_found (db : Database) (A B : String) (a b : ObjectID)
    (ha : ObjectIDFromHex A = some a) (hb : ObjectIDFromHex B = some b) (c : ConvCall)
    (c0 : Conversation) (h : db.conversations.find? (directFilter [a, b]) = some c0) :
    GetOrCreateConversation db c.now c.newID true true (c.ids A B) = (db, .ok c0) := by
  simp [GetOrCreateConversation, parseIDs_pair A B a b ha hb, find?_directFilter_pair, h]

theorem GetOrCreateConversation_created (db : Database) (A B : String) (a b : ObjectID)
    (ha : ObjectIDFromHex A = some a) (hb : ObjectIDFromHex B = some b) (c : ConvCall)
    (h : db.conversations.find? (directFilter [a, b]) = none) :
    GetOrCreateConversation db c.now c.newID true true (c.ids A B)
      = ({ db with conversations := db.conversations ++ [c.created a b] }, .ok (c.created a b)) := by
  simp [GetOrCreateConversation, parseIDs_pair A B a b ha hb, find?_directFilter_pair, h,
    insertedID, ConvCall.created]

theorem convSeries_found (A B : String) (a b : ObjectID)
    (ha : ObjectIDFromHex A = some a) (hb : ObjectIDFromHex B = some b) (c0 : Conversation)
    (calls : List ConvCall) (db : Database)
    (h : db.conversations.find? (directFilter [a, b]) = some c0) :
    convSeries A B db calls = (db, List.replicate calls.length (.ok c0)) := by
  induction calls with
  | nil => rfl
  | cons c cs ih =>
    simp only [convSeries, GetOrCreateConversation_found db A B a b ha hb c c0 h, ih,
      List.length_cons, List.replicate_succ]

/-- C15. Direct-conversation uniqueness. For well-formed user ids `A` and `B` and any
series of `GetOrCreateConversation` calls, each with `[A, B]` or `[B, A]`, run one after
the other on a store that accepts every call: when the store holds no direct
conversation of the pair, the first call creates one (type direct, the two participants,
the store-assigned id), appends it to `conversations`, and every call of the series
returns that same conversation, nothing else being inserted, so that afterwards exactly
one stored conversation matches the pair; when the store already holds one, every call
returns the first stored match and the store is unchanged. In both cases the number of
stored conversations matching the pair does not exceed one if it did not before. -/
theorem direct_conversation_unique (A B : String) (a b : ObjectID)
    (ha : ObjectIDFromHex A = some a) (hb : ObjectIDFromHex B = some b)
    (db : Database) (c : ConvCall) (cs : List ConvCall) :
    (db.conversations.find? (directFilter [a, b]) = none →
        (convSeries A B db (c :: cs)).2 = List.replicate (cs.length + 1) (.ok (c.created a b))
        ∧ (convSeries A B db (c :: cs)).1
            = { db with conversations := db.conversations ++ [c.created a b] }
        ∧ (c.created a b).Type_ = "direct"
        ∧ (c.created a b).ID = c.newID
        ∧ (c.created a b).Participants.Perm [a, b]
        ∧ ((convSeries A B db (c :: cs)).1.conversations.filter (directFilter [a, b])).length = 1)
    ∧ (∀ c0, db.conversations.find? (directFilter [a, b]) = some c0 →
        (convSeries A B db (c :: cs)).2 = List.replicate (cs.length + 1) (.ok c0)
        ∧ (convSeries A B db (c :: cs)).1 = db)
    ∧ ((db.conversations.filter (directFilter [a, b])).length ≤ 1 →
        ((convSeries A B db (c :: cs)).1.conversations.filter (directFilter [a, b])).length
          ≤ 1) := by
  have hnone : db.conversations.find? (directFilter [a, b]) = none →
      convSeries A B db (c :: cs)
        = ({ db with conversations := db.conversations ++ [c.created a b] },
           List.replicate (cs.length + 1) (.ok (c.created a b)))
        ∧ (db.conversations.filter (directFilter [a, b])) = [] := by
    intro h
    have hfilter : db.conversations.filter (directFilter [a, b]) = [] := by
      rw [List.filter_eq_nil_iff]
      intro x hx
      have := List.find?_eq_none.1 h x hx
      simpa using this
    refine ⟨?_, hfilter⟩
    have hfound : ({ db with conversations := db.conversations ++ [c.created a b] } :
        Database).conversations.find? (directFilter [a, b]) = some (c.created a b) := by
      simp only [List.find?_append, h, Option.none_or, List.find?_cons,
        directFilter_created a b c]
    simp only [convSeries, GetOrCreateConversation_created db A B a b ha hb c h,
      convSeries_found A B a b ha hb (c.created a b) cs _ hfound, List.replicate_succ]
  have hsome : ∀ c0, db.conversations.find? (directFilter [a, b]) = some c0 →
      convSeries A B db (c :: cs) = (db, List.replicate (cs.length + 1) (.ok c0)) :=
    fun c0 h => convSeries_found A B a b ha hb c0 (c :: cs) db h
  refine ⟨?_, ?_, ?_⟩
  · intro h
    obtain ⟨hs, hfilter⟩ := hnone h
    rw [hs]
    refine ⟨rfl, rfl, rfl, rfl, ?_, ?_⟩
    · cases hsw : c.swap
      · simp [ConvCall.created, hsw]
      · simp only [ConvCall.created, hsw, if_true]
        exact List.Perm.swap a b []
    · simp [List.filter_append, hfilter, directFilter_created a b c]
  · intro c0 h
    rw [hsome c0 h]
    exact ⟨rfl, rfl⟩
  · intro hle
    cases h : db.conversations.find? (directFilter [a, b]) with
    | none =>
      obtain ⟨hs, hfilter⟩ := hnone h
      rw [hs]
      simp [List.filter_append, hfilter, directFilter_created a b c]
    | some c0 =>
      rw [hsome c0 h]
      exact hle

theorem direct_conversation_unique_witness :
    ObjectIDFromHex aliceID = some (ObjectID.ofNat 1)
    ∧ ObjectIDFromHex bobID = some (ObjectID.ofNat 2)
    ∧ sampleDB.conversations.find? (directFilter [ObjectID.ofNat 1, ObjectID.ofNat 2]) = none
    ∧ (convSeries aliceID bobID sampleDB
        [⟨false, 20, ObjectID.ofNat 400⟩, ⟨true, 21, ObjectID.ofNat 401⟩,
         ⟨false, 22, ObjectID.ofNat 402⟩]).2
        = [.ok sampleConversation, .ok sampleConversation, .ok sampleConversation]
    ∧ (convSeries aliceID bobID sampleDB
        [⟨false, 20, ObjectID.ofNat 400⟩, ⟨true, 21, ObjectID.ofNat 401⟩,
         ⟨false, 22, ObjectID.ofNat 402⟩]).1.conversations = [sampleConversation] :=
  ⟨by decide, by decide, by decide,
   ((direct_conversation_unique aliceID bobID (ObjectID.ofNat 1) (ObjectID.ofNat 2)
      (by decide) (by decide) sampleDB ⟨false, 20, ObjectID.ofNat 400⟩
      [⟨true, 21, ObjectID.ofNat 401⟩, ⟨false, 22, ObjectID.ofNat 402⟩]).1 (by decide)).1,
   congrArg Database.conversations
    ((direct_conversation_unique aliceID bobID (ObjectID.ofNat 1) (ObjectID.ofNat 2)
      (by decide) (by decide) sampleDB ⟨false, 20, ObjectID.ofNat 400⟩
      [⟨true, 21, ObjectID.ofNat 401⟩, ⟨false, 22, ObjectID.ofNat 402⟩]).1 (by decide)).2.1⟩

/-! ## The offline queue: `GetQueuedMessages` -/

instance : IsTotal MessageQueue queueOrder :=
  ⟨fun a b => by
    unfold queueOrder
    rcases lt_trichotomy a.Priority b.Priority with h | h | h
    · exact Or.inl (Or.inl h)
    · rcases Nat.le_total a.CreatedAt b.CreatedAt with h2 | h2
      · exact Or.inl (Or.inr ⟨h, h2⟩)
      · exact Or.inr (Or.inr ⟨h.symm, h2⟩)
    · exact Or.inr (Or.inl h)⟩

instance : IsTrans MessageQueue queueOrder :=
  ⟨fun a b c hab hbc => by
    unfold queueOrder at *
    rcases hab with h1 | ⟨h1, h2⟩ <;> rcases hbc with h3 | ⟨h3, h4⟩
    · exact Or.inl (lt_trans h1 h3)
    · exact Or.inl (h3 ▸ h1)
    · exact Or.inl (h1 ▸ h3)
    · exact Or.inr ⟨h1.trans h3, Nat.le_trans h2 h4⟩⟩

/-- The page of queue entries is a cut of a sorted arrangement of the pending entries of
the user. -/
theorem queuePage_spec (db : Database) (uid : ObjectID) (limit : Nat) :
    ∃ S : List MessageQueue,
      S.Perm (db.message_queue.filter (fun q => q.UserID = uid && q.Status == "pending"))
      ∧ S.Sorted queueOrder
      ∧ queuePage db uid limit = applyLimit limit S :=
  ⟨_, List.perm_insertionSort queueOrder _, List.sorted_insertionSort queueOrder _, rfl⟩

theorem queuePage_subset (db : Database) (uid : ObjectID) (limit : Nat) (q : MessageQueue)
    (h : q ∈ queuePage db uid limit) :
    q ∈ db.message_queue ∧ q.UserID = uid ∧ q.Status = "pending" := by
  have h1 := (applyLimit_sublist limit _).subset h
  have h2 := (List.perm_insertionSort queueOrder _).subset h1
  rw [List.mem_filter] at h2
  simpa using h2

/-- The result of `GetQueuedMessages` when the id is well formed and the store accepts the
two reads; `deleteOk` decides whether the drained entries leave the queue. -/
theorem GetQueuedMessages_ok (db : Database) (deleteOk : Bool) (userID : String)
    (uid : ObjectID) (limit : Nat) (hid : ObjectIDFromHex userID = some uid) :
    (GetQueuedMessages db true true deleteOk userID limit).2
      = .ok (db.messages.filter
          (fun m => ((queuePage db uid limit).map (fun q => q.MessageID)).contains m.ID))
    ∧ (GetQueuedMessages db true true deleteOk userID limit).1.message_queue
      = (if deleteOk then
          db.message_queue.filter
            (fun q => !((queuePage db uid limit).map (fun q => q.ID)).contains q.ID)
         else db.message_queue)
    ∧ (GetQueuedMessages db true true deleteOk userID limit).1.messages = db.messages
    ∧ (GetQueuedMessages db true true deleteOk userID limit).1.users = db.users
    ∧ (GetQueuedMessages db true true deleteOk userID limit).1.conversations = db.conversations
    ∧ (GetQueuedMessages db true true deleteOk userID limit).1.contacts = db.contacts
    ∧ (GetQueuedMessages db true true deleteOk userID limit).1.active_connections
      = db.active_connections := by
  unfold GetQueuedMessages
  simp only [hid, Bool.not_true, Bool.false_eq_true, if_false, List.length_map]
  cases hp : queuePage db uid limit with
  | nil => cases deleteOk <;> simp
  | cons q qs => cases deleteOk <;> simp

theorem GetQueuedMessages_error_unchanged (db : Database) (findOk msgFindOk deleteOk : Bool)
    (userID : String) (limit : Nat) (db1 : Database) (err : Error)
    (h : GetQueuedMessages db findOk msgFindOk deleteOk userID limit = (db1, .error err)) :
    db1 = db := by
  unfold GetQueuedMessages at h
  repeat' split at h
  all_goals try simp only [Prod.mk.injEq] at h
  all_goals first
    | exact h.1.symm
    | (split at h <;> simp_all)

/-- C16, the claim as stated fails. `GetQueuedMessages` discards the result of `DeleteMany`:
when the store refuses the delete, the call returns the queued message as a success and
the entry it read is still in the queue. -/
theorem drain_refused_delete_counterexample :
    oneQueueDB.message_queue = [sampleQueueEntry 600 500 1 30]
    ∧ GetQueuedMessages oneQueueDB true true false bobID 1 = (oneQueueDB, .ok [sampleMessage]) :=
  ⟨rfl, rfl⟩

/-- C16, amended. `GetQueuedMessages(user_id, limit)` for a well-formed user id. The entries
read are the page: a cut at `limit` (no cut when `limit` is zero, as the store reads it)
of the pending entries of that user arranged by priority ascending then creation time
ascending. When both reads succeed the result is the stored messages those entries
reference, whatever the store answers to the delete, whose result is discarded. When the
store carries the delete out, the queue afterwards is the queue before without the
entries whose id is in the page, in the same order, every other collection being
unchanged; with distinct entry ids an entry is in the queue afterwards exactly when it
was there before and is not in the page, so entries of other users, entries that are not
pending and entries beyond the limit all stay. When the store refuses the delete, the
messages are returned all the same and the store is unchanged. When reading the entries
or fetching the messages fails the call returns an error and the store is unchanged. -/
theorem GetQueuedMessages_spec (db : Database) (userID : String) (uid : ObjectID)
    (limit : Nat) (hid : ObjectIDFromHex userID = some uid) :
    (∃ S : List MessageQueue,
      S.Perm (db.message_queue.filter (fun q => q.UserID = uid && q.Status == "pending"))
      ∧ S.Sorted queueOrder
      ∧ queuePage db uid limit = applyLimit limit S
      ∧ (0 < limit → (queuePage db uid limit).length ≤ limit))
    ∧ (GetQueuedMessages db true true true userID limit).2
        = .ok (db.messages.filter
            (fun m => ((queuePage db uid limit).map (fun q => q.MessageID)).contains m.ID))
    ∧ (GetQueuedMessages db true true true userID limit).1.message_queue
        = db.message_queue.filter
            (fun q => !((queuePage db uid limit).map (fun q => q.ID)).contains q.ID)
    ∧ (GetQueuedMessages db true true true userID limit).1.messages = db.messages
    ∧ (GetQueuedMessages db true true true userID limit).1.users = db.users
    ∧ (GetQueuedMessages db true true true userID limit).1.conversations = db.conversations
    ∧ ((db.message_queue.map (fun q => q.ID)).Nodup →
        ∀ q, q ∈ (GetQueuedMessages db true true true userID limit).1.message_queue ↔
          q ∈ db.message_queue ∧ q ∉ queuePage db uid limit)
    ∧ (∀ q ∈ db.message_queue, (q.UserID ≠ uid ∨ q.Status ≠ "pending") →
        (db.message_queue.map (fun q => q.ID)).Nodup →
        q ∈ (GetQueuedMessages db true true true userID limit).1.message_queue)
    ∧ (queuePage db uid limit ≠ [] →
        ∀ deleteOk, GetQueuedMessages db true false deleteOk userID limit = (db, .error ErrStore))
    ∧ GetQueuedMessages db true true false userID limit
        = (db, .ok (db.messages.filter
            (fun m => ((queuePage db uid limit).map (fun q => q.MessageID)).contains m.ID)))
    ∧ (∀ msgFindOk deleteOk,
        GetQueuedMessages db false msgFindOk deleteOk userID limit = (db, .error ErrStore)) := by
  obtain ⟨h1, h2, h3, h4, h5, _, _⟩ := GetQueuedMessages_ok db true userID uid limit hid
  rw [if_pos rfl] at h2
  have hmem : (db.message_queue.map (fun q => q.ID)).Nodup →
      ∀ q, q ∈ db.message_queue.filter
          (fun q => !((queuePage db uid limit).map (fun q => q.ID)).contains q.ID) ↔
        q ∈ db.message_queue ∧ q ∉ queuePage db uid limit := by
    intro hnd q
    rw [List.mem_filter]
    constructor
    · rintro ⟨hq, hc⟩
      refine ⟨hq, fun hp => ?_⟩
      have : q.ID ∈ (queuePage db uid limit).map (fun q => q.ID) := List.mem_map_of_mem _ hp
      simp_all
    · rintro ⟨hq, hnp⟩
      refine ⟨hq, ?_⟩
      simp only [Bool.not_eq_true', List.contains_eq_any_beq, List.any_eq_false, List.mem_map,
        beq_iff_eq, forall_exists_index, and_imp]
      rintro _ p hp rfl hpid
      have hpq := (queuePage_subset db uid limit p hp).1
      have := List.inj_on_of_nodup_map hnd hpq hq hpid.symm
      exact hnp (this ▸ hp)
  refine ⟨?_, h1, h2, h3, h4, h5, ?_, ?_, ?_, ?_, ?_⟩
  · obtain ⟨S, hS1, hS2, hS3⟩ := queuePage_spec db uid limit
    exact ⟨S, hS1, hS2, hS3, fun hpos => by rw [hS3]; exact applyLimit_length limit S hpos⟩
  · intro hnd q
    rw [h2]
    exact hmem hnd q
  · intro q hq hother hnd
    rw [h2, hmem hnd q]
    refine ⟨hq, fun hp => ?_⟩
    obtain ⟨_, hu, hs⟩ := queuePage_subset db uid limit q hp
    rcases hother with h | h
    · exact h hu
    · exact h hs
  · intro hne deleteOk
    unfold GetQueuedMessages
    simp only [hid, Bool.not_true, Bool.false_eq_true, if_false, List.length_map,
      Bool.not_false, if_true]
    have : (queuePage db uid limit).length ≠ 0 := fun h => hne (List.length_eq_zero.1 h)
    simp [this]
  · unfold GetQueuedMessages
    simp only [hid, Bool.not_true, Bool.false_eq_true, if_false, List.length_map]
    cases hp : queuePage db uid limit with
    | nil => simp
    | cons q qs => simp
  · intro msgFindOk deleteOk
    unfold GetQueuedMessages
    simp only [hid, Bool.not_false, if_true]

theorem GetQueuedMessages_spec_witness :
    ObjectIDFromHex bobID = some (ObjectID.ofNat 2)
    ∧ (GetQueuedMessages queueDB true true true bobID 1).2
        = .ok (queueDB.messages.filter
            (fun m => ((queuePage queueDB (ObjectID.ofNat 2) 1).map
              (fun q => q.MessageID)).contains m.ID))
    ∧ queuePage queueDB (ObjectID.ofNat 2) 1 = [sampleQueueEntry 600 500 1 30]
    ∧ GetQueuedMessages queueDB true true true bobID 1
        = ({ queueDB with message_queue := [sampleQueueEntry 601 501 1 31] },
           .ok [sampleMessage]) :=
  ⟨by decide,
   (GetQueuedMessages_spec queueDB bobID (ObjectID.ofNat 2) 1 (by decide)).2.1,
   by decide, rfl⟩

/-- What a successful `GetQueuedMessages` returned and left behind. -/
theorem GetQueuedMessages_ok_inv (db db1 : Database) (findOk msgFindOk deleteOk : Bool)
    (userID : String) (uid : ObjectID) (limit : Nat) (X : List Message)
    (hid : ObjectIDFromHex userID = some uid)
    (h : GetQueuedMessages db findOk msgFindOk deleteOk userID limit = (db1, .ok X)) :
    X = db.messages.filter
          (fun m => ((queuePage db uid limit).map (fun q => q.MessageID)).contains m.ID)
    ∧ db1.messages = db.messages
    ∧ db1.message_queue
      = (if deleteOk then
          db.message_queue.filter
            (fun q => !((queuePage db uid limit).map (fun q => q.ID)).contains q.ID)
         else db.message_queue) := by
  unfold GetQueuedMessages at h
  simp only [hid, List.length_map] at h
  cases hp : queuePage db uid limit with
  | nil =>
    rw [hp] at h
    cases findOk <;> cases deleteOk <;> simp at h <;> obtain ⟨rfl, rfl⟩ := h <;> simp
  | cons q qs =>
    rw [hp] at h
    cases findOk <;> cases msgFindOk <;> cases deleteOk <;> simp at h <;>
      obtain ⟨rfl, rfl⟩ := h <;> simp

theorem mem_pendingOf (db : Database) (uid : ObjectID) (q : MessageQueue) :
    q ∈ pendingOf db uid ↔ q ∈ db.message_queue ∧ q.UserID = uid ∧ q.Status = "pending" := by
  unfold pendingOf
  rw [List.mem_filter]
  simp

/-- C17, the claim as stated fails. Two `QueueOfflineMessage` calls for bob and the same
message leave two pending entries; the first drain with limit 1 returns that message and
removes one entry, and the next drain returns the same message again. And with a single
pending entry, when the store refuses the delete of the first drain, whose result the
code discards, the first drain returns the message and leaves the store as it was, and
the next drain returns the same message. -/
theorem drain_overlap_counterexample :
    (QueueOfflineMessage
        (QueueOfflineMessage msgDB 30 (ObjectID.ofNat 600) true bobID (ObjectID.ofNat 500)
          (ObjectID.ofNat 400)).1
        31 (ObjectID.ofNat 601) true bobID (ObjectID.ofNat 500) (ObjectID.ofNat 400)).1
      = dupQueueDB
    ∧ GetQueuedMessages dupQueueDB true true true bobID 1
      = ({ dupQueueDB with message_queue := [sampleQueueEntry 601 500 1 31] },
         .ok [sampleMessage])
    ∧ GetQueuedMessages { dupQueueDB with message_queue := [sampleQueueEntry 601 500 1 31] }
        true true true bobID 1
      = ({ dupQueueDB with message_queue := [] }, .ok [sampleMessage])
    ∧ GetQueuedMessages oneQueueDB true true false bobID 1
      = (oneQueueDB, .ok [sampleMessage])
    ∧ GetQueuedMessages oneQueueDB true true true bobID 1
      = ({ oneQueueDB with message_queue := [] }, .ok [sampleMessage]) :=
  ⟨rfl, rfl, rfl, rfl, rfl⟩

/-- C17, amended. For a well-formed user id whose pending queue entries reference pairwise
distinct messages: if a drain whose delete the store carries out returns the messages `X`,
then a following drain for that user from the store the first one left, with any limit and
any verdicts of the store, returns messages none of which is in `X`. -/
theorem drains_disjoint (db db1 db2 : Database) (findOk msgFindOk findOk2 msgFindOk2
    deleteOk2 : Bool) (userID : String) (uid : ObjectID) (N N2 : Nat) (X Y : List Message)
    (hid : ObjectIDFromHex userID = some uid)
    (hnd : ((pendingOf db uid).map (fun q => q.MessageID)).Nodup)
    (hX : GetQueuedMessages db findOk msgFindOk true userID N = (db1, .ok X))
    (hY : GetQueuedMessages db1 findOk2 msgFindOk2 deleteOk2 userID N2 = (db2, .ok Y)) :
    ∀ m ∈ X, m ∉ Y := by
  obtain ⟨hXeq, _, hq1⟩ := GetQueuedMessages_ok_inv db db1 findOk msgFindOk true userID uid N X
    hid hX
  obtain ⟨hYeq, _, _⟩ := GetQueuedMessages_ok_inv db1 db2 findOk2 msgFindOk2 deleteOk2 userID
    uid N2 Y hid hY
  rw [if_pos rfl] at hq1
  intro m hmX hmY
  rw [hXeq, List.mem_filter] at hmX
  rw [hYeq, List.mem_filter] at hmY
  have hp := hmX.2
  have hq := hmY.2
  simp only [List.contains_eq_any_beq, List.any_eq_true, List.mem_map, beq_iff_eq] at hp hq
  obtain ⟨_, ⟨p, hpP, rfl⟩, hpm⟩ := hp
  obtain ⟨_, ⟨q, hqP, rfl⟩, hqm⟩ := hq
  obtain ⟨hp1, hp2, hp3⟩ := queuePage_subset db uid N p hpP
  obtain ⟨hq1', hq2, hq3⟩ := queuePage_subset db1 uid N2 q hqP
  rw [hq1, List.mem_filter] at hq1'
  have hqid : q.ID ∉ (queuePage db uid N).map (fun q => q.ID) := by
    have := hq1'.2
    simpa using this
  have hpq : p = q :=
    List.inj_on_of_nodup_map hnd ((mem_pendingOf db uid p).2 ⟨hp1, hp2, hp3⟩)
      ((mem_pendingOf db uid q).2 ⟨hq1'.1, hq2, hq3⟩) (hpm.symm.trans hqm)
  exact hqid (hpq ▸ List.mem_map_of_mem _ hpP)

theorem drains_disjoint_witness :
    ObjectIDFromHex bobID = some (ObjectID.ofNat 2)
    ∧ ((pendingOf queueDB (ObjectID.ofNat 2)).map (fun q => q.MessageID)).Nodup
    ∧ GetQueuedMessages queueDB true true true bobID 1
      = ({ queueDB with message_queue := [sampleQueueEntry 601 501 1 31] }, .ok [sampleMessage])
    ∧ GetQueuedMessages { queueDB with message_queue := [sampleQueueEntry 601 501 1 31] }
        true true true bobID 1
      = ({ queueDB with message_queue := [] }, .ok [sampleMessage2])
    ∧ ∀ m ∈ [sampleMessage], m ∉ [sampleMessage2] :=
  ⟨by decide, by decide, rfl, rfl,
   drains_disjoint queueDB { queueDB with message_queue := [sampleQueueEntry 601 501 1 31] }
     { queueDB with message_queue := [] } true true true true true bobID (ObjectID.ofNat 2)
     1 1 [sampleMessage] [sampleMessage2] (by decide) (by decide) rfl rfl⟩

/-! ## The drain on reconnect: `sendQueuedMessages` -/

/-- A run of non-blocking sends to an open channel fills the room that is left, in order,
and drops the rest. -/
theorem Chan.foldl_deliver (frames : List Bytes) (ch : Chan) (hopen : ch.closed = false) :
    frames.foldl Chan.deliver ch
      = { ch with buf := ch.buf ++ frames.take (ch.cap - ch.buf.length) } := by
  induction frames generalizing ch with
  | nil => simp
  | cons x xs ih =>
    rw [List.foldl_cons, ih (ch.deliver x) ((Chan.deliver_closed ch x).trans hopen)]
    unfold Chan.deliver Chan.trySend
    rw [hopen]
    by_cases hl : ch.buf.length < ch.cap
    · obtain ⟨k, hk⟩ : ∃ k, ch.cap - ch.buf.length = k + 1 := ⟨ch.cap - ch.buf.length - 1, by omega⟩
      have hk2 : ch.cap - (ch.buf.length + 1) = k := by omega
      simp [hl, hk, hk2]
    · have h0 : ch.cap - ch.buf.length = 0 := by omega
      simp [hl, h0, hopen]

/-- One iteration of the loop of `sendQueuedMessages` on an open channel. -/
theorem sendQueued_open (marshal : Frame → Option Bytes) (client : Client) (w : World)
    (msg : Message) (hopen : (w.chans client.Send).closed = false) :
    sendQueued marshal client w msg
      = { w with
          chans := Function.update w.chans client.Send
                    ((w.chans client.Send).deliver ((marshal (.queued_message msg)).getD "")) } := by
  cases h : (w.chans client.Send).trySend ((marshal (.queued_message msg)).getD "") with
  | sent ch1 => simp only [sendQueued, Chan.deliver, h]
  | full => simp only [sendQueued, Chan.deliver, h, Function.update_eq_self]
  | closed =>
    unfold Chan.trySend at h
    rw [hopen] at h
    simp only [Bool.false_eq_true, if_false] at h
    split at h <;> cases h

/-- The loop of `sendQueuedMessages` over the fetched messages, on an open channel. -/
theorem foldl_sendQueued (marshal : Frame → Option Bytes) (client : Client)
    (msgs : List Message) (w : World) (hopen : (w.chans client.Send).closed = false) :
    msgs.foldl (sendQueued marshal client) w
      = { w with
          chans := Function.update w.chans client.Send
                    ((msgs.map (fun m => (marshal (.queued_message m)).getD "")).foldl
                      Chan.deliver (w.chans client.Send)) } := by
  induction msgs generalizing w with
  | nil => simp
  | cons x xs ih =>
    rw [List.foldl_cons, sendQueued_open marshal client w x hopen, ih]
    · simp
    · simpa using (Chan.deliver_closed _ _).trans hopen

/-- The drain when the id is well formed, the store accepts every call and the channel of
the session is open. -/
theorem sendQueuedMessages_ok (marshal : Frame → Option Bytes) (w : World) (client : Client)
    (uid : ObjectID) (hid : ObjectIDFromHex client.UserID = some uid)
    (hopen : (w.chans client.Send).closed = false) :
    sendQueuedMessages marshal ⟨true, true, true⟩ w client
      = { w with
          db := (GetQueuedMessages w.db true true true client.UserID 100).1,
          chans := Function.update w.chans client.Send
                    (((w.db.messages.filter (fun m =>
                        ((queuePage w.db uid 100).map (fun q => q.MessageID)).contains m.ID)).map
                      (fun m => (marshal (.queued_message m)).getD "")).foldl
                      Chan.deliver (w.chans client.Send)) } := by
  have hres : GetQueuedMessages w.db true true true client.UserID 100
      = ((GetQueuedMessages w.db true true true client.UserID 100).1,
         .ok (w.db.messages.filter (fun m =>
            ((queuePage w.db uid 100).map (fun q => q.MessageID)).contains m.ID))) :=
    Prod.ext rfl (GetQueuedMessages_ok w.db true client.UserID uid 100 hid).1
  unfold sendQueuedMessages
  simp only []
  rw [hres]
  simp only []
  exact foldl_sendQueued marshal client _ _ hopen

/-- A drain whose delete the store refuses: the messages are returned and the store is as
it was. -/
theorem GetQueuedMessages_refused (db : Database) (userID : String) (uid : ObjectID)
    (limit : Nat) (hid : ObjectIDFromHex userID = some uid) :
    GetQueuedMessages db true true false userID limit
      = (db, .ok (db.messages.filter
          (fun m => ((queuePage db uid limit).map (fun q => q.MessageID)).contains m.ID))) := by
  unfold GetQueuedMessages
  simp only [hid, Bool.not_true, Bool.false_eq_true, if_false, List.length_map]
  cases hp : queuePage db uid limit with
  | nil => simp
  | cons q qs => simp

/-- The drain on an open channel when the store refuses the delete: the frames are sent
and the store is as it was. -/
theorem sendQueuedMessages_refused (marshal : Frame → Option Bytes) (w : World)
    (client : Client) (uid : ObjectID) (hid : ObjectIDFromHex client.UserID = some uid)
    (hopen : (w.chans client.Send).closed = false) :
    sendQueuedMessages marshal ⟨true, true, false⟩ w client
      = { w with
          chans := Function.update w.chans client.Send
                    (((w.db.messages.filter (fun m =>
                        ((queuePage w.db uid 100).map (fun q => q.MessageID)).contains m.ID)).map
                      (fun m => (marshal (.queued_message m)).getD "")).foldl
                      Chan.deliver (w.chans client.Send)) } := by
  unfold sendQueuedMessages
  simp only []
  rw [GetQueuedMessages_refused w.db client.UserID uid 100 hid]
  simp only []
  exact foldl_sendQueued marshal client _ _ hopen

/-- The drain sends nothing and changes nothing when a read of the store fails. -/
theorem sendQueuedMessages_fetch_error (marshal : Frame → Option Bytes) (e : DrainEnv)
    (w : World) (client : Client) (db1 : Database) (err : Error)
    (h : GetQueuedMessages w.db e.findOk e.msgFindOk e.deleteOk client.UserID 100
      = (db1, .error err)) :
    sendQueuedMessages marshal e w client = w := by
  unfold sendQueuedMessages
  rw [h]

/-- C18, the claim as stated fails. Two messages are queued for bob and his session has
room; the store refuses the delete of the drained entries, whose result the code
discards: both frames are appended to the buffer of the session and both entries are
still in the queue after the drain. -/
theorem drain_queue_not_empty_counterexample :
    (pendingOf queuedWorld.db (ObjectID.ofNat 2)).length = 2
    ∧ ((sendQueuedMessages sampleMarshal ⟨true, true, false⟩ queuedWorld sessionB1).chans
        sessionB1.Send).buf = ["queued_message:hi", "queued_message:there"]
    ∧ (sendQueuedMessages sampleMarshal ⟨true, true, false⟩ queuedWorld
        sessionB1).db.message_queue
      = [sampleQueueEntry 601 501 1 31, sampleQueueEntry 600 500 1 30] := by
  refine ⟨?_, ?_, ?_⟩ <;> decide

/-- C18, amended. The drain `sendQueuedMessages` for a session whose user id is well formed
and whose outbound channel is open. When the two reads of the store succeed it reads at
most 100 queue entries of the user, and the frames `queued_message` of the messages they
reference are appended to the outbound buffer of that session, in order, as far as the
buffer has room, the remaining ones not being enqueued, whatever the store answers to the
delete; no other channel and no registry map changes. When the store carries the delete
out, every entry read is gone from the queue whether or not its message fitted, and when
the user had at most 100 pending entries no pending entry of the user remains; if
moreover every entry of the user was pending, as every entry `QueueOfflineMessage` writes
is, no entry of the user remains at all. When the store refuses the delete, the frames
are sent all the same and the store is as it was. When a read of the store fails, nothing
is sent and nothing changes. -/
theorem sendQueuedMessages_spec (marshal : Frame → Option Bytes) (w : World) (client : Client)
    (uid : ObjectID) (hid : ObjectIDFromHex client.UserID = some uid)
    (hopen : (w.chans client.Send).closed = false) :
    (queuePage w.db uid 100).length ≤ 100
    ∧ (sendQueuedMessages marshal ⟨true, true, true⟩ w client).chans client.Send
      = { w.chans client.Send with
          buf := (w.chans client.Send).buf ++
            ((w.db.messages.filter (fun m =>
                ((queuePage w.db uid 100).map (fun q => q.MessageID)).contains m.ID)).map
              (fun m => (marshal (.queued_message m)).getD "")).take
              ((w.chans client.Send).cap - (w.chans client.Send).buf.length) }
    ∧ (∀ k, k ≠ client.Send →
        (sendQueuedMessages marshal ⟨true, true, true⟩ w client).chans k = w.chans k)
    ∧ (sendQueuedMessages marshal ⟨true, true, true⟩ w client).db.message_queue
      = w.db.message_queue.filter
          (fun q => !((queuePage w.db uid 100).map (fun q => q.ID)).contains q.ID)
    ∧ (∀ q ∈ queuePage w.db uid 100,
        q ∉ (sendQueuedMessages marshal ⟨true, true, true⟩ w client).db.message_queue)
    ∧ (sendQueuedMessages marshal ⟨true, true, true⟩ w client).db.messages = w.db.messages
    ∧ (sendQueuedMessages marshal ⟨true, true, true⟩ w client).connections = w.connections
    ∧ (sendQueuedMessages marshal ⟨true, true, true⟩ w client).userConnections
      = w.userConnections
    ∧ (sendQueuedMessages marshal ⟨true, true, true⟩ w client).broadcast = w.broadcast
    ∧ (sendQueuedMessages marshal ⟨true, true, true⟩ w client).spawned = w.spawned
    ∧ (sendQueuedMessages marshal ⟨true, true, true⟩ w client).panicked = w.panicked
    ∧ ((pendingOf w.db uid).length ≤ 100 →
        pendingOf (sendQueuedMessages marshal ⟨true, true, true⟩ w client).db uid = []
        ∧ ((∀ q ∈ w.db.message_queue, q.UserID = uid → q.Status = "pending") →
            ∀ q ∈ (sendQueuedMessages marshal ⟨true, true, true⟩ w client).db.message_queue,
              q.UserID ≠ uid))
    ∧ (sendQueuedMessages marshal ⟨true, true, false⟩ w client).chans client.Send
      = { w.chans client.Send with
          buf := (w.chans client.Send).buf ++
            ((w.db.messages.filter (fun m =>
                ((queuePage w.db uid 100).map (fun q => q.MessageID)).contains m.ID)).map
              (fun m => (marshal (.queued_message m)).getD "")).take
              ((w.chans client.Send).cap - (w.chans client.Send).buf.length) }
    ∧ (sendQueuedMessages marshal ⟨true, true, false⟩ w client).db = w.db
    ∧ (∀ msgFindOk deleteOk, sendQueuedMessages marshal ⟨false, msgFindOk, deleteOk⟩ w client = w)
    ∧ (queuePage w.db uid 100 ≠ [] →
        ∀ deleteOk, sendQueuedMessages marshal ⟨true, false, deleteOk⟩ w client = w) := by
  obtain ⟨_, hq, hm, _⟩ := GetQueuedMessages_ok w.db true client.UserID uid 100 hid
  rw [if_pos rfl] at hq
  rw [sendQueuedMessages_ok marshal w client uid hid hopen,
    sendQueuedMessages_refused marshal w client uid hid hopen]
  have hgone : ∀ q ∈ queuePage w.db uid 100,
      q ∉ w.db.message_queue.filter
        (fun q => !((queuePage w.db uid 100).map (fun q => q.ID)).contains q.ID) := by
    intro q hqP hmem
    rw [List.mem_filter] at hmem
    have h1 : q.ID ∈ (queuePage w.db uid 100).map (fun q => q.ID) := List.mem_map_of_mem _ hqP
    have h2 := hmem.2
    simp only [Bool.not_eq_true', List.contains_eq_any_beq, List.any_eq_false, List.mem_map,
      beq_iff_eq, forall_exists_index, and_imp] at h2
    exact h2 q.ID q hqP rfl rfl
  refine ⟨?_, ?_, ?_, hq, ?_, hm, rfl, rfl, rfl, rfl, rfl, ?_, ?_, rfl, ?_, ?_⟩
  · obtain ⟨S, _, _, hS⟩ := queuePage_spec w.db uid 100
    rw [hS]
    exact applyLimit_length 100 S (by decide)
  · simp only [Function.update_same]
    exact Chan.foldl_deliver _ _ hopen
  · intro k hk
    simp only [Function.update_noteq hk]
  · intro q hqP
    simp only [hq]
    exact hgone q hqP
  rotate_left
  · simp only [Function.update_same]
    exact Chan.foldl_deliver _ _ hopen
  · intro msgFindOk deleteOk
    refine sendQueuedMessages_fetch_error marshal _ w client w.db ErrStore ?_
    unfold GetQueuedMessages
    simp only [hid, Bool.not_false, if_true]
  · intro hne deleteOk
    refine sendQueuedMessages_fetch_error marshal _ w client w.db ErrStore ?_
    unfold GetQueuedMessages
    simp only [hid, Bool.not_true, Bool.false_eq_true, if_false, List.length_map,
      Bool.not_false, if_true]
    have : (queuePage w.db uid 100).length ≠ 0 := fun h => hne (List.length_eq_zero.1 h)
    simp [this]
  · intro hlen
    simp only []
    have hnil : pendingOf (GetQueuedMessages w.db true true true client.UserID 100).1 uid
        = [] := ?_
    · refine ⟨hnil, fun hall q hmem huid => ?_⟩
      have hmem0 : q ∈ w.db.message_queue := by
        rw [hq] at hmem
        exact (List.mem_filter.1 hmem).1
      have : q ∈ pendingOf (GetQueuedMessages w.db true true true client.UserID 100).1 uid :=
        (mem_pendingOf _ uid q).2 ⟨hmem, huid, hall q hmem0 huid⟩
      rw [hnil] at this
      cases this
    unfold pendingOf at hlen ⊢
    rw [hq, List.filter_eq_nil_iff]
    intro q hmem hpend
    rw [List.mem_filter] at hmem
    have hqF : q ∈ w.db.message_queue.filter
        (fun q => q.UserID = uid && q.Status == "pending") :=
      List.mem_filter.2 ⟨hmem.1, hpend⟩
    have hqS : q ∈ (w.db.message_queue.filter
        (fun q => q.UserID = uid && q.Status == "pending")).insertionSort queueOrder :=
      (List.perm_insertionSort queueOrder _).symm.subset hqF
    have hpage : queuePage w.db uid 100
        = (w.db.message_queue.filter
            (fun q => q.UserID = uid && q.Status == "pending")).insertionSort queueOrder := by
      unfold queuePage applyLimit
      rw [if_neg (by decide)]
      apply List.take_of_length_le
      rw [List.length_insertionSort]
      exact hlen
    exact hgone q (hpage ▸ hqS) (List.mem_filter.2 hmem)

theorem sendQueuedMessages_spec_witness :
    ObjectIDFromHex sessionB1.UserID = some (ObjectID.ofNat 2)
    ∧ (queuedWorld.chans sessionB1.Send).closed = false
    ∧ (pendingOf queuedWorld.db (ObjectID.ofNat 2)).length ≤ 100
    ∧ pendingOf (sendQueuedMessages sampleMarshal ⟨true, true, true⟩ queuedWorld sessionB1).db
        (ObjectID.ofNat 2) = []
    ∧ ((sendQueuedMessages sampleMarshal ⟨true, true, true⟩ queuedWorld sessionB1).chans 2).buf
        = ["queued_message:hi", "queued_message:there"]
    ∧ (sendQueuedMessages sampleMarshal ⟨true, true, true⟩ queuedWorld sessionB1).db.message_queue
        = [] :=
  ⟨by decide, by decide, by decide,
   ((sendQueuedMessages_spec sampleMarshal queuedWorld sessionB1 (ObjectID.ofNat 2) (by decide)
      (by decide)).2.2.2.2.2.2.2.2.2.2.2.1 (by decide)).1,
   by decide, by decide⟩

/-! ## Lemmas on the order of the delivery statuses -/

theorem StatusLe.refl (ms : List Message) : StatusLe ms ms :=
  fun _ _ _ _ s h => ⟨s, h, le_refl _⟩

theorem StatusLe.trans (a b c : List Message) (hab : StatusLe a b) (hbc : StatusLe b c) :
    StatusLe a c := by
  intro i j mid u s h
  obtain ⟨s1, h1, hr1⟩ := hab i j mid u s h
  obtain ⟨s2, h2, hr2⟩ := hbc i j mid u s1 h1
  exact ⟨s2, h2, le_trans hr1 hr2⟩

theorem StatusLe_append (ms l : List Message) : StatusLe ms (ms ++ l) := by
  intro i j mid u s h
  refine ⟨s, ?_, le_refl _⟩
  unfold statusAt at h ⊢
  cases hi : ms[i]? with
  | none => rw [hi] at h; cases h
  | some m =>
    have hlt : i < ms.length := by
      by_contra hge
      rw [List.getElem?_eq_none (by omega)] at hi
      cases hi
    rw [List.getElem?_append_left hlt, hi]
    rw [hi] at h
    exact h

theorem statusRank_le_read (s : String) : statusRank s ≤ statusRank "read" := by
  unfold statusRank
  repeat' split
  all_goals simp_all

/-- Each position of a collection after `updateOne` holds what it held, or the update of
a document that matched. -/
theorem getElem?_updateOne {α : Type} (p : α → Bool) (f : α → α) (l : List α) (i : Nat) :
    (updateOne p f l)[i]? = l[i]?
    ∨ ∃ x, l[i]? = some x ∧ p x = true ∧ (updateOne p f l)[i]? = some (f x) := by
  induction l generalizing i with
  | nil => left; rfl
  | cons y ys ih =>
    unfold updateOne
    by_cases hp : p y = true
    · rw [if_pos hp]
      cases i with
      | zero => right; exact ⟨y, by simp, hp, by simp⟩
      | succ k => left; simp
    · rw [if_neg hp]
      cases i with
      | zero => left; simp
      | succ k => simpa using ih k

/-- The status `UpdateStatus` writes is not earlier than the one it replaces whenever no
element of a message with the addressed id holds a later one. -/
theorem UpdateStatus_StatusLe (db : Database) (now : Time) (ok : Bool)
    (messageID userID status : String)
    (hguard : ∀ msgID, ObjectIDFromHex messageID = some msgID →
      ∀ m ∈ db.messages, m.ID = msgID →
        ∀ d ∈ m.DeliveryStatus, statusRank d.Status ≤ statusRank status) :
    StatusLe db.messages (UpdateStatus db now ok messageID userID status).1.messages := by
  unfold UpdateStatus
  cases hm : ObjectIDFromHex messageID with
  | none => exact StatusLe.refl _
  | some msgID =>
    cases hu : ObjectIDFromHex userID with
    | none => exact StatusLe.refl _
    | some uid =>
      cases ok with
      | false => exact StatusLe.refl _
      | true =>
        simp only [Bool.not_true, Bool.false_eq_true, if_false]
        intro i j mid u s h
        unfold statusAt at h ⊢
        rcases getElem?_updateOne
          (fun m : Message => m.ID = msgID && m.DeliveryStatus.any (fun d => d.UserID = uid))
          (setDeliveryStatus uid status now) db.messages i with h1 | ⟨x, hx, hpx, h1⟩
        · rw [h1]
          exact ⟨s, h, le_refl _⟩
        · rw [h1]
          rw [hx] at h
          simp only [Option.some_bind, Option.map_eq_some'] at h ⊢
          obtain ⟨d, hd, hds⟩ := h
          have hid : x.ID = msgID := by
            simp only [Bool.and_eq_true, decide_eq_true_eq] at hpx
            exact hpx.1
          have hxmem : x ∈ db.messages := List.getElem?_mem hx
          rcases getElem?_updateOne (fun d : DeliveryStatus => d.UserID = uid)
            (fun d => { d with Status := status, Timestamp := now }) x.DeliveryStatus j
            with h2 | ⟨d2, hd2, _, h2⟩
          · refine ⟨s, ⟨d, ?_, hds⟩, le_refl _⟩
            unfold setDeliveryStatus
            simp only []
            rw [h2]
            exact hd
          · rw [hd] at hd2
            cases hd2
            simp only [Prod.mk.injEq] at hds
            obtain ⟨rfl, rfl, rfl⟩ := hds
            refine ⟨status, ⟨{ d with Status := status, Timestamp := now }, ?_, rfl⟩, ?_⟩
            · unfold setDeliveryStatus
              simp only []
              exact h2
            · exact hguard msgID hm x hxmem hid d (List.getElem?_mem hd)

theorem handleReadReceipt_db (e : ReceiptEnv) (w : World) (c : Client) (err : Bool)
    (req : ReadReceiptReq) :
    (handleReadReceipt e w c err req).db
      = if err then w.db
        else (UpdateStatus w.db e.now e.updateOk req.MessageID c.UserID "read").1 := by
  unfold handleReadReceipt
  cases err with
  | true => rfl
  | false =>
    simp only [Bool.false_eq_true, if_false]
    split <;> rfl

theorem handleReadReceipt_StatusLe (e : ReceiptEnv) (w : World) (c : Client) (err : Bool)
    (req : ReadReceiptReq) :
    StatusLe w.db.messages (handleReadReceipt e w c err req).db.messages := by
  rw [handleReadReceipt_db]
  cases err with
  | true => exact StatusLe.refl _
  | false =>
    exact UpdateStatus_StatusLe w.db e.now e.updateOk req.MessageID c.UserID "read"
      (fun _ _ _ _ _ d _ => statusRank_le_read d.Status)

theorem HandleWebSocket_messages (cfg : Config) (e : RegisterEnv) (w : World)
    (userID uuid : String) :
    (HandleWebSocket cfg e w userID uuid).1.db.messages = w.db.messages := by
  unfold HandleWebSocket newClient registerClient
  simp only []
  rw [(SetOnline_fields _ _ _ _ _).2.2.2.2.2.2.2.2.1]
  cases e.insertOk <;> rfl

theorem unregisterClient_messages (e : UnregisterEnv) (w : World) (c : Client) :
    (unregisterClient e w c).db.messages = w.db.messages := by
  unfold unregisterClient
  simp only [SyncMap.Load]
  repeat' split
  all_goals first
    | rfl
    | simp only [(SetOffline_fields _ _ _ _).2.2.2.2.2.2.2.2.1]

theorem handleSendMessage_StatusLe (marshal : Frame → Option Bytes) (e : SendEnv) (w : World)
    (c : Client) (d : Decoded) (hfresh : ∀ m ∈ w.db.messages, m.ID ≠ e.newMsgID) :
    StatusLe w.db.messages (handleSendMessage marshal e w c d).db.messages := by
  rcases handleSendMessage_cases marshal e w c d with
    ⟨_, h⟩ | ⟨_, _, h⟩ | ⟨_, db1, conv, _, _, hm1, _, h⟩ |
    ⟨_, db1, conv, db2, msg, _, hins, hcreate, hm2, _, h⟩
  · rw [h]
    split
    · rw [(sendErrorAck_fields _ _ _ _ _).1]; exact StatusLe.refl _
    · exact StatusLe.refl _
  · rw [h]
    split
    · rw [(sendErrorAck_fields _ _ _ _ _).1]; exact StatusLe.refl _
    · exact StatusLe.refl _
  · rw [h]
    split
    · rw [(sendErrorAck_fields _ _ _ _ _).1]
      simp only [hm1]
      exact StatusLe.refl _
    · simp only [hm1]
      exact StatusLe.refl _
  · rw [h, (afterPersist_fields marshal e w c d.req db2 msg).2.1]
    have happ : StatusLe w.db.messages db2.messages := by
      rw [hm2]; exact StatusLe_append _ _
    split
    · refine StatusLe.trans _ _ _ happ (UpdateStatus_StatusLe db2 e.now e.updateStatusOk
        msg.ID.Hex d.req.RecipientID "delivered" ?_)
      intro msgID hparse m hmem hid dlv hdlv
      rw [ObjectIDFromHex_Hex] at hparse
      cases hparse
      rcases CreateMessage_cases db1 e.now e.newMsgID e.insertMsgOk e.updateLastOk
          (newMessage e c d.req conv) with ⟨hf, _⟩ | ⟨_, db3, m3, hc3, hm3, _⟩
      · rw [hins] at hf; cases hf
      · rw [hcreate] at hc3
        simp only [Prod.mk.injEq, and_true] at hc3
        obtain ⟨_, hmsg⟩ := hc3
        rw [hm3] at hmsg
        have hmsgid : msg.ID = e.newMsgID := by
          rw [hmsg]; simp [insertedID, newMessage]
        rw [hm2, List.mem_append, List.mem_singleton] at hmem
        rcases hmem with hold | rfl
        · exact absurd (hid.trans hmsgid) (hfresh m hold)
        · rw [hmsg] at hdlv
          simp only [newMessage, List.mem_singleton] at hdlv
          rw [hdlv]
          show statusRank "sent" ≤ statusRank "delivered"
          decide
    · exact happ

/-! ## The `typing` frame -/

/-- C25. `handleTyping` on a payload that parses pushes exactly one broadcast, addressed to
the recipient user of the payload, whose frame is `typing` with the user id of the
originating session (the request struct has no user id field) and the flag of the
payload; the store and every other part of the state stay as they are. On a payload that
fails to parse nothing changes at all. -/
theorem handleTyping_spec (w : World) (c : Client) (req : TypingReq) :
    (handleTyping w c false req).broadcast
      = w.broadcast ++ [⟨req.RecipientID, .typing c.UserID req.IsTyping⟩]
    ∧ (handleTyping w c false req).db = w.db
    ∧ (handleTyping w c false req).cache = w.cache
    ∧ (handleTyping w c false req).chans = w.chans
    ∧ (handleTyping w c false req).connections = w.connections
    ∧ (handleTyping w c false req).userConnections = w.userConnections
    ∧ (handleTyping w c false req).spawned = w.spawned
    ∧ (handleTyping w c false req).panicked = w.panicked
    ∧ handleTyping w c true req = w :=
  ⟨rfl, rfl, rfl, rfl, rfl, rfl, rfl, rfl, rfl⟩

/-! ## The `read_receipt` frame -/

/-- A lookup by a key the update keeps finds, after `updateOne`, a document with the same
value of every field the update keeps. -/
theorem find?_updateOne_map {α β : Type} (p q : α → Bool) (f : α → α) (k : α → β)
    (hq : ∀ x, q (f x) = q x) (hk : ∀ x, k (f x) = k x) (l : List α) :
    ((updateOne p f l).find? q).map k = (l.find? q).map k := by
  induction l with
  | nil => rfl
  | cons a t ih =>
    unfold updateOne
    by_cases hp : p a = true
    · rw [if_pos hp]
      by_cases hqa : q a = true
      · simp [List.find?_cons, hq, hqa, hk]
      · simp [List.find?_cons, hq, hqa]
    · rw [if_neg hp]
      by_cases hqa : q a = true
      · simp [List.find?_cons, hqa]
      · simpa [List.find?_cons, hqa] using ih

/-- The sender of the message with a given id is the same before and after
`UpdateStatus`. -/
theorem UpdateStatus_find_sender (db : Database) (now : Time) (ok : Bool)
    (messageID userID status : String) (msgID : ObjectID) :
    ((UpdateStatus db now ok messageID userID status).1.messages.find?
        (fun m => m.ID = msgID)).map (fun m => m.SenderID)
      = (db.messages.find? (fun m => m.ID = msgID)).map (fun m => m.SenderID) := by
  unfold UpdateStatus
  repeat' split
  all_goals first
    | rfl
    | exact find?_updateOne_map _ (fun m : Message => decide (m.ID = msgID))
        (setDeliveryStatus _ _ _) (fun m => m.SenderID) (fun _ => rfl) (fun _ => rfl) _

/-- C28, the claim as stated fails. Carol is not a recipient of the message alice sent to
bob; her `read_receipt` for it changes no message, and a `status_update` read is pushed
toward alice all the same. -/
theorem read_receipt_counterexample :
    sentWorld.db.messages.map (fun m => m.DeliveryStatus.map (fun d => d.UserID))
      = [[ObjectID.ofNat 2]]
    ∧ mustObjectID sessionC1.UserID = ObjectID.ofNat 3
    ∧ (handleReadReceipt (receiptEnv 25) sentWorld sessionC1 false
        ⟨"0000000000000000000001f4"⟩).db.messages = sentWorld.db.messages
    ∧ (handleReadReceipt (receiptEnv 25) sentWorld sessionC1 false
        ⟨"0000000000000000000001f4"⟩).broadcast
      = sentWorld.broadcast ++ [⟨aliceID, .status_update "0000000000000000000001f4" "read"⟩] := by
  refine ⟨?_, ?_, ?_, ?_⟩ <;> decide

/-- C28, amended. `handleReadReceipt` pushes a `status_update` read toward the sender of a
message exactly when the payload parses and the store finds a message with the id of the
payload, whoever the user of the reading session is and whether or not `UpdateStatus`
changed an element: the broadcasts pushed are computed from the payload and the stored
messages alone. When the payload fails to parse, the lookup fails or no message has the
id, nothing is pushed. -/
theorem handleReadReceipt_notifies (e : ReceiptEnv) (w : World) (c : Client) (err : Bool)
    (req : ReadReceiptReq) :
    (handleReadReceipt e w c err req).broadcast
      = w.broadcast ++
        (if err || !e.findOk then []
         else ((w.db.messages.find? (fun m => m.ID = mustObjectID req.MessageID)).map
            (fun m => (⟨m.SenderID.Hex, .status_update req.MessageID "read"⟩ :
              BroadcastMessage))).toList) := by
  cases err with
  | true => simp [handleReadReceipt]
  | false =>
    cases hf : e.findOk with
    | false => simp [handleReadReceipt, hf]
    | true =>
      have hs := UpdateStatus_find_sender w.db e.now e.updateOk req.MessageID c.UserID "read"
        (mustObjectID req.MessageID)
      unfold handleReadReceipt
      simp only [Bool.false_eq_true, if_false, hf, if_true, Bool.or_self, Bool.not_true]
      cases h1 : (UpdateStatus w.db e.now e.updateOk req.MessageID c.UserID "read").1.messages.find?
          (fun m => m.ID = mustObjectID req.MessageID) with
      | none =>
        rw [h1] at hs
        cases h2 : w.db.messages.find? (fun m => m.ID = mustObjectID req.MessageID) with
        | none => simp
        | some m => rw [h2] at hs; cases hs
      | some m1 =>
        rw [h1] at hs
        cases h2 : w.db.messages.find? (fun m => m.ID = mustObjectID req.MessageID) with
        | none => rw [h2] at hs; cases hs
        | some m =>
          rw [h2] at hs
          simp only [Option.map_some', Option.some.injEq] at hs
          simp [SendToUser, hs]

/-! ## Closed outbound channels: a second unregister, an ack after eviction -/

theorem unregisterClient_panicked (e : UnregisterEnv) (w : World) (c : Client) :
    (unregisterClient e w c).panicked = (w.panicked || (w.chans c.Send).close.2) := by
  unfold unregisterClient
  simp only [SyncMap.Load]
  repeat' split
  all_goals first
    | rfl
    | simp only [(SetOffline_fields _ _ _ _).2.2.1, (SetOffline_fields _ _ _ _).2.2.2.2.2.2.1]

theorem Chan.close_closed (ch : Chan) : ch.close.1.closed = true := by
  unfold Chan.close
  split
  · assumption
  · rfl

theorem Chan.close_of_closed (ch : Chan) (h : ch.closed = true) : ch.close = (ch, true) := by
  unfold Chan.close
  rw [if_pos h]

/-- After `unregisterClient` the outbound channel of the client is closed. -/
theorem unregisterClient_closes (e : UnregisterEnv) (w : World) (c : Client) :
    ((unregisterClient e w c).chans c.Send).closed = true := by
  rw [unregisterClient_chans, Function.update_same]
  exact Chan.close_closed _

/-- `unregisterClient` on a client whose outbound channel is closed panics. -/
theorem unregisterClient_closed_panics (e : UnregisterEnv) (w : World) (c : Client)
    (h : (w.chans c.Send).closed = true) : (unregisterClient e w c).panicked = true := by
  rw [unregisterClient_panicked, Chan.close_of_closed _ h]
  simp

/-- After `unregisterClient` the user of the client has no entry in `userConnections`, or a
non-empty sequence in which the connection id does not occur. -/
theorem unregisterClient_userConnections_after (e : UnregisterEnv) (w : World) (c : Client) :
    (unregisterClient e w c).userConnections c.UserID = none
    ∨ ∃ l, (unregisterClient e w c).userConnections c.UserID = some l
        ∧ l.filter (fun id => id ≠ c.ID) = l ∧ l ≠ [] := by
  rw [unregisterClient_userConnections]
  cases h : w.userConnections c.UserID with
  | none => left; simpa using h
  | some l =>
    simp only []
    by_cases hl : l.filter (fun id => id ≠ c.ID) = []
    · left
      rw [if_pos hl]
      simp [SyncMap.Delete]
    · right
      refine ⟨l.filter (fun id => id ≠ c.ID), ?_, ?_, hl⟩
      · rw [if_neg hl]
        simp [SyncMap.Store]
      · simp [List.filter_filter]

/-- The registry and the presence of a world in which the user of the client has no
entry, or an entry without the connection id, are left as they are by `unregisterClient`
once the connection id is no longer registered. -/
theorem unregisterClient_again (e1 e2 : UnregisterEnv) (w : World) (c : Client) :
    (unregisterClient e2 (unregisterClient e1 w c) c).connections
      = (unregisterClient e1 w c).connections
    ∧ (unregisterClient e2 (unregisterClient e1 w c) c).userConnections
      = (unregisterClient e1 w c).userConnections
    ∧ (unregisterClient e2 (unregisterClient e1 w c) c).db.users
      = (unregisterClient e1 w c).db.users
    ∧ (unregisterClient e2 (unregisterClient e1 w c) c).cache
      = (unregisterClient e1 w c).cache := by
  refine ⟨?_, ?_, ?_, ?_⟩
  · rw [unregisterClient_connections, unregisterClient_connections]
    funext k
    simp only [SyncMap.Delete]
    split <;> rfl
  · rw [unregisterClient_userConnections e2]
    rcases unregisterClient_userConnections_after e1 w c with h | ⟨l, h, hf, hne⟩
    · rw [h]
    · rw [h]
      simp only [hf, hne, if_false]
      funext k
      simp only [SyncMap.Store]
      split
      · rename_i hk; rw [hk, h]
      · rfl
  · rw [unregisterClient_users e2]
    rcases unregisterClient_userConnections_after e1 w c with h | ⟨l, h, hf, hne⟩
    · rw [h]
    · rw [h]; simp only [hf, hne, if_false]
  · rw [unregisterClient_cache e2]
    rcases unregisterClient_userConnections_after e1 w c with h | ⟨l, h, hf, hne⟩
    · rw [h]
    · rw [h]; simp only [hf, hne, if_false]

/-- C29. `unregisterClient` applied to a client that has already been unregistered leaves
`connections`, `userConnections`, the stored presence and the presence cache as the first
application left them, but it closes the outbound channel again: the channel is closed
after the first application, `close` of a closed channel panics, and the second
application panics in every state. -/
theorem unregisterClient_twice_panics (e1 e2 : UnregisterEnv) (w : World) (c : Client) :
    ((unregisterClient e1 w c).chans c.Send).closed = true
    ∧ (unregisterClient e2 (unregisterClient e1 w c) c).panicked = true
    ∧ (unregisterClient e2 (unregisterClient e1 w c) c).connections
      = (unregisterClient e1 w c).connections
    ∧ (unregisterClient e2 (unregisterClient e1 w c) c).userConnections
      = (unregisterClient e1 w c).userConnections
    ∧ (unregisterClient e2 (unregisterClient e1 w c) c).db.users
      = (unregisterClient e1 w c).db.users
    ∧ (unregisterClient e2 (unregisterClient e1 w c) c).cache
      = (unregisterClient e1 w c).cache :=
  ⟨unregisterClient_closes e1 w c,
   unregisterClient_closed_panics e2 _ c (unregisterClient_closes e1 w c),
   unregisterClient_again e1 e2 w c⟩

theorem World.chanSend_closed_panics (w : World) (h : Nat) (x : Bytes)
    (hc : (w.chans h).closed = true) : (w.chanSend h x).panicked = true := by
  simp [World.chanSend, Chan.send, Chan.trySend, hc]

theorem afterPersist_closed_panics (marshal : Frame → Option Bytes) (e : SendEnv) (w : World)
    (c : Client) (req : SendMessageReq) (db : Database) (msg : Message)
    (hc : (w.chans c.Send).closed = true) :
    (afterPersist marshal e w c req db msg).panicked = true := by
  unfold afterPersist
  simp only []
  apply World.chanSend_closed_panics
  split <;> exact hc

/-- C23. Dispatching a `send_message` frame that carries a `temp_id` on the read pump of a
session whose outbound channel is closed sends an ack on the closed channel, whichever
way the call ends (payload not parsed, conversation not resolved, message not saved,
message persisted), and the send panics. -/
theorem ack_on_closed_channel_panics (marshal : Frame → Option Bytes) (e : SendEnv) (w : World)
    (c : Client) (d : Decoded) (hc : (w.chans c.Send).closed = true)
    (ht : d.req.TempID ≠ "") :
    (handleSendMessage marshal e w c d).panicked = true := by
  rcases handleSendMessage_cases marshal e w c d with
    ⟨_, h⟩ | ⟨_, _, h⟩ | ⟨_, db1, conv, _, _, _, _, h⟩ |
    ⟨_, db1, conv, db2, msg, _, _, _, _, _, h⟩
  · rw [h, if_pos ht]
    exact World.chanSend_closed_panics _ _ _ hc
  · rw [h, if_pos ht]
    exact World.chanSend_closed_panics _ _ _ hc
  · rw [h, if_pos ht]
    exact World.chanSend_closed_panics _ _ _ hc
  · rw [h]
    exact afterPersist_closed_panics marshal e w c d.req db2 msg hc

theorem ack_on_closed_channel_panics_witness :
    (∃ reg, Reachable sampleMarshal sampleConfig sampleDB reg
      (unregisterClient (unregEnv 15) sampleWorld sessionA1) ∧ sessionA1 ∈ reg)
    ∧ ((unregisterClient (unregEnv 15) sampleWorld sessionA1).chans sessionA1.Send).closed = true
    ∧ (unregisterClient (unregEnv 15) sampleWorld sessionA1).panicked = false
    ∧ sendHi.req.TempID ≠ ""
    ∧ (handleSendMessage sampleMarshal sendEnvOk
        (unregisterClient (unregEnv 15) sampleWorld sessionA1) sessionA1 sendHi).panicked
      = true :=
  ⟨⟨_, Reachable.unregister _ _ (unregEnv 15) sessionA1
      (Reachable.connect _ _ (regEnv 12 102) bobID "conn-b1"
        (Reachable.connect _ _ (regEnv 11 101) aliceID "conn-a2"
          (Reachable.connect _ _ (regEnv 10 100) aliceID "conn-a1" Reachable.init (by simp))
          (by simp [HandleWebSocket, newClient]))
        (by simp [HandleWebSocket, newClient]))
      (by decide),
    by decide⟩,
   by decide, by decide, by decide,
   ack_on_closed_channel_panics sampleMarshal sendEnvOk
     (unregisterClient (unregEnv 15) sampleWorld sessionA1) sessionA1 sendHi (by decide)
     (by decide)⟩

/-! ## The order of the drained messages -/

/-- C26, the claim as stated fails. Two `QueueOfflineMessage` calls queue for bob first
the message stored second, then the message stored first; the entries are read in the
order of their creation times, and the messages are returned in the order the messages
collection holds them, which is the opposite one. -/
theorem drain_order_counterexample :
    (QueueOfflineMessage
        (QueueOfflineMessage twoMsgDB 30 (ObjectID.ofNat 600) true bobID (ObjectID.ofNat 501)
          (ObjectID.ofNat 400)).1
        31 (ObjectID.ofNat 601) true bobID (ObjectID.ofNat 500) (ObjectID.ofNat 400)).1
      = lateQueueDB
    ∧ (queuePage lateQueueDB (ObjectID.ofNat 2) 100).map (fun q => q.MessageID)
      = [ObjectID.ofNat 501, ObjectID.ofNat 500]
    ∧ (GetQueuedMessages lateQueueDB true true true bobID 100).2
      = .ok [sampleMessage, sampleMessage2]
    ∧ [sampleMessage, sampleMessage2].map (fun m => m.ID)
      = [ObjectID.ofNat 500, ObjectID.ofNat 501] :=
  ⟨rfl, by decide, rfl, by decide⟩

/-- C26, amended. The list a successful `GetQueuedMessages` returns holds exactly the
stored messages that the entries read reference, in the order in which the messages
collection holds them: it is a sublist of that collection, whatever the order of the
queue entries. -/
theorem GetQueuedMessages_store_order (db db1 : Database) (findOk msgFindOk deleteOk : Bool)
    (userID : String) (uid : ObjectID) (limit : Nat) (X : List Message)
    (hid : ObjectIDFromHex userID = some uid)
    (h : GetQueuedMessages db findOk msgFindOk deleteOk userID limit = (db1, .ok X)) :
    X.Sublist db.messages
    ∧ ∀ msg, msg ∈ X ↔
        msg ∈ db.messages ∧ msg.ID ∈ (queuePage db uid limit).map (fun q => q.MessageID) := by
  obtain ⟨hX, _, _⟩ := GetQueuedMessages_ok_inv db db1 findOk msgFindOk deleteOk userID uid
    limit X hid h
  rw [hX]
  refine ⟨List.filter_sublist _, fun msg => ?_⟩
  rw [List.mem_filter]
  simp

theorem GetQueuedMessages_store_order_witness :
    ObjectIDFromHex bobID = some (ObjectID.ofNat 2)
    ∧ GetQueuedMessages lateQueueDB true true true bobID 100
      = ({ lateQueueDB with message_queue := [] }, .ok [sampleMessage, sampleMessage2])
    ∧ [sampleMessage, sampleMessage2].Sublist lateQueueDB.messages :=
  ⟨by decide, rfl,
   (GetQueuedMessages_store_order lateQueueDB { lateQueueDB with message_queue := [] }
     true true true bobID (ObjectID.ofNat 2) 100 [sampleMessage, sampleMessage2] (by decide)
     rfl).1⟩

/-! ## The conversation a message is attached to -/

theorem parseIDs_mem (A B : String) (a : ObjectID) (ps : List ObjectID)
    (ha : ObjectIDFromHex A = some a) (h : parseIDs [A, B] = some ps) : a ∈ ps := by
  unfold parseIDs at h
  rw [ha] at h
  simp only [] at h
  split at h
  · cases h
  · cases h
    exact List.mem_cons_self _ _

/-- The conversation `GetOrCreateConversation` returns is stored and has every parsed user
id among its participants. -/
theorem GetOrCreateConversation_participants (db db1 : Database) (now : Time)
    (newID : ObjectID) (findOk insertOk : Bool) (userIDs : List String) (conv : Conversation)
    (h : GetOrCreateConversation db now newID findOk insertOk userIDs = (db1, .ok conv)) :
    ∃ ps, parseIDs userIDs = some ps ∧ conv ∈ db1.conversations
      ∧ ∀ p ∈ ps, p ∈ conv.Participants := by
  unfold GetOrCreateConversation at h
  cases hp : parseIDs userIDs with
  | none => rw [hp] at h; cases h
  | some ps =>
    rw [hp] at h
    simp only [] at h
    refine ⟨ps, rfl, ?_⟩
    cases findOk with
    | false => cases h
    | true =>
      simp only [Bool.not_true, Bool.false_eq_true, if_false] at h
      cases hf : db.conversations.find? (directFilter ps) with
      | some c0 =>
        rw [hf] at h
        simp only [Prod.mk.injEq, Except.ok.injEq] at h
        obtain ⟨rfl, rfl⟩ := h
        refine ⟨List.mem_of_find?_eq_some hf, ?_⟩
        have hd := List.find?_some hf
        unfold directFilter at hd
        simp only [Bool.and_eq_true, List.all_eq_true, List.contains_eq_any_beq,
          List.any_eq_true, beq_iff_eq] at hd
        intro p hpm
        obtain ⟨x, hx, hxe⟩ := hd.1.2 p hpm
        exact hxe ▸ hx
      | none =>
        rw [hf] at h
        cases insertOk with
        | false => cases h
        | true =>
          simp only [Bool.not_true, Bool.false_eq_true, if_false, Prod.mk.injEq,
            Except.ok.injEq] at h
          obtain ⟨rfl, rfl⟩ := h
          exact ⟨by simp, fun p hpm => hpm⟩

theorem resolveConversation_unmatched (e : SendEnv) (db : Database) (c : Client)
    (req : SendMessageReq)
    (h : req.ConversationID = "" ∨
      db.conversations.find? (fun conv => conv.ID = mustObjectID req.ConversationID) = none) :
    resolveConversation e db c req
      = GetOrCreateConversation db e.now e.newConvID e.lookupConvOk e.insertConvOk
          [c.UserID, req.RecipientID] := by
  unfold resolveConversation
  rcases h with h | h
  · simp [h]
  · simp only [h, ite_self]

/-- `CreateMessage` keeps the id and the participants of every conversation. -/
theorem CreateMessage_conversations (db : Database) (now : Time) (newID : ObjectID)
    (insertOk updateOk : Bool) (msg : Message) :
    (CreateMessage db now newID insertOk updateOk msg).1.conversations.map
        (fun c => (c.ID, c.Participants))
      = db.conversations.map (fun c => (c.ID, c.Participants)) := by
  unfold CreateMessage updateConversationLastMessage
  cases insertOk <;> cases updateOk <;>
    simp only [Bool.not_true, Bool.not_false, Bool.false_eq_true, if_false, if_true]
  refine updateOne_map_key (fun c : Conversation => (c.ID, c.Participants)) _ _ ?_ _
  intro x
  rfl

/-- `UpdateStatus` keeps, at every position of the messages collection, the sender and the
conversation of the message. -/
theorem UpdateStatus_getElem?_map (db : Database) (now : Time) (ok : Bool)
    (messageID userID status : String) (i : Nat) :
    ((UpdateStatus db now ok messageID userID status).1.messages[i]?).map
        (fun m => (m.SenderID, m.ConversationID))
      = (db.messages[i]?).map (fun m => (m.SenderID, m.ConversationID)) := by
  unfold UpdateStatus
  repeat' split
  all_goals first
    | rfl
    | (simp only []
       rcases getElem?_updateOne _ (setDeliveryStatus _ _ _) db.messages i with h | ⟨x, hx, _, h⟩
       · rw [h]
       · rw [h, hx]; rfl)

/-- C27, the claim as stated fails. Alice sends a `send_message` frame that names the
conversation of bob and carol: the message is persisted with alice as its sender and
attached to that conversation, of which alice is not a participant. -/
theorem foreign_conversation_counterexample :
    mustObjectID sendIntoBC.req.ConversationID = convBC.ID
    ∧ (handleSendMessage sampleMarshal sendEnvOk bcWorld sessionA1 sendIntoBC).db.messages.map
        (fun m => (m.SenderID, m.ConversationID)) = [(ObjectID.ofNat 1, ObjectID.ofNat 401)]
    ∧ (handleSendMessage sampleMarshal sendEnvOk bcWorld sessionA1
        sendIntoBC).db.conversations.map (fun c => (c.ID, c.Participants))
      = [(ObjectID.ofNat 401, [ObjectID.ofNat 2, ObjectID.ofNat 3])]
    ∧ mustObjectID sessionA1.UserID = ObjectID.ofNat 1
    ∧ ObjectID.ofNat 1 ∉ convBC.Participants := by
  refine ⟨?_, ?_, ?_, ?_, ?_⟩ <;> decide

/-- C27, amended. For a `send_message` frame that names no conversation, or names an id no
stored conversation has, dispatched on a session whose user id is well formed: either no
message is persisted, or exactly one message is appended to the messages collection, its
sender is the user of the session, and the store holds the conversation it is attached
to with that user among the participants. -/
theorem sender_in_conversation (marshal : Frame → Option Bytes) (e : SendEnv) (w : World)
    (c : Client) (d : Decoded) (uid : ObjectID)
    (hid : ObjectIDFromHex c.UserID = some uid)
    (hno : d.req.ConversationID = "" ∨
      w.db.conversations.find?
        (fun conv => conv.ID = mustObjectID d.req.ConversationID) = none) :
    (handleSendMessage marshal e w c d).db.messages = w.db.messages
    ∨ ∃ m conv,
        (handleSendMessage marshal e w c d).db.messages.length = w.db.messages.length + 1
        ∧ (handleSendMessage marshal e w c d).db.messages[w.db.messages.length]? = some m
        ∧ m.SenderID = uid
        ∧ conv ∈ (handleSendMessage marshal e w c d).db.conversations
        ∧ conv.ID = m.ConversationID
        ∧ uid ∈ conv.Participants := by
  rcases handleSendMessage_cases marshal e w c d with
    ⟨_, h⟩ | ⟨_, _, h⟩ | ⟨_, db1, conv, _, _, hm1, _, h⟩ |
    ⟨_, db1, conv, db2, msg, hres, hins, hcreate, hm2, _, h⟩
  · left; rw [h]; split
    · rw [(sendErrorAck_fields _ _ _ _ _).1]
    · rfl
  · left; rw [h]; split
    · rw [(sendErrorAck_fields _ _ _ _ _).1]
    · rfl
  · left; rw [h]; split
    · rw [(sendErrorAck_fields _ _ _ _ _).1]; exact hm1
    · exact hm1
  · right
    rw [resolveConversation_unmatched e w.db c d.req hno] at hres
    obtain ⟨ps, hps, hconv, hpart⟩ := GetOrCreateConversation_participants _ _ _ _ _ _ _ _ hres
    have huid : uid ∈ conv.Participants := hpart uid (parseIDs_mem _ _ uid ps hid hps)
    -- the message as persisted
    have hmsg : msg.SenderID = uid ∧ msg.ConversationID = conv.ID := by
      rcases CreateMessage_cases db1 e.now e.newMsgID e.insertMsgOk e.updateLastOk
          (newMessage e c d.req conv) with ⟨hf, _⟩ | ⟨_, db3, m3, hc3, hm3, _⟩
      · rw [hins] at hf; cases hf
      · rw [hcreate] at hc3
        simp only [Prod.mk.injEq, and_true] at hc3
        rw [hc3.2, hm3]
        exact ⟨by simp [newMessage, mustObjectID, hid], rfl⟩
    -- the conversation after the last-message update
    have hkey := CreateMessage_conversations db1 e.now e.newMsgID e.insertMsgOk e.updateLastOk
      (newMessage e c d.req conv)
    rw [hcreate] at hkey
    have hin : (conv.ID, conv.Participants) ∈
        db2.conversations.map (fun c => (c.ID, c.Participants)) := by
      rw [hkey]; exact List.mem_map_of_mem _ hconv
    obtain ⟨conv2, hconv2, hkey2⟩ := List.mem_map.1 hin
    simp only [Prod.mk.injEq] at hkey2
    have hat : db2.messages[w.db.messages.length]? = some msg := by
      rw [hm2]; simp
    rw [h, (afterPersist_fields marshal e w c d.req db2 msg).2.1]
    split
    · obtain ⟨_, _, hcv, hids⟩ := UpdateStatus_frame db2 e.now e.updateStatusOk msg.ID.Hex
        d.req.RecipientID "delivered"
      have hget := UpdateStatus_getElem?_map db2 e.now e.updateStatusOk msg.ID.Hex
        d.req.RecipientID "delivered" w.db.messages.length
      rw [hat] at hget
      obtain ⟨m, hm, hmk⟩ := Option.map_eq_some'.1 hget
      simp only [Prod.mk.injEq] at hmk
      refine ⟨m, conv2, ?_, hm, hmk.1.trans hmsg.1, hcv ▸ hconv2, ?_, hkey2.2 ▸ huid⟩
      · have := congrArg List.length hids
        simp only [List.length_map] at this
        rw [this, hm2]; simp
      · rw [hkey2.1, hmk.2, hmsg.2]
    · refine ⟨msg, conv2, by rw [hm2]; simp, hat, hmsg.1, hconv2, ?_, hkey2.2 ▸ huid⟩
      rw [hkey2.1, hmsg.2]

theorem sender_in_conversation_witness :
    ObjectIDFromHex sessionA1.UserID = some (ObjectID.ofNat 1)
    ∧ sendHi.req.ConversationID = ""
    ∧ (handleSendMessage sampleMarshal sendEnvOk sampleWorld sessionA1 sendHi).db.messages.map
        (fun m => (m.SenderID, m.ConversationID)) = [(ObjectID.ofNat 1, ObjectID.ofNat 400)]
    ∧ (handleSendMessage sampleMarshal sendEnvOk sampleWorld sessionA1
        sendHi).db.conversations.map (fun c => (c.ID, c.Participants))
      = [(ObjectID.ofNat 400, [ObjectID.ofNat 1, ObjectID.ofNat 2])]
    ∧ ((handleSendMessage sampleMarshal sendEnvOk sampleWorld sessionA1 sendHi).db.messages
          = sampleWorld.db.messages
        ∨ ∃ m conv,
          (handleSendMessage sampleMarshal sendEnvOk sampleWorld sessionA1
            sendHi).db.messages.length = sampleWorld.db.messages.length + 1
          ∧ (handleSendMessage sampleMarshal sendEnvOk sampleWorld sessionA1
            sendHi).db.messages[sampleWorld.db.messages.length]? = some m
          ∧ m.SenderID = ObjectID.ofNat 1
          ∧ conv ∈ (handleSendMessage sampleMarshal sendEnvOk sampleWorld sessionA1
            sendHi).db.conversations
          ∧ conv.ID = m.ConversationID
          ∧ ObjectID.ofNat 1 ∈ conv.Participants) :=
  ⟨by decide, by decide, by decide, by decide,
   sender_in_conversation sampleMarshal sendEnvOk sampleWorld sessionA1 sendHi
     (ObjectID.ofNat 1) (by decide) (Or.inl (by decide))⟩

/-! ## The order of the ack and the delivered update -/

theorem afterPersist_split (marshal : Frame → Option Bytes) (e : SendEnv) (w : World)
    (c : Client) (req : SendMessageReq) (db : Database) (msg : Message) :
    afterPersist marshal e w c req db msg
      = sendAck marshal (beforeAck e w c req db msg) c req msg := rfl

theorem beforeAck_fields (e : SendEnv) (w : World) (c : Client) (req : SendMessageReq)
    (db : Database) (msg : Message) :
    (beforeAck e w c req db msg).broadcast =
        w.broadcast ++ [⟨req.RecipientID, .new_message msg⟩] ++
          (if hasLiveSession w req.RecipientID
           then [⟨c.UserID, .status_update msg.ID.Hex "delivered"⟩] else [])
    ∧ (beforeAck e w c req db msg).chans = w.chans
    ∧ (beforeAck e w c req db msg).panicked = w.panicked := by
  have hlive : hasLiveSession (SendToUser { w with db := db } req.RecipientID
      (.new_message msg)) req.RecipientID = hasLiveSession w req.RecipientID := rfl
  unfold beforeAck
  simp only [hlive]
  cases hasLiveSession w req.RecipientID <;> simp [SendToUser]

theorem sendAck_fields (marshal : Frame → Option Bytes) (w : World) (c : Client)
    (req : SendMessageReq) (msg : Message) :
    (sendAck marshal w c req msg).broadcast = w.broadcast
    ∧ (sendAck marshal w c req msg).chans
      = Function.update w.chans c.Send
          ((w.chans c.Send).send
            ((marshal (.message_ack req.TempID msg.ID.Hex msg.Timestamp "sent")).getD "")).1
    ∧ (sendAck marshal w c req msg).db = w.db := by
  simp [sendAck, World.chanSend]

/-- C24, the claim as stated fails. In the sample world alice sends "hi" to bob, who has a
live session. `handleSendMessage` is the statements up to the ack followed by the ack; when
the ack statement is reached the delivered `status_update` toward alice has already been
pushed on the broadcast queue and the buffer of her session is still empty. When the
coordinator serves the two pending broadcasts before the ack is sent, the buffer of the
session holds the `status_update` first and the ack second. -/
theorem ack_order_counterexample :
    handleSendMessage sampleMarshal sendEnvOk sampleWorld sessionA1 sendHi
      = sendAck sampleMarshal
          (beforeAck sendEnvOk sampleWorld sessionA1 sendHi.req persistedDB sampleMessage)
          sessionA1 sendHi.req sampleMessage
    ∧ (beforeAck sendEnvOk sampleWorld sessionA1 sendHi.req persistedDB sampleMessage).broadcast
      = [⟨bobID, .new_message sampleMessage⟩,
         ⟨aliceID, .status_update "0000000000000000000001f4" "delivered"⟩]
    ∧ ((beforeAck sendEnvOk sampleWorld sessionA1 sendHi.req persistedDB sampleMessage).chans
        sessionA1.Send).buf = []
    ∧ ((sendAck sampleMarshal
          (broadcastToUser sampleMarshal
            (broadcastToUser sampleMarshal
              (beforeAck sendEnvOk sampleWorld sessionA1 sendHi.req persistedDB sampleMessage)
              ⟨bobID, .new_message sampleMessage⟩)
            ⟨aliceID, .status_update "0000000000000000000001f4" "delivered"⟩)
          sessionA1 sendHi.req sampleMessage).chans sessionA1.Send).buf
      = ["status_update:0000000000000000000001f4:delivered",
         "message_ack:t1:0000000000000000000001f4:sent"] :=
  ⟨(handleSendMessage_persisted sampleMarshal sendEnvOk sampleWorld sessionA1 sendHi
      (resolveConversation sendEnvOk sampleWorld.db sessionA1 sendHi.req).1 persistedDB
      sampleConversation sampleMessage rfl rfl rfl).trans
      (afterPersist_split _ _ _ _ _ _ _),
   by decide, by decide, by decide⟩

/-- C24, amended. For a `send_message` whose message is persisted and whose recipient has a
live session, `handleSendMessage` first pushes on the broadcast queue the `new_message`
toward the recipient and the delivered `status_update` toward the user of the sending
session, touching no channel, and only then sends the positive ack on the channel of the
sending session, pushing nothing more: toward the sender the `status_update` is emitted
before the ack, each exactly once. -/
theorem status_update_pushed_before_ack (marshal : Frame → Option Bytes) (e : SendEnv)
    (w : World) (c : Client) (d : Decoded) (db1 db2 : Database) (conv : Conversation)
    (msg : Message) (h : d.err = false)
    (hc : resolveConversation e w.db c d.req = (db1, .ok conv))
    (hm : CreateMessage db1 e.now e.newMsgID e.insertMsgOk e.updateLastOk
      (newMessage e c d.req conv) = (db2, msg, none))
    (hlive : hasLiveSession w d.req.RecipientID = true) :
    handleSendMessage marshal e w c d
      = sendAck marshal (beforeAck e w c d.req db2 msg) c d.req msg
    ∧ (beforeAck e w c d.req db2 msg).broadcast
      = w.broadcast ++ [⟨d.req.RecipientID, .new_message msg⟩,
          ⟨c.UserID, .status_update msg.ID.Hex "delivered"⟩]
    ∧ (beforeAck e w c d.req db2 msg).chans = w.chans
    ∧ (handleSendMessage marshal e w c d).broadcast = (beforeAck e w c d.req db2 msg).broadcast
    ∧ (handleSendMessage marshal e w c d).chans
      = Function.update w.chans c.Send
          ((w.chans c.Send).send
            ((marshal (.message_ack d.req.TempID msg.ID.Hex msg.Timestamp "sent")).getD "")).1 := by
  have hsplit : handleSendMessage marshal e w c d
      = sendAck marshal (beforeAck e w c d.req db2 msg) c d.req msg :=
    (handleSendMessage_persisted marshal e w c d db1 db2 conv msg h hc hm).trans
      (afterPersist_split _ _ _ _ _ _ _)
  obtain ⟨hb, hch, _⟩ := beforeAck_fields e w c d.req db2 msg
  obtain ⟨sb, sch, _⟩ := sendAck_fields marshal (beforeAck e w c d.req db2 msg) c d.req msg
  rw [hlive, if_pos rfl] at hb
  refine ⟨hsplit, ?_, hch, ?_, ?_⟩
  · rw [hb]; simp
  · rw [hsplit, sb]
  · rw [hsplit, sch, hch]

theorem status_update_pushed_before_ack_witness :
    sendHi.err = false
    ∧ hasLiveSession sampleWorld sendHi.req.RecipientID = true
    ∧ (handleSendMessage sampleMarshal sendEnvOk sampleWorld sessionA1 sendHi).broadcast
      = (beforeAck sendEnvOk sampleWorld sessionA1 sendHi.req persistedDB
          sampleMessage).broadcast
    ∧ ((broadcastToUser sampleMarshal
          (broadcastToUser sampleMarshal
            (handleSendMessage sampleMarshal sendEnvOk sampleWorld sessionA1 sendHi)
            ⟨bobID, .new_message sampleMessage⟩)
          ⟨aliceID, .status_update "0000000000000000000001f4" "delivered"⟩).chans
        sessionA1.Send).buf
      = ["message_ack:t1:0000000000000000000001f4:sent",
         "status_update:0000000000000000000001f4:delivered"] :=
  ⟨rfl, by decide,
   (status_update_pushed_before_ack sampleMarshal sendEnvOk sampleWorld sessionA1 sendHi
      (resolveConversation sendEnvOk sampleWorld.db sessionA1 sendHi.req).1 persistedDB
      sampleConversation sampleMessage rfl rfl rfl (by decide)).2.2.2.1,
   by decide⟩

/-! ## The password hash stays in the service -/

/-- C21. Every user value returned by `GetByID`, `Search`, `GetContacts`, `Register` and
`Login` has an empty password hash, for every store content, every input, every verdict
of the store and every behaviour of the regular-expression, `bcrypt` and `jwt`
libraries. -/
theorem password_hash_never_returned (regexMatch : String → String → Bool)
    (compare : String → String → Bool) (sign : String → String → Time → Option String)
    (db : Database) :
    (∀ findOk userID u, GetByID db findOk userID = .ok u → u.PasswordHash = "")
    ∧ (∀ findOk query limit us, Search regexMatch db findOk query limit = .ok us →
        ∀ u ∈ us, u.PasswordHash = "")
    ∧ (∀ aggregateOk userID us, GetContacts db aggregateOk userID = .ok us →
        ∀ u ∈ us, u.PasswordHash = "")
    ∧ (∀ e req db1 r, Register sign db e req = (db1, .ok r) → r.User.PasswordHash = "")
    ∧ (∀ now findOk req r, Login compare sign db now findOk req = .ok r →
        r.User.PasswordHash = "") := by
  refine ⟨?_, ?_, ?_, ?_, ?_⟩
  · intro findOk userID u h
    unfold GetByID at h
    repeat' split at h
    all_goals (cases h; try rfl)
  · intro findOk query limit us h u hu
    unfold Search at h
    split at h
    · cases h
    · cases h
      rw [List.mem_map] at hu
      obtain ⟨x, _, rfl⟩ := hu
      rfl
  · intro aggregateOk userID us h u hu
    unfold GetContacts at h
    repeat' split at h
    · cases h
    · cases h
    · cases h
      rw [List.mem_map] at hu
      obtain ⟨x, _, rfl⟩ := hu
      rfl
  · intro e req db1 r h
    unfold Register at h
    split at h
    · cases h
    · cases hh : e.hashed with
      | none => rw [hh] at h; cases h
      | some hp =>
        rw [hh] at h
        cases hi : e.insert with
        | duplicateKey => rw [hi] at h; cases h
        | failed => rw [hi] at h; cases h
        | inserted =>
          rw [hi] at h
          simp only [] at h
          split at h
          · cases h
          · cases h; rfl
  · intro now findOk req r h
    unfold Login at h
    repeat' split at h
    all_goals (cases h; try rfl)

theorem password_hash_never_returned_witness :
    contactsDB.users.map (fun u => u.PasswordHash) = ["hash", "hash"]
    ∧ (∃ u, GetByID contactsDB true aliceID = .ok u ∧ u.PasswordHash = "")
    ∧ (∃ us, Search sampleRegex contactsDB true "alice" 20 = .ok us ∧ us.length = 1
        ∧ ∀ u ∈ us, u.PasswordHash = "")
    ∧ (∃ us, GetContacts contactsDB true aliceID = .ok us ∧ us.length = 1
        ∧ ∀ u ∈ us, u.PasswordHash = "")
    ∧ (∃ db1 r, Register sampleSign contactsDB authEnvOk ⟨"carol", "", "", "pw"⟩ = (db1, .ok r)
        ∧ db1.users.map (fun u => u.PasswordHash) = ["hash", "hash", "hash-of-pw"]
        ∧ r.User.PasswordHash = "")
    ∧ (∃ r, Login sampleCompare sampleSign contactsDB 60 true ⟨"alice", "secret"⟩ = .ok r
        ∧ r.User.PasswordHash = "") :=
  ⟨by decide,
   ⟨_, rfl, (password_hash_never_returned sampleRegex sampleCompare sampleSign contactsDB).1
      true aliceID _ rfl⟩,
   ⟨_, rfl, by decide,
     (password_hash_never_returned sampleRegex sampleCompare sampleSign contactsDB).2.1
      true "alice" 20 _ rfl⟩,
   ⟨_, rfl, by decide,
     (password_hash_never_returned sampleRegex sampleCompare sampleSign contactsDB).2.2.1
      true aliceID _ rfl⟩,
   ⟨_, _, rfl, by decide,
     (password_hash_never_returned sampleRegex sampleCompare sampleSign contactsDB).2.2.2.1
      authEnvOk ⟨"carol", "", "", "pw"⟩ _ _ rfl⟩,
   ⟨_, rfl, (password_hash_never_returned sampleRegex sampleCompare sampleSign contactsDB).2.2.2.2
      60 true ⟨"alice", "secret"⟩ _ rfl⟩⟩

/-! ## Who writes the stored presence -/

/-- The dispatcher of `send_message` leaves the users collection as it is. -/
theorem handleSendMessage_users (marshal : Frame → Option Bytes) (e : SendEnv) (w : World)
    (c : Client) (d : Decoded) : (handleSendMessage marshal e w c d).db.users = w.db.users := by
  have hr := (resolveConversation_frame e w.db c d.req).2.2
  rcases handleSendMessage_cases marshal e w c d with
    ⟨_, h⟩ | ⟨_, _, h⟩ | ⟨_, db1, conv, hres, _, _, _, h⟩ |
    ⟨_, db1, conv, db2, msg, hres, hins, hcreate, _, _, h⟩
  · rw [h]; split
    · rw [(sendErrorAck_fields _ _ _ _ _).1]
    · rfl
  · rw [h]; split
    · rw [(sendErrorAck_fields _ _ _ _ _).1]
    · rfl
  · rw [hres] at hr
    rw [h]; split
    · rw [(sendErrorAck_fields _ _ _ _ _).1]; exact hr
    · exact hr
  · rw [hres] at hr
    have hu2 : db2.users = db1.users := by
      rcases CreateMessage_cases db1 e.now e.newMsgID e.insertMsgOk e.updateLastOk
          (newMessage e c d.req conv) with ⟨hf, _⟩ | ⟨_, db3, m3, hc3, _, _, _, hu3⟩
      · rw [hins] at hf; cases hf
      · rw [hcreate] at hc3
        simp only [Prod.mk.injEq, and_true] at hc3
        rw [hc3.1]; exact hu3
    rw [h, (afterPersist_fields marshal e w c d.req db2 msg).2.1]
    split
    · rw [(UpdateStatus_frame _ _ _ _ _ _).2.1, hu2]; exact hr
    · rw [hu2]; exact hr

/-! ## Who writes the stored presence: the profile update on raw documents -/

theorem getField_setField_ne (d : Doc) (seg k : String) (x : Value) (h : seg ≠ k) :
    getField (setField d seg x) k = getField d k := by
  induction d with
  | nil => simp [setField, getField, h]
  | cons a t ih =>
    obtain ⟨k1, v1⟩ := a
    by_cases h1 : k1 = seg
    · subst h1
      simp [setField, getField, h]
    · by_cases h2 : k1 = k
      · subst h2
        simp [setField, getField, h1]
      · simp [setField, getField, h1, h2, ih]

theorem getField_setField_self (d : Doc) (seg : String) (x : Value) :
    getField (setField d seg x) seg = some x := by
  induction d with
  | nil => simp [setField, getField]
  | cons a t ih =>
    obtain ⟨k1, v1⟩ := a
    by_cases h1 : k1 = seg
    · simp [setField, getField, h1]
    · simp [setField, getField, h1, ih]

/-- One `$set` entry changes no field other than the first segment of its path. -/
theorem setPath_other (p : List String) (v : Value) (d d1 : Doc) (k : String)
    (hp : p.head? ≠ some k) (h : setPath p v d = some d1) :
    getField d1 k = getField d k := by
  cases p with
  | nil => simp [setPath] at h
  | cons seg rest =>
    simp only [setPath, Option.map_eq_some'] at h
    obtain ⟨x, _, hx⟩ := h
    rw [← hx]
    refine getField_setField_ne d seg k x ?_
    intro hs
    exact hp (by simp [hs])

theorem applySet_other (m : UpdateMap) (k : String)
    (hm : ∀ kv ∈ m, (segments kv.1).head? ≠ some k) (d d1 : Doc)
    (h : applySet m d = some d1) : getField d1 k = getField d k := by
  induction m generalizing d with
  | nil =>
    simp only [applySet, Option.some.injEq] at h
    rw [h]
  | cons a t ih =>
    obtain ⟨k1, v1⟩ := a
    simp only [applySet] at h
    cases hs : setPath (segments k1) v1 d with
    | none => simp [hs] at h
    | some d2 =>
      simp only [hs] at h
      rw [ih (fun kv hkv => hm kv (List.mem_cons_of_mem _ hkv)) d2 h]
      exact setPath_other _ v1 d d2 k (hm (k1, v1) (List.mem_cons_self _ _)) hs

theorem updateFirst_map {β : Type} (g : Doc → β) (p : Doc → Bool) (f : Doc → Option Doc)
    (hf : ∀ d d1, f d = some d1 → g d1 = g d) (l l1 : List Doc)
    (h : updateFirst p f l = some l1) : l1.map g = l.map g := by
  induction l generalizing l1 with
  | nil =>
    simp only [updateFirst, Option.some.injEq] at h
    rw [← h]
  | cons a t ih =>
    simp only [updateFirst] at h
    split at h
    · simp only [Option.map_eq_some'] at h
      obtain ⟨d1, hd1, hl⟩ := h
      rw [← hl]
      simp [hf a d1 hd1]
    · simp only [Option.map_eq_some'] at h
      obtain ⟨r1, hr1, hl⟩ := h
      rw [← hl]
      simp [ih r1 hr1]

theorem updateFirst_at (p : Doc → Bool) (f : Doc → Option Doc) (pre : List Doc) (d : Doc)
    (post : List Doc) (hpre : ∀ x ∈ pre, p x = false) (hd : p d = true) :
    updateFirst p f (pre ++ d :: post) = (f d).map (fun d1 => pre ++ d1 :: post) := by
  induction pre with
  | nil => simp [updateFirst, hd]
  | cons a t ih =>
    have ha : p a = false := hpre a (List.mem_cons_self _ _)
    have ih1 := ih (fun x hx => hpre x (List.mem_cons_of_mem _ hx))
    show updateFirst p f (a :: (t ++ d :: post)) = _
    rw [updateFirst, if_neg (by simp [ha]), ih1]
    cases f d <;> rfl

/-- A key that addresses the presence sub-record is none of the keys `Update` adds or
strips. -/
theorem isPresenceKey_ne (k : String) (h : isPresenceKey k = true) :
    k ≠ "updated_at" ∧ k ≠ "password_hash" ∧ k ≠ "_id" := by
  refine ⟨?_, ?_, ?_⟩ <;>
  · rintro rfl
    revert h
    decide

/-- The map `Update` hands to the store holds the presence keys of the map it was given,
and no other. -/
theorem Update_map_presence (m : UpdateMap) (now : Time) :
    (UpdateMap.delete (UpdateMap.delete (UpdateMap.set m "updated_at" (.time now))
        "password_hash") "_id").filter (fun kv => isPresenceKey kv.1)
      = m.filter (fun kv => isPresenceKey kv.1) := by
  have h0 : isPresenceKey "updated_at" = false := by decide
  simp only [UpdateMap.delete, UpdateMap.set, List.filter_append, List.filter_filter,
    List.filter_cons, List.filter_nil]
  rw [if_pos (by decide)]
  simp only [List.filter_cons, List.filter_nil, h0, Bool.false_and, Bool.false_eq_true,
    if_false, List.append_nil]
  refine List.filter_congr ?_
  intro kv _
  cases hk : isPresenceKey kv.1 with
  | false => simp
  | true =>
    obtain ⟨h1, h2, h3⟩ := isPresenceKey_ne kv.1 hk
    simp [h1, h2, h3]

theorem Update_map_other (m : UpdateMap) (now : Time)
    (hm : ∀ kv ∈ m, isPresenceKey kv.1 = false) :
    ∀ kv ∈ UpdateMap.delete (UpdateMap.delete (UpdateMap.set m "updated_at" (.time now))
        "password_hash") "_id", (segments kv.1).head? ≠ some "presence" := by
  intro kv hkv
  have hf : kv ∈ (UpdateMap.delete (UpdateMap.delete (UpdateMap.set m "updated_at"
      (.time now)) "password_hash") "_id").filter (fun kv => isPresenceKey kv.1) →
      False := by
    rw [Update_map_presence]
    intro h
    have := List.mem_filter.1 h
    rw [hm kv this.1] at this
    exact absurd this.2 (by simp)
  intro hh
  exact hf (List.mem_filter.2 ⟨hkv, by simp [isPresenceKey, hh]⟩)

/-- A `$set` whose only presence key is `presence` leaves the value of that key in the
field. -/
theorem applySet_presence_replace (m : UpdateMap) (v : Value)
    (hm : m.filter (fun kv => isPresenceKey kv.1) = [("presence", v)]) (d d1 : Doc)
    (h : applySet m d = some d1) : getField d1 "presence" = some v := by
  induction m generalizing d with
  | nil => simp at hm
  | cons a t ih =>
    obtain ⟨k1, v1⟩ := a
    simp only [applySet] at h
    cases hs : setPath (segments k1) v1 d with
    | none => simp [hs] at h
    | some d2 =>
      simp only [hs] at h
      cases hk : isPresenceKey k1 with
      | false =>
        simp only [List.filter_cons, hk, Bool.false_eq_true, if_false] at hm
        exact ih hm d2 h
      | true =>
        simp only [List.filter_cons, hk, if_true, List.cons.injEq, Prod.mk.injEq] at hm
        obtain ⟨⟨hk1, hv1⟩, ht⟩ := hm
        subst hk1 hv1
        have hseg : segments "presence" = ["presence"] := by decide
        rw [hseg] at hs
        simp only [setPath, setBelow, Option.map_some', Option.some.injEq] at hs
        have hother : ∀ kv ∈ t, (segments kv.1).head? ≠ some "presence" := by
          intro kv hkv hh
          have : kv ∈ t.filter (fun kv => isPresenceKey kv.1) :=
            List.mem_filter.2 ⟨hkv, by simp [isPresenceKey, hh]⟩
          rw [ht] at this
          exact absurd this (List.not_mem_nil _)
        rw [applySet_other t "presence" hother d2 d1 h, ← hs]
        exact getField_setField_self d "presence" v1

/-- A `$set` whose only presence key is `presence.status`, on a document whose presence
is a sub-document, sets the status in that sub-document. -/
theorem applySet_presence_status (m : UpdateMap) (v : Value)
    (hm : m.filter (fun kv => isPresenceKey kv.1) = [("presence.status", v)]) (d d1 : Doc)
    (fields : List (String × Value)) (hd : getField d "presence" = some (.doc fields))
    (h : applySet m d = some d1) :
    getField d1 "presence" = some (.doc (setField fields "status" v)) := by
  induction m generalizing d with
  | nil => simp at hm
  | cons a t ih =>
    obtain ⟨k1, v1⟩ := a
    simp only [applySet] at h
    cases hs : setPath (segments k1) v1 d with
    | none => simp [hs] at h
    | some d2 =>
      simp only [hs] at h
      cases hk : isPresenceKey k1 with
      | false =>
        simp only [List.filter_cons, hk, Bool.false_eq_true, if_false] at hm
        refine ih hm d2 ?_ h
        rw [setPath_other _ v1 d d2 "presence" ?_ hs, hd]
        intro hh
        simp [isPresenceKey, hh] at hk
      | true =>
        simp only [List.filter_cons, hk, if_true, List.cons.injEq, Prod.mk.injEq] at hm
        obtain ⟨⟨hk1, hv1⟩, ht⟩ := hm
        subst hk1 hv1
        have hseg : segments "presence.status" = ["presence", "status"] := by decide
        rw [hseg] at hs
        simp only [setPath, hd, setBelow, Option.map_some', Option.some.injEq] at hs
        have hother : ∀ kv ∈ t, (segments kv.1).head? ≠ some "presence" := by
          intro kv hkv hh
          have : kv ∈ t.filter (fun kv => isPresenceKey kv.1) :=
            List.mem_filter.2 ⟨hkv, by simp [isPresenceKey, hh]⟩
          rw [ht] at this
          exact absurd this (List.not_mem_nil _)
        rw [applySet_other t "presence" hother d2 d1 h, ← hs]
        exact getField_setField_self d "presence" _

/-- An update the store accepts for a stored user: the user's document is replaced by the
`$set` of the map `Update` hands to the store. -/
theorem Update_ok (users : List Doc) (now : Time) (updateOk : Bool) (userID : String)
    (m : UpdateMap) (id : ObjectID) (pre : List Doc) (d : Doc) (post : List Doc)
    (hid : ObjectIDFromHex userID = some id) (hu : users = pre ++ d :: post)
    (hpre : ∀ x ∈ pre, hasID id x = false) (hd : hasID id d = true)
    (hok : (Update users now updateOk userID (some m)).2 = .ok) :
    ∃ d1, applySet (UpdateMap.delete (UpdateMap.delete (UpdateMap.set m "updated_at"
          (.time now)) "password_hash") "_id") d = some d1
      ∧ (Update users now updateOk userID (some m)).1 = pre ++ d1 :: post := by
  simp only [Update, hid] at hok ⊢
  cases hs : usersUpdateOne updateOk id (UpdateMap.delete (UpdateMap.delete
      (UpdateMap.set m "updated_at" (.time now)) "password_hash") "_id") users with
  | none => simp [hs] at hok
  | some us =>
    simp only [hs]
    simp only [usersUpdateOne] at hs
    split at hs
    · simp at hs
    · rw [hu, updateFirst_at _ _ pre d post hpre hd] at hs
      simp only [Option.map_eq_some'] at hs
      obtain ⟨d1, hd1, hus⟩ := hs
      exact ⟨d1, hd1, hus.symm⟩

/-- An update that does not end well writes nothing. -/
theorem Update_failed (users : List Doc) (now : Time) (updateOk : Bool) (userID : String)
    (updates : Option UpdateMap) (h : (Update users now updateOk userID updates).2 ≠ .ok) :
    (Update users now updateOk userID updates).1 = users := by
  unfold Update at h ⊢
  cases hid : ObjectIDFromHex userID with
  | none => rfl
  | some id =>
    cases updates with
    | none => rfl
    | some m =>
      simp only [hid] at h ⊢
      split
      · rfl
      · rename_i hs
        simp [hs] at h

/-- An update map whose paths have one segment each is applied to every document. -/
theorem applySet_presence_only (v : Value) (now : Time) (d : Doc) :
    applySet [("presence", v), ("updated_at", .time now)] d
      = some (setField (setField d "presence" v) "updated_at" (.time now)) := by
  have h1 : segments "presence" = ["presence"] := by decide
  have h2 : segments "updated_at" = ["updated_at"] := by decide
  simp [applySet, h1, h2, setPath, setBelow]

theorem updateFirst_total (p : Doc → Bool) (f : Doc → Option Doc)
    (hf : ∀ d, (f d).isSome = true) (l : List Doc) : (updateFirst p f l).isSome = true := by
  induction l with
  | nil => rfl
  | cons a t ih =>
    rw [updateFirst]
    split
    · have := hf a
      cases hfa : f a with
      | none => rw [hfa] at this; cases this
      | some d1 => rfl
    · cases hr : updateFirst p f t with
      | none => rw [hr] at ih; cases ih
      | some r1 => rfl

/-- C22, the claim as stated fails. In the sample store alice is offline and no session
has ever been registered; her `PUT /api/users/me` with the body
`{"presence.status": "online"}` is answered 200 and her stored document then has the
presence status online; with the body `{"presence": 7}` it is answered 200 as well and
her presence sub-record is then the number. -/
theorem presence_update_counterexample :
    sampleUsers.map presenceStatus = [some (.str "offline"), some (.str "offline")]
    ∧ (World.init sampleConfig sampleDB).userConnections aliceID = none
    ∧ (Handler.UpdateMe sampleUsers 40 true aliceID (some (some presenceUpdate))).2 = 200
    ∧ (Handler.UpdateMe sampleUsers 40 true aliceID (some (some presenceUpdate))).1.map
        presenceStatus = [some (.str "online"), some (.str "offline")]
    ∧ (Handler.UpdateMe sampleUsers 40 true aliceID (some (some presenceReplace))).2 = 200
    ∧ (Handler.UpdateMe sampleUsers 40 true aliceID (some (some presenceReplace))).1.map
        (fun d => getField d "presence")
      = [some (.num 7), some (encodePresence (sampleUser 2 "bob").Presence)] :=
  ⟨rfl, by decide, rfl, rfl, rfl, rfl⟩

/-- C22, amended. The frame handlers of the dispatcher (`send_message`, `read_receipt`,
`typing`) never write a stored user; a profile update is not kept from the presence
sub-record. `Handler.UpdateMe` answers 400 and writes nothing when the
body does not parse, and otherwise stores what `Service.Update` stores and answers 200
when `Update` ends well and 500 when it does not; a nil map (the body `null`) makes
`Update` panic for a well-formed user id, which is answered 500; an `Update` that does
not end well writes nothing. When no key of the map is `presence` or a dotted path below
it, the presence field of every stored user is left as it is. When the only such key is
`presence`, an `Update` that ends well for a stored user replaces the presence field of
that user by the value of the key, whatever the value, and leaves the other documents as
they are; a store that can be reached accepts the map whose only key is `presence` for
every well-formed user id. When the only such key
is `presence.status` and the presence field of the stored user is a sub-document, an
`Update` that ends well sets the status of that sub-document to the value of the key. -/
theorem Update_presence (users : List Doc) (now : Time) (updateOk : Bool) (userID : String) :
    (∀ marshal e (w : World) c d, (handleSendMessage marshal e w c d).db.users = w.db.users)
    ∧ (∀ e (w : World) c err req, (handleReadReceipt e w c err req).db.users = w.db.users)
    ∧ (∀ (w : World) c err req, (handleTyping w c err req).db.users = w.db.users)
    ∧ Handler.UpdateMe users now updateOk userID none = (users, 400)
    ∧ (∀ body, (Handler.UpdateMe users now updateOk userID (some body)).1
          = (Update users now updateOk userID body).1
        ∧ ((Update users now updateOk userID body).2 = .ok →
            (Handler.UpdateMe users now updateOk userID (some body)).2 = 200)
        ∧ ((Update users now updateOk userID body).2 ≠ .ok →
            (Handler.UpdateMe users now updateOk userID (some body)).2 = 500))
    ∧ (∀ id, ObjectIDFromHex userID = some id →
        Update users now updateOk userID none = (users, .panicked))
    ∧ Handler.UpdateMe users now updateOk userID (some none) = (users, 500)
    ∧ (∀ updates, (Update users now updateOk userID updates).2 ≠ .ok →
        (Update users now updateOk userID updates).1 = users)
    ∧ (∀ m : UpdateMap, (∀ kv ∈ m, isPresenceKey kv.1 = false) →
        (Update users now updateOk userID (some m)).1.map (fun d => getField d "presence")
          = users.map (fun d => getField d "presence"))
    ∧ (∀ (m : UpdateMap) v id pre d post, ObjectIDFromHex userID = some id →
        users = pre ++ d :: post → (∀ x ∈ pre, hasID id x = false) → hasID id d = true →
        m.filter (fun kv => isPresenceKey kv.1) = [("presence", v)] →
        (Update users now updateOk userID (some m)).2 = .ok →
        ∃ d1, (Update users now updateOk userID (some m)).1 = pre ++ d1 :: post
          ∧ getField d1 "presence" = some v)
    ∧ (∀ v id, ObjectIDFromHex userID = some id →
        (Update users now true userID (some [("presence", v)])).2 = .ok)
    ∧ (∀ (m : UpdateMap) v id pre d post fields, ObjectIDFromHex userID = some id →
        users = pre ++ d :: post → (∀ x ∈ pre, hasID id x = false) → hasID id d = true →
        getField d "presence" = some (.doc fields) →
        m.filter (fun kv => isPresenceKey kv.1) = [("presence.status", v)] →
        (Update users now updateOk userID (some m)).2 = .ok →
        ∃ d1, (Update users now updateOk userID (some m)).1 = pre ++ d1 :: post
          ∧ getField d1 "presence" = some (.doc (setField fields "status" v))) := by
  refine ⟨handleSendMessage_users, ?_, ?_, rfl, ?_, ?_, ?_, ?_, ?_, ?_, ?_, ?_⟩
  · intro e w c err req
    rw [handleReadReceipt_db]
    cases err with
    | true => rfl
    | false => exact (UpdateStatus_frame _ _ _ _ _ _).2.1
  · intro w c err req
    cases err <;> rfl
  · intro body
    simp only [Handler.UpdateMe]
    cases hu : Update users now updateOk userID body with
    | mk us o => cases o <;> simp
  · intro id hid
    simp [Update, hid]
  · simp only [Handler.UpdateMe, Update]
    cases ObjectIDFromHex userID <;> rfl
  · intro updates h
    exact Update_failed users now updateOk userID updates h
  · intro m hm
    have hother := Update_map_other m now hm
    simp only [Update]
    cases ObjectIDFromHex userID with
    | none => rfl
    | some id =>
      simp only []
      split
      · rfl
      · rename_i us hs
        simp only [usersUpdateOne] at hs
        split at hs
        · simp at hs
        · exact updateFirst_map (fun d => getField d "presence") _ _
            (fun d d1 h => applySet_other _ "presence" hother d d1 h) users us hs
  · intro m v id pre d post hid hu hpre hd hm hok
    obtain ⟨d1, hd1, hus⟩ := Update_ok users now updateOk userID m id pre d post hid hu hpre
      hd hok
    refine ⟨d1, hus, ?_⟩
    exact applySet_presence_replace _ v ((Update_map_presence m now).trans hm) d d1 hd1
  · intro v id hid
    simp only [Update, hid]
    have hm : UpdateMap.delete (UpdateMap.delete (UpdateMap.set [("presence", v)]
        "updated_at" (.time now)) "password_hash") "_id"
        = [("presence", v), ("updated_at", .time now)] := by
      simp [UpdateMap.delete, UpdateMap.set]
    rw [hm]
    have hp : segments "presence" = ["presence"] := by decide
    have hq : segments "updated_at" = ["updated_at"] := by decide
    have htot := updateFirst_total (hasID id)
      (applySet [("presence", v), ("updated_at", .time now)])
      (fun d => by rw [applySet_presence_only]; rfl) users
    have hc : usersUpdateOne true id [("presence", v), ("updated_at", .time now)] users
        = updateFirst (hasID id) (applySet [("presence", v), ("updated_at", .time now)])
            users := by
      simp only [usersUpdateOne, List.map, hp, hq]
      rw [if_neg (by decide)]
    rw [hc]
    cases hr : updateFirst (hasID id) (applySet [("presence", v), ("updated_at", .time now)])
        users with
    | none => rw [hr] at htot; cases htot
    | some us => rfl
  · intro m v id pre d post fields hid hu hpre hd hf hm hok
    obtain ⟨d1, hd1, hus⟩ := Update_ok users now updateOk userID m id pre d post hid hu hpre
      hd hok
    refine ⟨d1, hus, ?_⟩
    exact applySet_presence_status _ v ((Update_map_presence m now).trans hm) d d1 fields hf
      hd1

theorem Update_presence_witness :
    ObjectIDFromHex aliceID = some (ObjectID.ofNat 1)
    ∧ sampleUsers = [] ++ encodeUser (sampleUser 1 "alice") :: [encodeUser (sampleUser 2 "bob")]
    ∧ hasID (ObjectID.ofNat 1) (encodeUser (sampleUser 1 "alice")) = true
    ∧ presenceReplace.filter (fun kv => isPresenceKey kv.1) = [("presence", .num 7)]
    ∧ (Update sampleUsers 40 true aliceID (some presenceReplace)).2 = .ok
    ∧ (∃ d1, (Update sampleUsers 40 true aliceID (some presenceReplace)).1
          = [] ++ d1 :: [encodeUser (sampleUser 2 "bob")]
        ∧ getField d1 "presence" = some (.num 7))
    ∧ (∀ kv ∈ statusMessageUpdate, isPresenceKey kv.1 = false)
    ∧ (Update sampleUsers 40 true aliceID (some statusMessageUpdate)).1.map
          (fun d => getField d "status_message") = [some (.str "busy"), none]
    ∧ (Update sampleUsers 40 true aliceID (some statusMessageUpdate)).1.map
          (fun d => getField d "presence")
        = sampleUsers.map (fun d => getField d "presence") :=
  ⟨by decide, rfl, rfl, rfl, rfl,
   (Update_presence sampleUsers 40 true aliceID).2.2.2.2.2.2.2.2.2.1 presenceReplace (.num 7)
     (ObjectID.ofNat 1) [] (encodeUser (sampleUser 1 "alice"))
     [encodeUser (sampleUser 2 "bob")] (by decide) rfl (fun _ h => absurd h (List.not_mem_nil _))
     rfl rfl rfl,
   by decide, rfl,
   (Update_presence sampleUsers 40 true aliceID).2.2.2.2.2.2.2.2.1 statusMessageUpdate
     (by decide)⟩

/-! ## Nothing enforces the order of the delivery statuses -/

theorem beforeAck_split (e : SendEnv) (w : World) (c : Client) (req : SendMessageReq)
    (db : Database) (msg : Message) :
    beforeAck e w c req db msg = deliveredUpgrade e (pushNewMessage w req db msg) c req msg :=
  rfl

/-- `UpdateOne` on a collection split at its first matching document. -/
theorem updateOne_at {α : Type} (p : α → Bool) (f : α → α) (pre : List α) (x : α)
    (post : List α) (hpre : ∀ y ∈ pre, p y = false) (hx : p x = true) :
    updateOne p f (pre ++ x :: post) = pre ++ f x :: post := by
  induction pre with
  | nil => simp [updateOne, hx]
  | cons a t ih =>
    have ha : p a = false := hpre a (List.mem_cons_self _ _)
    have ht : ∀ y ∈ t, p y = false := fun y hy => hpre y (List.mem_cons_of_mem _ hy)
    simp [updateOne, ha, ih ht]

/-- Each delivery-status element after `UpdateStatus` holds the status it held or the
status of the call. -/
theorem UpdateStatus_statusAt (db : Database) (now : Time) (ok : Bool)
    (messageID userID status : String) (i j : Nat) (mid u : ObjectID) (s : String)
    (h : statusAt db.messages i j = some (mid, u, s)) :
    statusAt (UpdateStatus db now ok messageID userID status).1.messages i j
        = some (mid, u, s)
    ∨ statusAt (UpdateStatus db now ok messageID userID status).1.messages i j
        = some (mid, u, status) := by
  unfold UpdateStatus
  cases hm : ObjectIDFromHex messageID with
  | none => exact Or.inl h
  | some msgID =>
    cases hu : ObjectIDFromHex userID with
    | none => exact Or.inl h
    | some uid =>
      cases ok with
      | false => exact Or.inl h
      | true =>
        simp only [Bool.not_true, Bool.false_eq_true, if_false]
        unfold statusAt at h ⊢
        rcases getElem?_updateOne
          (fun m : Message => m.ID = msgID && m.DeliveryStatus.any (fun d => d.UserID = uid))
          (setDeliveryStatus uid status now) db.messages i with h1 | ⟨x, hx, _, h1⟩
        · rw [h1]; exact Or.inl h
        · rw [h1]
          rw [hx] at h
          simp only [Option.some_bind, Option.map_eq_some'] at h ⊢
          obtain ⟨d, hd, hds⟩ := h
          rcases getElem?_updateOne (fun d : DeliveryStatus => d.UserID = uid)
            (fun d => { d with Status := status, Timestamp := now }) x.DeliveryStatus j
            with h2 | ⟨d2, hd2, _, h2⟩
          · left
            refine ⟨d, ?_, hds⟩
            unfold setDeliveryStatus
            simp only []
            rw [h2]
            exact hd
          · right
            rw [hd] at hd2
            cases hd2
            simp only [Prod.mk.injEq] at hds
            obtain ⟨rfl, rfl, rfl⟩ := hds
            refine ⟨{ d with Status := status, Timestamp := now }, ?_, rfl⟩
            unfold setDeliveryStatus
            simp only []
            exact h2

/-- `UpdateStatus` with well-formed ids and an accepting store writes the status of the
call on the first element of the user in the first message that has the id and such an
element, whatever status that element holds. -/
theorem UpdateStatus_writes (db : Database) (now : Time) (messageID userID status : String)
    (msgID uid : ObjectID) (pre post : List Message) (m : Message)
    (dpre dpost : List DeliveryStatus) (d : DeliveryStatus)
    (hm : ObjectIDFromHex messageID = some msgID) (hu : ObjectIDFromHex userID = some uid)
    (hdb : db.messages = pre ++ m :: post)
    (hpre : ∀ x ∈ pre, ¬ (x.ID = msgID ∧ ∃ d ∈ x.DeliveryStatus, d.UserID = uid))
    (hmid : m.ID = msgID) (hds : m.DeliveryStatus = dpre ++ d :: dpost)
    (hdpre : ∀ x ∈ dpre, x.UserID ≠ uid) (hd : d.UserID = uid) :
    (UpdateStatus db now true messageID userID status).1.messages
      = pre ++ { m with DeliveryStatus :=
          dpre ++ { d with Status := status, Timestamp := now } :: dpost } :: post := by
  simp only [UpdateStatus, hm, hu, Bool.not_true, Bool.false_eq_true, if_false, hdb]
  rw [updateOne_at]
  · congr 2
    unfold setDeliveryStatus
    simp only [hds]
    rw [updateOne_at]
    · intro y hy
      simpa using hdpre y hy
    · simpa using hd
  · intro x hx
    have := hpre x hx
    simp only [Bool.and_eq_false_iff, decide_eq_false_iff_not, List.any_eq_false,
      decide_eq_true_eq]
    by_cases h1 : x.ID = msgID
    · right
      intro y hy hyu
      exact this ⟨h1, y, hy, hyu⟩
    · exact Or.inl h1
  · simp only [Bool.and_eq_true, decide_eq_true_eq, List.any_eq_true]
    exact ⟨hmid, d, by rw [hds]; simp, hd⟩

/-- C11, the claim as stated fails. Through the status endpoint: after bob read the message
the store records read for him; a `PUT /api/messages/:id/status` of bob carrying
delivered is answered 200 and the store then records delivered, which is earlier in the
order, so the backward transition is not rejected; and a second read receipt, an equal
transition, rewrites the timestamp of the element. Through the dispatcher alone:
`handleSendMessage` is the push of `new_message`, then the delivered update, then the
ack; when the coordinator serves the push and bob's `read_receipt` for the message is
handled before alice's handler reaches the delivered update, the store records sent, then
read, then delivered. -/
theorem status_backward_counterexample :
    statusAt readWorld.db.messages 0 0 = some (ObjectID.ofNat 500, ObjectID.ofNat 2, "read")
    ∧ (Handler.UpdateStatus readWorld.db 26 true bobID "0000000000000000000001f4"
        (some "delivered")).2 = 200
    ∧ statusAt (Handler.UpdateStatus readWorld.db 26 true bobID "0000000000000000000001f4"
        (some "delivered")).1.messages 0 0
      = some (ObjectID.ofNat 500, ObjectID.ofNat 2, "delivered")
    ∧ statusRank "delivered" < statusRank "read"
    ∧ readWorld.db.messages.map (fun m => m.DeliveryStatus)
      = [[⟨ObjectID.ofNat 2, "read", 25⟩]]
    ∧ (handleReadReceipt (receiptEnv 27) readWorld sessionB1 false
        ⟨"0000000000000000000001f4"⟩).db.messages.map (fun m => m.DeliveryStatus)
      = [[⟨ObjectID.ofNat 2, "read", 27⟩]]
    ∧ handleSendMessage sampleMarshal sendEnvOk sampleWorld sessionA1 sendHi
      = sendAck sampleMarshal
          (deliveredUpgrade sendEnvOk
            (pushNewMessage sampleWorld sendHi.req persistedDB sampleMessage)
            sessionA1 sendHi.req sampleMessage)
          sessionA1 sendHi.req sampleMessage
    ∧ statusAt (pushNewMessage sampleWorld sendHi.req persistedDB sampleMessage).db.messages 0 0
      = some (ObjectID.ofNat 500, ObjectID.ofNat 2, "sent")
    ∧ (pushedWorld.chans sessionB1.Send).buf = ["new_message:hi"]
    ∧ statusAt readEarlyWorld.db.messages 0 0
      = some (ObjectID.ofNat 500, ObjectID.ofNat 2, "read")
    ∧ statusAt (deliveredUpgrade sendEnvOk readEarlyWorld sessionA1 sendHi.req
        sampleMessage).db.messages 0 0
      = some (ObjectID.ofNat 500, ObjectID.ofNat 2, "delivered") :=
  ⟨by decide, by decide, by decide, by decide, by decide, by decide,
   (handleSendMessage_persisted sampleMarshal sendEnvOk sampleWorld sessionA1 sendHi
      (resolveConversation sendEnvOk sampleWorld.db sessionA1 sendHi.req).1 persistedDB
      sampleConversation sampleMessage rfl rfl rfl).trans
      ((afterPersist_split _ _ _ _ _ _ _).trans
        (congrArg (fun x => sendAck sampleMarshal x sessionA1 sendHi.req sampleMessage)
          (beforeAck_split _ _ _ _ _ _))),
   by decide, by decide, by decide, by decide⟩

/-- C11, amended. Nothing enforces the order sent, delivered, read: `UpdateStatus` rejects
no transition. Each update leaves every delivery-status element with the status it held
or with the status the update carries, and on the element it addresses it writes that
status and a new timestamp whatever the element held; `Handler.UpdateStatus` hands the
status of the request to it unchanged. So a `read_receipt`, which carries the last status
of the order, never moves a status backward; and a `send_message` handler whose
statements run with no other update between them, for a message id no stored message has,
never moves a status backward either, its delivered update falling on the element it has
just stored as sent. -/
theorem status_order_not_enforced (db : Database) (now : Time) (messageID userID
    status : String) :
    (∀ e (w : World) c err req,
        StatusLe w.db.messages (handleReadReceipt e w c err req).db.messages)
    ∧ (∀ marshal e (w : World) c d, (∀ m ∈ w.db.messages, m.ID ≠ e.newMsgID) →
        StatusLe w.db.messages (handleSendMessage marshal e w c d).db.messages)
    ∧ (∀ ok i j mid u s, statusAt db.messages i j = some (mid, u, s) →
        statusAt (UpdateStatus db now ok messageID userID status).1.messages i j
            = some (mid, u, s)
        ∨ statusAt (UpdateStatus db now ok messageID userID status).1.messages i j
            = some (mid, u, status))
    ∧ (∀ msgID uid pre post m dpre dpost d,
        ObjectIDFromHex messageID = some msgID → ObjectIDFromHex userID = some uid →
        db.messages = pre ++ m :: post →
        (∀ x ∈ pre, ¬ (x.ID = msgID ∧ ∃ d ∈ x.DeliveryStatus, d.UserID = uid)) →
        m.ID = msgID → m.DeliveryStatus = dpre ++ d :: dpost →
        (∀ x ∈ dpre, x.UserID ≠ uid) → d.UserID = uid →
        (UpdateStatus db now true messageID userID status).1.messages
          = pre ++ { m with DeliveryStatus :=
              dpre ++ { d with Status := status, Timestamp := now } :: dpost } :: post)
    ∧ (∀ ok, (Handler.UpdateStatus db now ok userID messageID (some status)).1
        = (UpdateStatus db now ok messageID userID status).1) := by
  refine ⟨handleReadReceipt_StatusLe, handleSendMessage_StatusLe, ?_, ?_, ?_⟩
  · intro ok i j mid u s h
    exact UpdateStatus_statusAt db now ok messageID userID status i j mid u s h
  · intro msgID uid pre post m dpre dpost d hm hu hdb hpre hmid hds hdpre hd
    exact UpdateStatus_writes db now messageID userID status msgID uid pre post m dpre dpost d
      hm hu hdb hpre hmid hds hdpre hd
  · intro ok
    unfold Handler.UpdateStatus
    simp only []
    split <;> simp_all

theorem status_order_not_enforced_witness :
    (∀ m ∈ readWorld.db.messages, m.ID ≠ sendEnvOk2.newMsgID)
    ∧ statusAt readWorld.db.messages 0 0
      = some (ObjectID.ofNat 500, ObjectID.ofNat 2, "read")
    ∧ statusAt (handleSendMessage sampleMarshal sendEnvOk2 readWorld sessionA1
        sendHi).db.messages 1 0
      = some (ObjectID.ofNat 501, ObjectID.ofNat 2, "delivered")
    ∧ ∃ s1, statusAt (handleSendMessage sampleMarshal sendEnvOk2 readWorld sessionA1
          sendHi).db.messages 0 0
          = some (ObjectID.ofNat 500, ObjectID.ofNat 2, s1)
        ∧ statusRank "read" ≤ statusRank s1 :=
  ⟨by decide, by decide, by decide,
   (status_order_not_enforced readWorld.db 26 "0000000000000000000001f4" bobID
      "delivered").2.1 sampleMarshal sendEnvOk2 readWorld sessionA1 sendHi (by decide) 0 0
      (ObjectID.ofNat 500) (ObjectID.ofNat 2) "read" (by decide)⟩

end Messaging
